import Mathlib

/-!
# Pixel Streaming: Streamer / session manager, encoder factory, frame capturer

A shallow embedding of `FStreamer`
(`Engine/Plugins/Media/PixelStreaming/Source/PixelStreaming/Private/Streamer.cpp`)
as pure functions over an explicit state, followed by `AVEncoder::FVideoEncoderFactory`
with `FVideoEncoder::FLayerConfig`, and by `FVideoCapturer`.

* `Players` is a `TMap<FPlayerId, TUniquePtr<FPlayerSession>>`.  The map is
  represented by its pairs in iteration order.  Mutating a session through a
  pointer obtained from the map is a functional update of the stored value.
* `FPlayerSession` lives in `PlayerSession.cpp`, which is not part of the
  source tree at hand.  A session is represented by the data the Streamer
  reads and writes (`PlayerId`, the quality-controller flag, the senders of
  its peer connection) together with the list of calls it has received.
* `check`/`checkf` on the Streamer's own state abort; such a function returns
  `Option` and `none` stands for the failed assertion.  `check`s on results of
  the WebRTC library (`PeerConnectionFactory`, `CreatePeerConnection`) are
  assumed to pass.
* `FScopeLock PlayersLock(&PlayersCS)` has no sequential content and is left
  out.
-/

set_option linter.unusedSectionVars false
set_option linter.unusedVariables false

namespace PixelStreaming

/-! ## Data model -/

/-- Player ids are `FString`s; equality on `FPlayerId` stands for `FString::operator==`,
the comparison used both by `TMap` look-up and by `OnQualityOwnership`. -/
abbrev FPlayerId := String

/-- One byte of a `TArray64<uint8>`. -/
abbrev uint8 := Fin 256

/-- Modelled from the spec: `PixelStreamingProtocol::EToPlayerMsg` (declared in
`ProtocolDefs.h`, not in the source tree), the numeric message-type tags of the
outgoing control messages listed in the spec, section 6. -/
inductive EToPlayerMsg where
  | Response
  | Command
  | FreezeFrame
  | UnfreezeFrame
  | LatencyTest
  deriving DecidableEq, Repr

/-- The values of `webrtc::DegradationPreference`. -/
inductive EDegradationPreference where
  | DISABLED
  | MAINTAIN_FRAMERATE
  | MAINTAIN_RESOLUTION
  | BALANCED
  deriving DecidableEq, Repr

/-- The values of `webrtc::VideoTrackInterface::ContentHint`. -/
inductive EContentHint where
  | kNone
  | kFluid
  | kDetailed
  | kText
  deriving DecidableEq, Repr

/-- Kind of a media track. -/
inductive ETrackKind where
  | Audio
  | Video
  deriving DecidableEq, Repr

/-- A media track attached to a peer connection by `AddTrack`. -/
structure FMediaTrack where
  Kind : ETrackKind
  Label : String
  StreamId : String
  ContentHint : EContentHint
  deriving DecidableEq, Repr

/-- A call received by a player session from the Streamer. -/
inductive FSessionCall where
  | OnOffer (Sdp : String)
  | OnRemoteIceCandidate (Candidate : String)
  | SendKeyFrame
  | SendFreezeFrame (JpegBytes : List uint8)
  | SendUnfreezeFrame
  | SendMessage (MsgType : EToPlayerMsg) (Descriptor : String)
  deriving DecidableEq, Repr

/-- Modelled from the spec: `FPlayerSession` (`PlayerSession.cpp` is not in the source
tree).  A session owns one peer connection (here: its `Senders`), the boolean
quality-controller flag, and exposes `OnOffer`, `SendMessage`, `SendFreezeFrame`,
`SendUnfreezeFrame` and `SendKeyFrame`, thin wrappers that push a message on the
connection; `Calls` records them in order. -/
structure FPlayerSession where
  PlayerId : FPlayerId
  bQualityController : Bool
  Senders : List FMediaTrack
  Calls : List FSessionCall
  deriving DecidableEq, Repr

namespace FPlayerSession

/-- The constructor `FPlayerSession(Streamer, PlayerId, bOriginalQualityController)`
followed by `SetPeerConnection` with a fresh peer connection (no senders). -/
def New (PlayerId : FPlayerId) (bOriginalQualityController : Bool) : FPlayerSession :=
  { PlayerId := PlayerId, bQualityController := bOriginalQualityController,
    Senders := [], Calls := [] }

def GetPlayerId (P : FPlayerSession) : FPlayerId := P.PlayerId

def IsQualityController (P : FPlayerSession) : Bool := P.bQualityController

def SetQualityController (P : FPlayerSession) (bControlsQuality : Bool) : FPlayerSession :=
  { P with bQualityController := bControlsQuality }

/-- Records a call on the session. -/
def Receive (P : FPlayerSession) (c : FSessionCall) : FPlayerSession :=
  { P with Calls := P.Calls ++ [c] }

def OnOffer (P : FPlayerSession) (Sdp : String) : FPlayerSession :=
  P.Receive (.OnOffer Sdp)

def OnRemoteIceCandidate (P : FPlayerSession) (Candidate : String) : FPlayerSession :=
  P.Receive (.OnRemoteIceCandidate Candidate)

def SendKeyFrame (P : FPlayerSession) : FPlayerSession :=
  P.Receive .SendKeyFrame

def SendFreezeFrame (P : FPlayerSession) (JpegBytes : List uint8) : FPlayerSession :=
  P.Receive (.SendFreezeFrame JpegBytes)

def SendUnfreezeFrame (P : FPlayerSession) : FPlayerSession :=
  P.Receive .SendUnfreezeFrame

def SendMessage (P : FPlayerSession) (MsgType : EToPlayerMsg) (Descriptor : String) :
    FPlayerSession :=
  P.Receive (.SendMessage MsgType Descriptor)

/-- The result of `GetPeerConnection().AddTrack(Track, ...)`: on success the peer
connection gains a sender for the track, on failure it is unchanged. -/
def AddTrack (P : FPlayerSession) (Track : FMediaTrack) (bOk : Bool) : FPlayerSession :=
  if bOk then { P with Senders := P.Senders ++ [Track] } else P

end FPlayerSession

/-- Modelled from the spec: Unreal's `TMap` (`Containers/Map.h` is not in the source
tree), the "ConnectionId -> Session map" with a deterministic iteration order
("first-in-map").  It is given by its pairs in iteration order; `TMap` keeps at most one
pair per key. -/
structure TMap (K V : Type) where
  Pairs : List (K × V)
  deriving DecidableEq, Repr

namespace TMap

variable {K V : Type} [DecidableEq K]

def Empty : TMap K V := { Pairs := [] }

def Num (m : TMap K V) : Nat := m.Pairs.length

/-- The value stored for `Key`, if any. -/
def Find (m : TMap K V) (Key : K) : Option V :=
  (m.Pairs.find? (fun e => decide (e.1 = Key))).map Prod.snd

/-- The method `TMap::Add`: an existing pair for `Key` is replaced in place; a new pair is
stored in a slot chosen by the container (a freed slot may be reused, so the new
pair need not come last in iteration order): `Slot` is the position it takes. -/
def Add (m : TMap K V) (Slot : Nat) (Key : K) (Value : V) : TMap K V :=
  if (m.Find Key).isSome then
    { Pairs := m.Pairs.map (fun e => if e.1 = Key then (Key, Value) else e) }
  else
    { Pairs := m.Pairs.take Slot ++ (Key, Value) :: m.Pairs.drop Slot }

/-- The method `TMap::Remove`: removes the pairs stored for `Key`; the others keep their
relative order. -/
def Remove (m : TMap K V) (Key : K) : TMap K V :=
  { Pairs := m.Pairs.filter (fun e => !decide (e.1 = Key)) }

/-- The method `TMap::GetKeys`: the keys in iteration order. -/
def GetKeys (m : TMap K V) : List K := m.Pairs.map Prod.fst

/-- The key at `CreateIterator()`, the first pair in iteration order. -/
def FirstKey (m : TMap K V) : Option K := m.Pairs.head?.map Prod.fst

/-- A ranged-for over the map that calls a mutating method on every value. -/
def ForEach (m : TMap K V) (f : V → V) : TMap K V :=
  { Pairs := m.Pairs.map (fun e => (e.1, f e.2)) }

/-- Applies `f` to the value of the first pair stored for `Key`. -/
def ModifyPairs (Key : K) (f : V → V) : List (K × V) → List (K × V)
  | [] => []
  | e :: rest =>
    if e.1 = Key then (e.1, f e.2) :: rest else e :: ModifyPairs Key f rest

/-- Mutation, through the pointer returned by `Find`, of the value stored for `Key`
(the first pair found for it). -/
def Modify (m : TMap K V) (Key : K) (f : V → V) : TMap K V :=
  { Pairs := ModifyPairs Key f m.Pairs }

end TMap

/-- `FSignallingServerConnection(SignallingServerUrl, *this, StreamerId)`: the data a
signalling-server connection is constructed with. -/
structure FSignallingServerConnection where
  Url : String
  StreamerId : String
  deriving DecidableEq, Repr

/-- Effects of the Streamer on its collaborators, in the order they happen. -/
inductive FStreamerEffect where
  | AllConnectionsClosedBroadcast
  | SignallingServerConnectionCreated (Connection : FSignallingServerConnection)
  | VideoSourceFrameReady (FrameBuffer : Nat)
  deriving DecidableEq, Repr

/-- What the collaborators answer during one `OnOffer`: the iteration slot `TMap::Add`
gives a new pair, the results of the two `AddTrack` calls, and
`PixelStreamingSettings::GetDegradationPreference()`. -/
structure FOfferEnv where
  Slot : Nat
  bAddAudioTrackOk : Bool
  bAddVideoTrackOk : Bool
  DegradationPref : EDegradationPreference
  deriving DecidableEq, Repr

/-- The members of `FStreamer` used by `Streamer.cpp`.  `bDelegates` tells whether
`UPixelStreamerDelegates::GetPixelStreamerDelegates()` returns an object
(`FPixelStreamingModule::InitStreamer` calls `UPixelStreamerDelegates::CreateInstance()`
before it constructs the Streamer); `Effects` records the effects on collaborators. -/
structure FStreamer where
  SignallingServerUrl : String
  StreamerId : String
  SignallingServerConnection : Option FSignallingServerConnection
  Players : TMap FPlayerId FPlayerSession
  bStreamingStarted : Bool
  CachedJpegBytes : List uint8
  AudioSource : Bool
  VideoSource : Bool
  bDelegates : Bool
  Effects : List FStreamerEffect
  deriving DecidableEq, Repr

namespace FStreamer

/-! ## Operations of `FStreamer` -/

/-- `FStreamer::FStreamer(InSignallingServerUrl, InStreamerId)` up to the first
`ConnectToSignallingServer`: no sessions, nothing cached. -/
def New (InSignallingServerUrl InStreamerId : String) : FStreamer :=
  { SignallingServerUrl := InSignallingServerUrl, StreamerId := InStreamerId,
    SignallingServerConnection := none, Players := TMap.Empty,
    bStreamingStarted := false, CachedJpegBytes := [],
    AudioSource := false, VideoSource := false, bDelegates := true, Effects := [] }

/-- `FStreamer::ConnectToSignallingServer`. -/
def ConnectToSignallingServer (s : FStreamer) : FStreamer :=
  let Connection : FSignallingServerConnection :=
    { Url := s.SignallingServerUrl, StreamerId := s.StreamerId }
  { s with SignallingServerConnection := some Connection,
           Effects := s.Effects ++ [.SignallingServerConnectionCreated Connection] }

/-- `FStreamer::OnFrameBufferReady`. -/
def OnFrameBufferReady (s : FStreamer) (FrameBuffer : Nat) : FStreamer :=
  if s.bStreamingStarted && s.VideoSource then
    { s with Effects := s.Effects ++ [.VideoSourceFrameReady FrameBuffer] }
  else s

/-- `FStreamer::GetPlayerSession`. -/
def GetPlayerSession (s : FStreamer) (PlayerId : FPlayerId) : Option FPlayerSession :=
  s.Players.Find PlayerId

/-- `FStreamer::OnRemoteIceCandidate`; `none` is the failed `checkf(Player)`. -/
def OnRemoteIceCandidate (s : FStreamer) (PlayerId : FPlayerId) (Candidate : String) :
    Option FStreamer :=
  match s.GetPlayerSession PlayerId with
  | none => none
  | some _ =>
    some { s with Players := s.Players.Modify PlayerId
                    (fun P => P.OnRemoteIceCandidate Candidate) }

/-- `FStreamer::CreatePlayerSession`. -/
def CreatePlayerSession (s : FStreamer) (Slot : Nat) (PlayerId : FPlayerId) : FStreamer :=
  if (s.Players.Find PlayerId).isSome then s
  else
    let bOriginalQualityController : Bool := s.Players.Num == 0
    let Session := FPlayerSession.New PlayerId bOriginalQualityController
    { s with Players := s.Players.Add Slot PlayerId Session }

/-- `FStreamer::OnQualityOwnership`; `none` is the failed `checkf(GetPlayerSession(PlayerId))`. -/
def OnQualityOwnership (s : FStreamer) (PlayerId : FPlayerId) : Option FStreamer :=
  match s.GetPlayerSession PlayerId with
  | none => none
  | some _ =>
    some { s with Players := s.Players.ForEach
                    (fun Player => Player.SetQualityController
                      (if Player.GetPlayerId = PlayerId then true else false)) }

/-- `FStreamer::DeletePlayerSession`; `none` is a failed `check`. -/
def DeletePlayerSession (s : FStreamer) (PlayerId : FPlayerId) : Option FStreamer :=
  match s.GetPlayerSession PlayerId with
  | none => some s
  | some Player =>
    let bWasQualityController := Player.IsQualityController
    let s1 := { s with Players := s.Players.Remove PlayerId }
    if s1.Players.Num == 0 then
      let s2 := { s1 with bStreamingStarted := false }
      if s2.bDelegates then
        some { s2 with Effects := s2.Effects ++ [.AllConnectionsClosedBroadcast] }
      else some s2
    else if bWasQualityController then
      match s1.Players.GetKeys with
      | [] => none
      | PlayerId0 :: _ => s1.OnQualityOwnership PlayerId0
    else some s1

/-- `FStreamer::OnPlayerDisconnected`. -/
def OnPlayerDisconnected (s : FStreamer) (PlayerId : FPlayerId) : Option FStreamer :=
  s.DeletePlayerSession PlayerId

/-- `FStreamer::DeleteAllPlayerSessions`: the `while (Players.Num() > 0)` loop, run for at
most `Fuel` iterations; `none` when the fuel runs out or a `check` fails. -/
def DeleteAllPlayerSessions : Nat → FStreamer → Option FStreamer
  | Fuel, s =>
    if s.Players.Num > 0 then
      match Fuel with
      | 0 => none
      | Fuel + 1 =>
        match s.Players.FirstKey with
        | none => none
        | some Key =>
          match s.DeletePlayerSession Key with
          | none => none
          | some s1 => DeleteAllPlayerSessions Fuel s1
    else some s

/-- `FStreamer::OnSignallingServerDisconnected`. -/
def OnSignallingServerDisconnected (Fuel : Nat) (s : FStreamer) : Option FStreamer :=
  (s.DeleteAllPlayerSessions Fuel).map ConnectToSignallingServer

/-- The video track created by `AddStreams`, with the content hint it ends up with when
`AddTrack` succeeded. -/
def VideoTrackFor (PlayerId : FPlayerId) (bAdded : Bool)
    (DegradationPref : EDegradationPreference) : FMediaTrack :=
  { Kind := .Video, Label := "video_label_" ++ PlayerId, StreamId := "stream_id",
    ContentHint :=
      if bAdded then
        match DegradationPref with
        | .MAINTAIN_FRAMERATE => .kFluid
        | .MAINTAIN_RESOLUTION => .kDetailed
        | _ => .kNone
      else .kNone }

/-- The audio track created by `AddStreams`. -/
def AudioTrackFor (PlayerId : FPlayerId) : FMediaTrack :=
  { Kind := .Audio, Label := "audio_label_" ++ PlayerId, StreamId := "stream_id",
    ContentHint := .kNone }

/-- `FStreamer::AddStreams`; `none` is the failed `check(Session)`. -/
def AddStreams (s : FStreamer) (Env : FOfferEnv) (PlayerId : FPlayerId) : Option FStreamer :=
  match s.GetPlayerSession PlayerId with
  | none => none
  | some Session =>
    if !Session.Senders.isEmpty then some s
    else
      let VideoTrack := VideoTrackFor PlayerId Env.bAddVideoTrackOk Env.DegradationPref
      let AudioTrack := AudioTrackFor PlayerId
      some { s with
        AudioSource := true
        VideoSource := true
        Players := s.Players.Modify PlayerId (fun P =>
          (P.AddTrack AudioTrack Env.bAddAudioTrackOk).AddTrack VideoTrack
            Env.bAddVideoTrackOk) }

/-- `FStreamer::OnOffer`; `none` is a failed `check`. -/
def OnOffer (s : FStreamer) (Env : FOfferEnv) (PlayerId : FPlayerId) (Sdp : String) :
    Option FStreamer :=
  let s1 := s.CreatePlayerSession Env.Slot PlayerId
  match s1.AddStreams Env PlayerId with
  | none => none
  | some s2 =>
    match s2.GetPlayerSession PlayerId with
    | none => none
    | some _ =>
      let s3 := { s2 with Players := s2.Players.Modify PlayerId (fun P => P.OnOffer Sdp) }
      some { s3 with Players := s3.Players.ForEach (fun P => P.SendKeyFrame) }

/-- `FStreamer::SendPlayerMessage`. -/
def SendPlayerMessage (s : FStreamer) (MsgType : EToPlayerMsg) (Descriptor : String) :
    FStreamer :=
  { s with Players := s.Players.ForEach (fun P => P.SendMessage MsgType Descriptor) }

/-- `FStreamer::SendFreezeFrame`. -/
def SendFreezeFrame (s : FStreamer) (JpegBytes : List uint8) : FStreamer :=
  { s with Players := s.Players.ForEach (fun P => P.SendFreezeFrame JpegBytes),
           CachedJpegBytes := JpegBytes }

/-- `FStreamer::SendCachedFreezeFrameTo`: the state of `Player` after the call. -/
def SendCachedFreezeFrameTo (s : FStreamer) (Player : FPlayerSession) : FPlayerSession :=
  if s.CachedJpegBytes.length > 0 then Player.SendFreezeFrame s.CachedJpegBytes
  else Player

/-- `FStreamer::SendUnfreezeFrame`. -/
def SendUnfreezeFrame (s : FStreamer) : FStreamer :=
  { s with Players := s.Players.ForEach (fun P => P.SendUnfreezeFrame),
           CachedJpegBytes := [] }

/-! ## Call sequences and well-formedness -/

/-- A call on the Streamer coming from the signalling connection or from a session. -/
inductive Call where
  | OnOffer (Env : FOfferEnv) (PlayerId : FPlayerId) (Sdp : String)
  | OnPlayerDisconnected (PlayerId : FPlayerId)
  | OnQualityOwnership (PlayerId : FPlayerId)
  deriving DecidableEq, Repr

/-- Performs one call. -/
def Step (s : FStreamer) : Call → Option FStreamer
  | .OnOffer Env PlayerId Sdp => s.OnOffer Env PlayerId Sdp
  | .OnPlayerDisconnected PlayerId => s.OnPlayerDisconnected PlayerId
  | .OnQualityOwnership PlayerId => s.OnQualityOwnership PlayerId

/-- Performs a finite sequence of calls, in order. -/
def Run (s : FStreamer) : List Call → Option FStreamer
  | [] => some s
  | c :: rest =>
    match s.Step c with
    | none => none
    | some s1 => s1.Run rest

/-- The number of pairs whose session has the quality-controller flag set. -/
def CountQualityControllers (L : List (FPlayerId × FPlayerSession)) : Nat :=
  L.countP (fun e => e.2.IsQualityController)

/-- The number of sessions whose quality-controller flag is set. -/
def NumQualityControllers (s : FStreamer) : Nat :=
  CountQualityControllers s.Players.Pairs

/-- One pair per key, and every session is stored under its own `PlayerId`. -/
def PairsWellFormed (L : List (FPlayerId × FPlayerSession)) : Prop :=
  (L.map Prod.fst).Nodup ∧ ∀ e ∈ L, e.2.PlayerId = e.1

/-- Representation invariant of `Players`: one pair per key, and every session is stored
under its own `PlayerId`. -/
def WellFormed (s : FStreamer) : Prop := PairsWellFormed s.Players.Pairs

instance (s : FStreamer) : Decidable s.WellFormed := by
  unfold WellFormed PairsWellFormed; infer_instance

/-- The quality-controller invariant: the map is well formed and exactly one session is
the quality controller unless there is no session at all. -/
def QualityInvariant (s : FStreamer) : Prop :=
  s.WellFormed ∧ s.NumQualityControllers = if s.Players.Num = 0 then 0 else 1

/-- What `AddStreams` does to a session without senders: the two `AddTrack` calls. -/
def AttachTracks (Env : FOfferEnv) (PlayerId : FPlayerId) (P : FPlayerSession) :
    FPlayerSession :=
  (P.AddTrack (AudioTrackFor PlayerId) Env.bAddAudioTrackOk).AddTrack
    (VideoTrackFor PlayerId Env.bAddVideoTrackOk Env.DegradationPref) Env.bAddVideoTrackOk

/-- The freeze-frame payloads a session has been sent, in order. -/
def ReceivedFreezeFrames (P : FPlayerSession) : List (List uint8) :=
  P.Calls.filterMap (fun c =>
    match c with
    | .SendFreezeFrame JpegBytes => some JpegBytes
    | _ => none)

/-- The freeze-frame round trip: after `SendFreezeFrame(JpegBytes)` and an `OnOffer` for
`id`, the session stored for `id`, once `SendCachedFreezeFrameTo` has been applied to
it, has been sent exactly one freeze frame, `JpegBytes`. -/
def FreezeRoundTrip (s : FStreamer) (JpegBytes : List uint8) (Env : FOfferEnv)
    (id : FPlayerId) (Sdp : String) : Prop :=
  ∃ s1 P, (s.SendFreezeFrame JpegBytes).OnOffer Env id Sdp = some s1 ∧
    s1.Players.Find id = some P ∧
    ReceivedFreezeFrames (s1.SendCachedFreezeFrameTo P) = [JpegBytes]

/-- A call that removes sessions. -/
inductive RemovalCall where
  | OnPlayerDisconnected (PlayerId : FPlayerId)
  | OnSignallingServerDisconnected
  deriving DecidableEq, Repr

/-- Performs one removing call; `Fuel` bounds the loop of `DeleteAllPlayerSessions`. -/
def StepRemoval (Fuel : Nat) (s : FStreamer) : RemovalCall → Option FStreamer
  | .OnPlayerDisconnected PlayerId => s.OnPlayerDisconnected PlayerId
  | .OnSignallingServerDisconnected => s.OnSignallingServerDisconnected Fuel

/-- Performs a finite sequence of removing calls, in order. -/
def RunRemovals (Fuel : Nat) (s : FStreamer) : List RemovalCall → Option FStreamer
  | [] => some s
  | c :: rest =>
    match s.StepRemoval Fuel c with
    | none => none
    | some s1 => s1.RunRemovals Fuel rest

/-- The number of senders of a session's peer connection that carry a track of `Kind`. -/
def NumSenders (Kind : ETrackKind) (P : FPlayerSession) : Nat :=
  P.Senders.countP (fun Track => decide (Track.Kind = Kind))

/-- The session of the first player of the scenario after its offer, both `AddTrack`
calls having succeeded. -/
def ScenarioFirst (Env1 : FOfferEnv) (p1 : FPlayerId) (Sdp1 : String) : FPlayerSession :=
  { PlayerId := p1, bQualityController := true,
    Senders := [AudioTrackFor p1, VideoTrackFor p1 true Env1.DegradationPref],
    Calls := [.OnOffer Sdp1, .SendKeyFrame] }

/-- The session of the second player of the scenario after its offer. -/
def ScenarioSecond (Env2 : FOfferEnv) (p2 : FPlayerId) (Sdp2 : String) : FPlayerSession :=
  { PlayerId := p2, bQualityController := false,
    Senders := (AttachTracks Env2 p2 (FPlayerSession.New p2 false)).Senders,
    Calls := [.OnOffer Sdp2, .SendKeyFrame] }

/-- The number of `SendKeyFrame` calls a session has received. -/
def NumKeyFrameRequests (P : FPlayerSession) : Nat :=
  P.Calls.count .SendKeyFrame

end FStreamer

end PixelStreaming

/-! ## Concrete states -/

namespace PixelStreaming

namespace Demo

/-- Both `AddTrack` calls succeed and a new pair is stored first in iteration order. -/
def Env : FOfferEnv :=
  { Slot := 0, bAddAudioTrackOk := true, bAddVideoTrackOk := true,
    DegradationPref := .MAINTAIN_FRAMERATE }

/-- A Streamer without sessions. -/
def Start : FStreamer := FStreamer.New "ws://host:8888" "streamer"

/-- The senders of a session of player `id` after a successful `AddStreams`. -/
def Tracks (id : FPlayerId) : List FMediaTrack :=
  [{ Kind := .Audio, Label := "audio_label_" ++ id, StreamId := "stream_id",
     ContentHint := .kNone },
   { Kind := .Video, Label := "video_label_" ++ id, StreamId := "stream_id",
     ContentHint := .kFluid }]

/-- Offers from `p1` and `p2`, ownership handed to `p2`, then `p2` disconnects. -/
def Calls : List FStreamer.Call :=
  [.OnOffer Env "p1" "sdp1", .OnOffer Env "p2" "sdp2", .OnQualityOwnership "p2",
   .OnPlayerDisconnected "p2"]

/-- The state `Start` is in after `Calls`. -/
def AfterCalls : FStreamer :=
  { Start with
    Players := { Pairs := [("p1",
      { PlayerId := "p1", bQualityController := true, Senders := Tracks "p1",
        Calls := [.OnOffer "sdp1", .SendKeyFrame, .SendKeyFrame] })] }
    AudioSource := true
    VideoSource := true }

/-- The session of `p1` in `TwoPlayers`. -/
def SessionP1 : FPlayerSession :=
  { PlayerId := "p1", bQualityController := true, Senders := Tracks "p1",
    Calls := [.OnOffer "sdp1", .SendKeyFrame, .SendKeyFrame] }

/-- The session of `p2` in `TwoPlayers`. -/
def SessionP2 : FPlayerSession :=
  { PlayerId := "p2", bQualityController := false, Senders := Tracks "p2",
    Calls := [.OnOffer "sdp2", .SendKeyFrame] }

/-- Two sessions, `p2` first in iteration order, `p1` the quality controller. -/
def TwoPlayers : FStreamer :=
  { Start with
    Players := { Pairs := [("p2", SessionP2), ("p1", SessionP1)] }
    AudioSource := true
    VideoSource := true }

/-- One session, `p1`, with streaming started. -/
def Streaming : FStreamer :=
  { AfterCalls with bStreamingStarted := true }

/-- The session of `p1` right after its first offer. -/
def JoinedP1 : FPlayerSession :=
  { PlayerId := "p1", bQualityController := true, Senders := Tracks "p1",
    Calls := [.OnOffer "sdp1", .SendKeyFrame] }

/-- The state of `Start` after `SendFreezeFrame` with no bytes and an offer from `p1`. -/
def EmptyFreezeJoined : FStreamer :=
  { Start with
    Players := { Pairs := [("p1", JoinedP1)] }
    AudioSource := true
    VideoSource := true }

end Demo

end PixelStreaming

/-! ## The video encoder factory (`AVEncoder`)

`FVideoEncoderFactory` (`Runtime/AVEncoder/Private/VideoEncoderFactory.cpp`) and
`FVideoEncoder::FLayerConfig` (`Runtime/AVEncoder/Public/VideoEncoder.h`).  `uint32` values
are natural numbers and `int32` values integers; the counter `NextID` wraps like an
`int32`. -/

namespace AVEncoder

/-- Modelled from the spec: `ECodecType` (declared in `VideoCommon.h`, not in the source
tree), the codec an encoder backend is registered for. -/
inductive ECodecType where
  | Undefined
  | H264
  | MPEG4
  | VP8
  deriving DecidableEq, Repr

namespace FVideoEncoder

/-- `enum class RateControlMode`. -/
inductive RateControlMode where
  | UNKNOWN
  | CONSTQP
  | VBR
  | CBR
  deriving DecidableEq, Repr

/-- `enum class MultipassMode`. -/
inductive MultipassMode where
  | UNKNOWN
  | DISABLED
  | QUARTER
  | FULL
  deriving DecidableEq, Repr

/-- `struct FLayerConfig`, with its default member initialisers. -/
structure FLayerConfig where
  Width : Nat := 0
  Height : Nat := 0
  MaxFramerate : Nat := 0
  MaxBitrate : Int := 0
  TargetBitrate : Int := 0
  QPMax : Int := -1
  QPMin : Int := -1
  RateControlMode : FVideoEncoder.RateControlMode := .CBR
  MultipassMode : FVideoEncoder.MultipassMode := .FULL
  FillData : Bool := false
  deriving DecidableEq, Repr

namespace FLayerConfig

/-- `bool operator==(FLayerConfig const& other) const`. -/
def operatorEq (a other : FLayerConfig) : Bool :=
  a.Width == other.Width
    && a.Height == other.Height
    && a.MaxFramerate == other.MaxFramerate
    && a.MaxBitrate == other.MaxBitrate
    && a.TargetBitrate == other.TargetBitrate
    && a.QPMax == other.QPMax
    && a.QPMin == other.QPMin
    && a.RateControlMode == other.RateControlMode
    && a.MultipassMode == other.MultipassMode
    && a.FillData == other.FillData

/-- `bool operator!=(FLayerConfig const& other) const`. -/
def operatorNe (a other : FLayerConfig) : Bool :=
  !(a.operatorEq other)

end FLayerConfig

end FVideoEncoder

open FVideoEncoder

/-- The members of `FVideoEncoderInput` declared in `VideoEncoderInput.h`: an input pool
is told apart by its resolution and whether it is resizable. -/
structure FVideoEncoderInput where
  Width : Nat
  Height : Nat
  bIsResizable : Bool
  deriving DecidableEq, Repr

/-- An encoder instance.  `Setup` is virtual: `SetupResult` is what the backend's `Setup`
answers, and `SetupCalls` records the `Setup` calls made on the instance. -/
structure FVideoEncoder where
  SetupResult : FVideoEncoderInput → FLayerConfig → Bool
  SetupCalls : List (FVideoEncoderInput × FLayerConfig)

/-- `FVideoEncoder::Setup(input, config)`: the answer and the encoder after the call. -/
def FVideoEncoder.Setup (E : FVideoEncoder) (input : FVideoEncoderInput)
    (config : FLayerConfig) : Bool × FVideoEncoder :=
  (E.SetupResult input config, { E with SetupCalls := E.SetupCalls ++ [(input, config)] })

/-- The members of `FVideoEncoderInfo` (declared in `VideoCommon.h`, not in the source
tree) that the factory reads and writes, `ID` and `CodecType`, and the size limits it
carries along. -/
structure FVideoEncoderInfo where
  ID : Nat := 0
  CodecType : ECodecType := .Undefined
  MaxWidth : Nat := 0
  MaxHeight : Nat := 0
  deriving DecidableEq, Repr

/-- `CreateEncoderCallback`, a `TFunction<TUniquePtr<FVideoEncoder>()>`; `none` is a null
pointer. -/
abbrev CreateEncoderCallback := Unit → Option FVideoEncoder

/-- The value an `int32` holds after an arithmetic result `x`. -/
def WrapInt32 (x : Int) : Int := (x + 2 ^ 31) % 2 ^ 32 - 2 ^ 31

/-- Conversion of an `int32` to `uint32`. -/
def ToUInt32 (x : Int) : Nat := (x % 2 ^ 32).toNat

/-- The state of the factory singleton; `NextID` is the static `FThreadSafeCounter`. -/
structure FVideoEncoderFactory where
  AvailableEncoders : List FVideoEncoderInfo
  CreateEncoders : List CreateEncoderCallback
  NextID : Int

namespace FVideoEncoderFactory

/-- The singleton before any registration: `NextID = 4711`. -/
def Initial : FVideoEncoderFactory :=
  { AvailableEncoders := [], CreateEncoders := [], NextID := 4711 }

/-- `FVideoEncoderFactory::Register`. -/
def Register (F : FVideoEncoderFactory) (InInfo : FVideoEncoderInfo)
    (InCreateEncoder : CreateEncoderCallback) : FVideoEncoderFactory :=
  let NewID := WrapInt32 (F.NextID + 1)
  { AvailableEncoders := F.AvailableEncoders ++ [{ InInfo with ID := ToUInt32 NewID }],
    CreateEncoders := F.CreateEncoders ++ [InCreateEncoder],
    NextID := NewID }

/-- Performs `Register` for a finite sequence of registrations, in order. -/
def RegisterAll (F : FVideoEncoderFactory)
    (Registrations : List (FVideoEncoderInfo × CreateEncoderCallback)) :
    FVideoEncoderFactory :=
  Registrations.foldl (fun G r => G.Register r.1 r.2) F

/-- The ids of the registered encoders, in registration order. -/
def RegisteredIDs (F : FVideoEncoderFactory) : List Nat :=
  F.AvailableEncoders.map (fun Info => Info.ID)

/-- The loop `for (Index = 0; Index < AvailableEncoders.Num(); ++Index)` up to its first
`AvailableEncoders[Index].ID == InID`: that index, if there is one. -/
def IndexOfID (InID : Nat) : List FVideoEncoderInfo → Option Nat
  | [] => none
  | Info :: Rest => if Info.ID = InID then some 0 else (IndexOfID InID Rest).map (· + 1)

/-- `FVideoEncoderFactory::GetInfo`: `some OutInfo` for `true`, `none` for `false`. -/
def GetInfo (F : FVideoEncoderFactory) (InID : Nat) : Option FVideoEncoderInfo :=
  match IndexOfID InID F.AvailableEncoders with
  | none => none
  | some Index => F.AvailableEncoders[Index]?

/-- `FVideoEncoderFactory::HasEncoderForCodec`. -/
def HasEncoderForCodec (F : FVideoEncoderFactory) (CodecType : ECodecType) : Bool :=
  F.AvailableEncoders.any (fun EncoderInfo => decide (EncoderInfo.CodecType = CodecType))

/-- `FVideoEncoderFactory::Create(InID, InInput, config)`.  The outer `none` is an array
index out of range (`CreateEncoders[Index]`); `some none` is a null result. -/
def Create (F : FVideoEncoderFactory) (InID : Nat) (InInput : Option FVideoEncoderInput)
    (config : FLayerConfig) : Option (Option FVideoEncoder) :=
  match InInput with
  | none => some none
  | some Input =>
    match IndexOfID InID F.AvailableEncoders with
    | none => some none
    | some Index =>
      match F.CreateEncoders[Index]? with
      | none => none
      | some CreateEncoder =>
        match CreateEncoder () with
        | none => some none
        | some Result =>
          if (Result.Setup Input config).1 then some (some (Result.Setup Input config).2)
          else some none

/-- The statement `if (Result && !Result->Setup(Input, config)) Result.Reset();`: the value
of `Result` after it. -/
def SetupOrReset (Result : Option FVideoEncoder) (Input : FVideoEncoderInput)
    (config : FLayerConfig) : Option FVideoEncoder :=
  match Result with
  | none => none
  | some Encoder =>
    if (Encoder.Setup Input config).1 then some (Encoder.Setup Input config).2 else none

/-- The loop of `FVideoEncoderFactory::Create(InID, config)` from `Index` on, over the
entries of `AvailableEncoders` that remain, with the current value of `Result`.  `RHIName` is
`GDynamicRHI->GetName()` and `CreatedInput` what `FVideoEncoderInput::CreateForD3D11` or
`CreateForD3D12` returns.  The outer `none` is an array index out of range
(`CreateEncoders[Index]`) or `ToSharedRef()` on a null pointer. -/
def CreateLoop (F : FVideoEncoderFactory) (RHIName : String)
    (CreatedInput : Option FVideoEncoderInput) (InID : Nat) (config : FLayerConfig) :
    List FVideoEncoderInfo → Nat → Option FVideoEncoder → Option (Option FVideoEncoder)
  | [], _, Result => some Result
  | Info :: Rest, Index, Result =>
    if Info.ID = InID then
      match F.CreateEncoders[Index]? with
      | none => none
      | some CreateEncoder =>
        let Result1 := CreateEncoder ()
        if RHIName = "D3D11" then
          match CreatedInput with
          | none => none
          | some Input => some (SetupOrReset Result1 Input config)
        else if RHIName = "D3D12" then
          match CreatedInput with
          | none => none
          | some Input => some (SetupOrReset Result1 Input config)
        else CreateLoop F RHIName CreatedInput InID config Rest (Index + 1) Result1
    else CreateLoop F RHIName CreatedInput InID config Rest (Index + 1) Result

/-- `FVideoEncoderFactory::Create(InID, config)`, the overload that takes no input.  The
outer `none` is a failed access; `some none` is a null result. -/
def CreateWithConfig (F : FVideoEncoderFactory) (RHIName : String)
    (CreatedInput : Option FVideoEncoderInput) (InID : Nat) (config : FLayerConfig) :
    Option (Option FVideoEncoder) :=
  CreateLoop F RHIName CreatedInput InID config F.AvailableEncoders 0 none

end FVideoEncoderFactory

namespace Demo

/-- An encoder whose `Setup` accepts every input and configuration. -/
def Accepting : FVideoEncoder :=
  { SetupResult := fun _ _ => true, SetupCalls := [] }

/-- The description of an H264 encoder, as handed to `Register`. -/
def H264Info : FVideoEncoderInfo :=
  { CodecType := .H264, MaxWidth := 4096, MaxHeight := 4096 }

/-- A factory with one registered H264 encoder. -/
def OneEncoder : FVideoEncoderFactory :=
  FVideoEncoderFactory.Initial.Register H264Info (fun _ => some Accepting)

/-- The description of a VP8 encoder, as handed to `Register`. -/
def VP8Info : FVideoEncoderInfo :=
  { CodecType := .VP8, MaxWidth := 1920, MaxHeight := 1080 }

/-- Two registrations: an H264 encoder and a VP8 encoder whose constructor returns null. -/
def TwoRegistrations : List (FVideoEncoderInfo × CreateEncoderCallback) :=
  [(H264Info, fun _ => some Accepting), (VP8Info, fun _ => none)]

end Demo

end AVEncoder

/-! ## The frame capturer

`FVideoCapturer` (`PixelStreaming/Private/VideoCapturer.cpp`).  The input pool
(`VideoEncoderInput`), the RHI command list, the latency tester and the WebRTC base class
are collaborators: the calls made on them are recorded in `Effects`, in order, and what
they answer during one `OnFrameReady` is given by an `FCaptureEnv`.  The two console
variables the capturer reads (and, for the capture size, writes) are part of the state. -/

namespace PixelStreaming

/-- The values of `webrtc::MediaSourceInterface::SourceState`. -/
inductive ESourceState where
  | kInitializing
  | kLive
  | kEnded
  | kMuted
  deriving DecidableEq, Repr

/-- `FIntPoint`, two `int32` coordinates. -/
structure FIntPoint where
  X : Int
  Y : Int
  deriving DecidableEq, Repr

/-- What the capturer reads of an `FTexture2DRHIRef`: `GetFormat()` (an `EPixelFormat`
value) and `GetSizeXY()`. -/
structure FTexture2D where
  Format : Nat
  SizeXY : FIntPoint
  deriving DecidableEq, Repr

/-- `EPixelFormat::PF_B8G8R8A8`. -/
def PF_B8G8R8A8 : Nat := 2

/-- The sampler filters `CopyTexture` chooses from. -/
inductive ESamplerFilter where
  | SF_Point
  | SF_Bilinear
  deriving DecidableEq, Repr

/-- An `AVEncoder::FVideoEncoderInputFrame*`: `Handle` stands for the pointer, which keys
`BackBuffers`. -/
structure FVideoEncoderInputFrame where
  Handle : Nat
  FrameID : Nat
  TimestampUs : Int
  deriving DecidableEq, Repr

/-- The `webrtc::VideoFrame` built by `OnFrameReady`: the frame buffer (texture, input
frame) and the values given to `set_timestamp_us` and `set_id`. -/
structure FVideoFrame where
  Buffer : FTexture2D
  InputFrame : FVideoEncoderInputFrame
  TimestampUs : Int
  Id : Int
  deriving DecidableEq, Repr

/-- A call of the capturer on a collaborator. -/
inductive FCapturerEffect where
  | ObtainInputFrame
  | SetResolution (Width Height : Int)
  | Flush
  | SetTexture (Handle : Nat) (Texture : FTexture2D)
  | RecordPreCaptureTime (FrameId : Int)
  | CopyToResolveTarget (SourceTexture DestinationTexture : FTexture2D)
  | DrawRectangle (Sampler : ESamplerFilter) (SourceTexture DestinationTexture : FTexture2D)
  | DrawClearQuadRed (DestinationTexture : FTexture2D)
  | RecordPostCaptureTime (FrameId : Int)
  | OnFrame (Frame : FVideoFrame)
  | Release (Handle : Nat)
  deriving DecidableEq, Repr

/-- What the collaborators answer during one `OnFrameReady`: `rtc::TimeMicros()`; the
result of `AdaptFrame` (`none` for false, the output size for true); the frame the pool
hands out; the frames whose texture the pool releases during `Flush`; and whether the
latency tester is running in its pre-capture stage at the first check and in its
post-capture stage at the second. -/
structure FCaptureEnv where
  TimestampUs : Int
  Adapted : Option FIntPoint
  InputFrameHandle : Nat
  InputFrameID : Nat
  ReleasedOnFlush : List Nat
  bPreCapture : Bool
  bPostCapture : Bool
  deriving DecidableEq, Repr

/-- The members of `FVideoCapturer`, the console variables
`PixelStreaming.UseBackBufferCaptureSize` and `PixelStreaming.CaptureSize`, the build
(`PLATFORM_WINDOWS`, `WITH_CUDA`) and `GDynamicRHI->GetName()`. -/
structure FVideoCapturer where
  CurrentState : ESourceState
  Width : Int
  Height : Int
  BackBuffers : TMap Nat FTexture2D
  CVarUseBackBufferCaptureSize : Int
  CVarCaptureSize : String
  bPlatformWindows : Bool
  bWithCuda : Bool
  RHIName : String
  Effects : List FCapturerEffect
  deriving DecidableEq, Repr

/-- The characters `isspace` accepts. -/
def IsSpace (c : Char) : Bool :=
  c.toNat == 32 || (9 ≤ c.toNat && c.toNat ≤ 13)

/-- The decimal digits `0` to `9`. -/
def IsDigit (c : Char) : Bool :=
  48 ≤ c.toNat && c.toNat ≤ 57

/-- The digits read by `Atoi`, most significant first, added to `Acc`. -/
def AtoiDigits : Int → List Char → Int
  | Acc, [] => Acc
  | Acc, c :: Rest =>
    if IsDigit c then AtoiDigits (Acc * 10 + ((c.toNat : Int) - 48)) Rest else Acc

/-- The nearest `int32` to `x`. -/
def ClampInt32 (x : Int) : Int :=
  if x > 2147483647 then 2147483647
  else if x < -2147483648 then -2147483648
  else x

/-- Modelled from the spec: `FCString::Atoi` (not in the source tree), C `atoi`: leading
white space, an optional sign, then decimal digits up to the first other character.  The
result is an `int32`: a value beyond that range is clamped to it, as `_wtoi` does. -/
def Atoi (Str : String) : Int :=
  match Str.toList.dropWhile IsSpace with
  | [] => 0
  | c :: Rest =>
    if c = '-' then ClampInt32 (- AtoiDigits 0 Rest)
    else if c = '+' then ClampInt32 (AtoiDigits 0 Rest)
    else ClampInt32 (AtoiDigits 0 (c :: Rest))

/-- The text before and after the first `x` or `X` of a character list. -/
def SplitAtX : List Char → Option (List Char × List Char)
  | [] => none
  | c :: Rest =>
    if c = 'x' ∨ c = 'X' then some ([], Rest)
    else (SplitAtX Rest).map (fun LR => (c :: LR.1, LR.2))

/-- Modelled from the spec: `FString::Split(TEXT("x"), &Left, &Right)` (not in the source
tree), which searches from the start ignoring case: `none` when there is no `x`. -/
def SplitX (Str : String) : Option (String × String) :=
  (SplitAtX Str.toList).map (fun LR => (String.mk LR.1, String.mk LR.2))

namespace FVideoCapturer

/-- `FVideoCapturer::FVideoCapturer()` with the member initialisers of `Width` and
`Height` and the settings and platform it runs with. -/
def New (Width Height : Int) (CVarUseBackBufferCaptureSize : Int) (CVarCaptureSize : String)
    (bPlatformWindows bWithCuda : Bool) (RHIName : String) : FVideoCapturer :=
  { CurrentState := .kInitializing, Width := Width, Height := Height,
    BackBuffers := TMap.Empty,
    CVarUseBackBufferCaptureSize := CVarUseBackBufferCaptureSize,
    CVarCaptureSize := CVarCaptureSize,
    bPlatformWindows := bPlatformWindows, bWithCuda := bWithCuda, RHIName := RHIName,
    Effects := [] }

/-- The release callback given to `InputFrame->SetTexture`: `BackBuffers.Remove(InputFrame)`. -/
def OnTextureReleased (s : FVideoCapturer) (Handle : Nat) : FVideoCapturer :=
  { s with BackBuffers := s.BackBuffers.Remove Handle }

/-- `FVideoCapturer::SetCaptureResolution`; `none` is a failed `verifyf`. -/
def SetCaptureResolution (s : FVideoCapturer) (Env : FCaptureEnv)
    (NewCaptureWidth NewCaptureHeight : Int) : Option FVideoCapturer :=
  if s.Width = NewCaptureWidth ∧ s.Height = NewCaptureHeight then some s
  else if ¬ (NewCaptureWidth > 0) then none
  else if ¬ (NewCaptureHeight > 0) then none
  else
    let s1 := { s with Width := NewCaptureWidth, Height := NewCaptureHeight }
    let s2 := { s1 with Effects := s1.Effects ++ [.SetResolution s1.Width s1.Height, .Flush] }
    some (Env.ReleasedOnFlush.foldl OnTextureReleased s2)

/-- `FVideoCapturer::AdaptCaptureFrame`: the returned flag and the state after the call;
`none` is a failed `verifyf`. -/
def AdaptCaptureFrame (s : FVideoCapturer) (Env : FCaptureEnv) (TimestampUs : Int)
    (Resolution : FIntPoint) : Option (Bool × FVideoCapturer) :=
  match Env.Adapted with
  | none => some (false, s)
  | some Out =>
    let Chosen : FIntPoint × FVideoCapturer :=
      if s.CVarUseBackBufferCaptureSize = 0 then
        match SplitX s.CVarCaptureSize with
        | some (TargetWidth, TargetHeight) =>
          ({ X := Atoi TargetWidth, Y := Atoi TargetHeight }, s)
        | none =>
          (Resolution, { s with
            CVarCaptureSize := toString Resolution.X ++ "x" ++ toString Resolution.Y })
      else (Out, s)
    match Chosen.2.SetCaptureResolution Env Chosen.1.X Chosen.1.Y with
    | none => none
    | some s1 => some (true, s1)

/-- Whether `ObtainInputFrame` has a branch that creates a back buffer, given the build and
the RHI. -/
def CanCreateBackBuffer (s : FVideoCapturer) : Bool :=
  (s.bPlatformWindows && (s.RHIName == "D3D11" || s.RHIName == "D3D12"))
    || (s.bWithCuda && (!s.bPlatformWindows || s.RHIName == "Vulkan"))

/-- `FVideoCapturer::ObtainInputFrame`: the frame and the state after the call. -/
def ObtainInputFrame (s : FVideoCapturer) (Env : FCaptureEnv) :
    FVideoEncoderInputFrame × FVideoCapturer :=
  let InputFrame : FVideoEncoderInputFrame :=
    { Handle := Env.InputFrameHandle, FrameID := Env.InputFrameID, TimestampUs := 0 }
  let s1 : FVideoCapturer := { s with Effects := s.Effects ++ [.ObtainInputFrame] }
  if (s1.BackBuffers.Find InputFrame.Handle).isSome then (InputFrame, s1)
  else if s1.CanCreateBackBuffer then
    let Texture : FTexture2D :=
      { Format := PF_B8G8R8A8, SizeXY := { X := s1.Width, Y := s1.Height } }
    (InputFrame, { s1 with
      Effects := s1.Effects ++ [.SetTexture InputFrame.Handle Texture]
      BackBuffers := s1.BackBuffers.Add s1.BackBuffers.Num InputFrame.Handle Texture })
  else (InputFrame, s1)

/-- `FVideoCapturer::CopyTexture`: the commands it issues. -/
def CopyTexture (SourceTexture DestinationTexture : FTexture2D) : List FCapturerEffect :=
  if SourceTexture.Format = DestinationTexture.Format ∧
      SourceTexture.SizeXY = DestinationTexture.SizeXY then
    [.CopyToResolveTarget SourceTexture DestinationTexture]
  else if DestinationTexture.SizeXY.X ≠ SourceTexture.SizeXY.X ∨
      DestinationTexture.SizeXY.Y ≠ SourceTexture.SizeXY.Y then
    [.DrawRectangle .SF_Bilinear SourceTexture DestinationTexture]
  else
    [.DrawRectangle .SF_Point SourceTexture DestinationTexture]

/-- `FVideoCapturer::OnFrameReady`; `none` is a failed assertion (`verifyf`, or
`BackBuffers[InputFrame]` without an entry). -/
def OnFrameReady (s : FVideoCapturer) (Env : FCaptureEnv) (FrameBuffer : FTexture2D) :
    Option FVideoCapturer :=
  let TimestampUs := Env.TimestampUs
  match s.AdaptCaptureFrame Env TimestampUs FrameBuffer.SizeXY with
  | none => none
  | some (false, s1) => some s1
  | some (true, s1) =>
    let s2 : FVideoCapturer :=
      if s1.CurrentState ≠ ESourceState.kLive then { s1 with CurrentState := .kLive } else s1
    let Obtained := s2.ObtainInputFrame Env
    let s3 : FVideoCapturer := Obtained.2
    let FrameId : Int := AVEncoder.WrapInt32 Obtained.1.FrameID
    let InputFrame : FVideoEncoderInputFrame := { Obtained.1 with TimestampUs := TimestampUs }
    let s4 : FVideoCapturer := if Env.bPreCapture
      then { s3 with Effects := s3.Effects ++ [.RecordPreCaptureTime FrameId] } else s3
    match s4.BackBuffers.Find InputFrame.Handle with
    | none => none
    | some DestinationTexture =>
      let s5 : FVideoCapturer :=
        { s4 with Effects := s4.Effects ++ CopyTexture FrameBuffer DestinationTexture }
      let s6 : FVideoCapturer := if Env.bPostCapture
        then { s5 with Effects := s5.Effects ++
          [.DrawClearQuadRed DestinationTexture, .RecordPostCaptureTime FrameId] }
        else s5
      let Frame : FVideoFrame :=
        { Buffer := DestinationTexture, InputFrame := InputFrame,
          TimestampUs := TimestampUs, Id := FrameId }
      some { s6 with Effects := s6.Effects ++ [.OnFrame Frame, .Release InputFrame.Handle] }

/-- Performs `OnFrameReady` for a finite sequence of produced frames, in order. -/
def RunFrames (s : FVideoCapturer) : List (FCaptureEnv × FTexture2D) → Option FVideoCapturer
  | [] => some s
  | Call :: Rest =>
    match s.OnFrameReady Call.1 Call.2 with
    | none => none
    | some s1 => s1.RunFrames Rest

/-- What the capturer does with input frames towards its consumers: a frame handed to
`OnFrame`, with its timestamp, id and input frame, or a `Release` of an input frame. -/
inductive FDelivery where
  | Frame (TimestampUs Id : Int) (InputFrame : FVideoEncoderInputFrame)
  | Release (Handle : Nat)
  deriving DecidableEq, Repr

/-- The deliveries and releases among the effects, in order. -/
def Deliveries (s : FVideoCapturer) : List FDelivery :=
  s.Effects.filterMap (fun e =>
    match e with
    | .OnFrame Frame => some (.Frame Frame.TimestampUs Frame.Id Frame.InputFrame)
    | .Release Handle => some (.Release Handle)
    | _ => none)

/-- The delivery and the release one accepted `OnFrameReady` call makes. -/
def DeliveriesOf (Env : FCaptureEnv) : List FDelivery :=
  [.Frame Env.TimestampUs (AVEncoder.WrapInt32 Env.InputFrameID)
     { Handle := Env.InputFrameHandle, FrameID := Env.InputFrameID,
       TimestampUs := Env.TimestampUs },
   .Release Env.InputFrameHandle]

/-- The frames handed to the downstream pipeline (`OnFrame`), in order. -/
def FramesDelivered (s : FVideoCapturer) : List FVideoFrame :=
  s.Effects.filterMap (fun e =>
    match e with
    | .OnFrame Frame => some Frame
    | _ => none)

end FVideoCapturer

namespace Demo

/-- A capturer on Windows with D3D11 that tracks the back buffer size. -/
def Capturer : FVideoCapturer :=
  FVideoCapturer.New 1920 1080 1 "1920x1080" true false "D3D11"

/-- A 1280x720 back buffer in `PF_B8G8R8A8`. -/
def BackBuffer : FTexture2D :=
  { Format := PF_B8G8R8A8, SizeXY := { X := 1280, Y := 720 } }

/-- The adapter drops the frame. -/
def RejectingEnv : FCaptureEnv :=
  { TimestampUs := 1000, Adapted := none, InputFrameHandle := 1, InputFrameID := 7,
    ReleasedOnFlush := [], bPreCapture := false, bPostCapture := false }

/-- The adapter accepts the frame at the source size. -/
def AcceptingEnv : FCaptureEnv :=
  { TimestampUs := 1000, Adapted := some { X := 1280, Y := 720 }, InputFrameHandle := 1,
    InputFrameID := 7, ReleasedOnFlush := [], bPreCapture := false, bPostCapture := false }

/-- The adapter accepts a later frame, which gets the next input frame. -/
def LaterAcceptingEnv : FCaptureEnv :=
  { TimestampUs := 2000, Adapted := some { X := 1280, Y := 720 }, InputFrameHandle := 2,
    InputFrameID := 8, ReleasedOnFlush := [], bPreCapture := false, bPostCapture := false }

/-- Two accepted frames with increasing timestamps. -/
def TwoFrames : List (FCaptureEnv × FTexture2D) :=
  [(AcceptingEnv, BackBuffer), (LaterAcceptingEnv, BackBuffer)]

end Demo

end PixelStreaming

/-! ## The module

`FPixelStreamingModule` (`PixelStreaming/Private/PixelStreamingModule.cpp`): `InitStreamer`
with `CheckPlatformCompatibility`, and the freeze-frame calls `FreezeFrame`, `UnfreezeFrame`,
`OnBackBufferReady_RenderThread` and `SendJpeg`.  The command line, the platform, the engine
globals and the image wrapper are collaborators whose answers are given by an environment;
log lines and message dialogs are recorded in `Diagnostics`, in order. -/

namespace PixelStreaming

/-- `FStreamer::CheckPlatformCompatibility`; `Factory` is `FVideoEncoderFactory::Get()`. -/
def FStreamer.CheckPlatformCompatibility (Factory : AVEncoder.FVideoEncoderFactory) : Bool :=
  Factory.HasEncoderForCodec .H264

/-- What the module tells the user: `UE_LOG` lines by verbosity, `FMessageDialog::Open`,
and a failed `ensure`. -/
inductive FDiagnostic where
  | Log (Message : String)
  | Warning (Message : String)
  | Error (Message : String)
  | MessageDialog (Message : String)
  | EnsureFailed (Condition : String)
  deriving DecidableEq, Repr

/-- What `InitStreamer` reads from its surroundings: the values `FParse::Value` finds on the
command line (`none` when the key is absent), `GIsEditor`, the build
(`PLATFORM_WINDOWS || PLATFORM_XBOXONE`), `FPlatformMisc::VerifyWindowsVersion(6, 2)`, the
encoder factory singleton, `GEngine != nullptr`, `FSlateApplication::IsInitialized()` and the
result of loading the `ImageWrapper` module. -/
structure FInitEnv where
  StreamerId : String
  URL : Option String
  IP : Option String
  Port : Option Nat
  GIsEditor : Bool
  bPlatformWindows : Bool
  bWin8OrHigher : Bool
  Factory : AVEncoder.FVideoEncoderFactory
  bGEngine : Bool
  bSlateInitialized : Bool
  bImageWrapperLoaded : Bool

/-- What the image wrapper answers during one `SendJpeg`: the result of `SetRaw` and the
bytes `GetCompressed` returns. -/
structure FJpegEnv where
  bSuccess : Bool
  JpegBytes : List uint8
  deriving DecidableEq, Repr

/-- A `UTexture2D` as `FreezeFrame` reads it: its name and the
`Resource->TextureRHI->GetTexture2D()` it resolves to, if any. -/
structure UTexture2D where
  Name : String
  Texture2DRHI : Option FTexture2D
  deriving DecidableEq, Repr

/-- The members of `FPixelStreamingModule` the calls below read and write, and what
`InitStreamer` sets up outside the module: the back-buffer delegate subscription, the
game-mode delegate subscriptions, the modular feature registration, and the
`UPixelStreamerDelegates` and `UFreezeFrame` instances. -/
structure FPixelStreamingModule where
  Streamer : Option FStreamer
  bFrozen : Bool
  bCaptureNextBackBufferAndStream : Bool
  bBackBufferDelegate : Bool
  bGameModeDelegates : Bool
  bModularFeatureRegistered : Bool
  bDelegatesInstance : Bool
  bFreezeFrameInstance : Bool
  Diagnostics : List FDiagnostic
  deriving DecidableEq, Repr

namespace FPixelStreamingModule

/-- The module as constructed: no Streamer, `bFrozen = false`,
`bCaptureNextBackBufferAndStream = false`, nothing subscribed or registered. -/
def New : FPixelStreamingModule :=
  { Streamer := none, bFrozen := false, bCaptureNextBackBufferAndStream := false,
    bBackBufferDelegate := false, bGameModeDelegates := false,
    bModularFeatureRegistered := false, bDelegatesInstance := false,
    bFreezeFrameInstance := false, Diagnostics := [] }

/-- The message of the Windows version check. -/
def WindowsVersionError : String :=
  "Failed to initialize Pixel Streaming plugin because minimum requirement is Windows 8"

/-- The message of the encoder check. -/
def NoEncoderError : String :=
  "No compatible GPU found, or failed to load their respective encoder libraries"

/-- The message shown in the editor. -/
def EditorError : String :=
  "Pixel Streaming Plugin is not supported in editor, but it was explicitly enabled by command-line arguments. Please remove `PixelStreamingIP` and `PixelStreamingPort` args from editor command line."

/-- The log line for a command line without an endpoint. -/
def DisabledMessage : String :=
  "PixelStreaming is disabled, provide `PixelStreamingIP` and `PixelStreamingPort` cmd-args to enable it"

/-- `FPixelStreamingModule::CheckPlatformCompatibility`: the result and the diagnostics it
emits, in order. -/
def CheckPlatformCompatibility (Env : FInitEnv) : Bool × List FDiagnostic :=
  let Windows : Bool × List FDiagnostic :=
    if Env.bPlatformWindows && !Env.bWin8OrHigher then
      (false, [.MessageDialog WindowsVersionError, .Error WindowsVersionError])
    else (true, [])
  if !FStreamer.CheckPlatformCompatibility Env.Factory then
    (false, Windows.2 ++ [.MessageDialog NoEncoderError, .Error NoEncoderError])
  else Windows

/-- The signalling server URL `InitStreamer` settles on, with the diagnostics of the
deprecated flags; `none` when the command line gives no endpoint. -/
def SignallingServerURL (Env : FInitEnv) : Option (String × List FDiagnostic) :=
  match Env.URL with
  | some URL => some (URL, [])
  | none =>
    match Env.IP, Env.Port with
    | some IP, some Port =>
      some ("ws://" ++ IP ++ ":" ++ toString Port,
        [.Warning ("PixelStreamingIP and PixelStreamingPort are deprecated flags. Use PixelStreamingURL instead. eg. -PixelStreamingURL=ws://" ++ IP ++ ":" ++ toString Port)])
    | _, _ => none

/-- `FPixelStreamingModule::InitStreamer`; `none` is the failed
`verify(LoadModule("ImageWrapper"))`. -/
def InitStreamer (M : FPixelStreamingModule) (Env : FInitEnv) : Option FPixelStreamingModule :=
  match SignallingServerURL Env with
  | none => some { M with Diagnostics := M.Diagnostics ++ [.Log DisabledMessage] }
  | some (URL, Deprecated) =>
    let M1 : FPixelStreamingModule := { M with Diagnostics := M.Diagnostics ++ Deprecated ++
      [.Log ("PixelStreaming endpoint ID: " ++ Env.StreamerId)] }
    if Env.GIsEditor then
      some { M1 with Diagnostics := M1.Diagnostics ++
        [.MessageDialog EditorError, .Error EditorError] }
    else
      let Check := CheckPlatformCompatibility Env
      let M2 : FPixelStreamingModule := { M1 with Diagnostics := M1.Diagnostics ++ Check.2 }
      if !Check.1 then some M2
      else if !Env.bGEngine then
        some { M2 with Diagnostics := M2.Diagnostics ++ [.EnsureFailed "GEngine != nullptr"] }
      else
        let M3 : FPixelStreamingModule := { M2 with
          bBackBufferDelegate := M2.bBackBufferDelegate || Env.bSlateInitialized
          bGameModeDelegates := true
          bModularFeatureRegistered := true
          bDelegatesInstance := true
          bFreezeFrameInstance := true }
        if !Env.bImageWrapperLoaded then none
        else some { M3 with Streamer := some (FStreamer.New URL Env.StreamerId) }

/-- `FPixelStreamingModule::SendJpeg`; `none` is `Streamer->` on a null pointer. -/
def SendJpeg (M : FPixelStreamingModule) (Env : FJpegEnv) : Option FPixelStreamingModule :=
  if Env.bSuccess then
    match M.Streamer with
    | none => none
    | some S => some { M with Streamer := some (S.SendFreezeFrame Env.JpegBytes) }
  else
    some { M with Diagnostics := M.Diagnostics ++
      [.Error "JPEG image wrapper failed to accept frame data"] }

/-- `FPixelStreamingModule::OnBackBufferReady_RenderThread`, called on the rendering
thread. -/
def OnBackBufferReady_RenderThread (M : FPixelStreamingModule) (Env : FJpegEnv)
    (BackBuffer : Nat) : Option FPixelStreamingModule :=
  match M.Streamer with
  | none => some M
  | some S =>
    let M1 : FPixelStreamingModule :=
      if !M.bFrozen then { M with Streamer := some (S.OnFrameBufferReady BackBuffer) } else M
    if M1.bCaptureNextBackBufferAndStream then
      let M2 : FPixelStreamingModule := { M1 with bCaptureNextBackBufferAndStream := false }
      M2.SendJpeg Env
    else some M1

/-- `FPixelStreamingModule::FreezeFrame`; the render command it enqueues for a supplied
texture is performed at once. -/
def FreezeFrame (M : FPixelStreamingModule) (Env : FJpegEnv) (Texture : Option UTexture2D) :
    Option FPixelStreamingModule :=
  match Texture with
  | some T =>
    match T.Texture2DRHI with
    | none =>
      some { M with Diagnostics := M.Diagnostics ++
        [.Error ("Attempting freeze frame with texture " ++ T.Name ++ " with no texture 2D RHI")] }
    | some _ => (M.SendJpeg Env).map (fun M1 => { M1 with bFrozen := true })
  | none => some { M with bCaptureNextBackBufferAndStream := true, bFrozen := true }

/-- `FPixelStreamingModule::UnfreezeFrame`; `none` is `Streamer->` on a null pointer. -/
def UnfreezeFrame (M : FPixelStreamingModule) : Option FPixelStreamingModule :=
  match M.Streamer with
  | none => none
  | some S => some { M with Streamer := some S.SendUnfreezeFrame, bFrozen := false }

/-- A call of the freeze-frame interface, with what the image wrapper answers during it. -/
inductive FreezeCall where
  | FreezeFrame (Env : FJpegEnv) (Texture : Option UTexture2D)
  | UnfreezeFrame
  | OnBackBufferReady_RenderThread (Env : FJpegEnv) (BackBuffer : Nat)
  deriving DecidableEq, Repr

/-- Performs one call. -/
def StepFreeze (M : FPixelStreamingModule) : FreezeCall → Option FPixelStreamingModule
  | .FreezeFrame Env Texture => M.FreezeFrame Env Texture
  | .UnfreezeFrame => M.UnfreezeFrame
  | .OnBackBufferReady_RenderThread Env BackBuffer =>
    M.OnBackBufferReady_RenderThread Env BackBuffer

/-- Performs a finite sequence of calls, in order. -/
def RunFreeze (M : FPixelStreamingModule) : List FreezeCall → Option FPixelStreamingModule
  | [] => some M
  | c :: rest =>
    match M.StepFreeze c with
    | none => none
    | some M1 => M1.RunFreeze rest

end FPixelStreamingModule

namespace Demo

/-- A command line with an endpoint, outside the editor, on Windows 8 or later, with an
encoder factory without any encoder. -/
def NoEncoderEnv : FInitEnv :=
  { StreamerId := "streamer", URL := some "ws://host:8888", IP := none, Port := none,
    GIsEditor := false, bPlatformWindows := true, bWin8OrHigher := true,
    Factory := AVEncoder.FVideoEncoderFactory.Initial, bGEngine := true,
    bSlateInitialized := true, bImageWrapperLoaded := true }

/-- A module whose Streamer has the session `p1` and has started streaming. -/
def StreamingModule : FPixelStreamingModule :=
  { FPixelStreamingModule.New with
    Streamer := some Streaming
    bBackBufferDelegate := true
    bGameModeDelegates := true
    bModularFeatureRegistered := true
    bDelegatesInstance := true
    bFreezeFrameInstance := true }

/-- The image wrapper accepts the data and compresses it to three bytes. -/
def JpegEnv : FJpegEnv :=
  { bSuccess := true, JpegBytes := [1, 2, 3] }

end Demo

end PixelStreaming

/-! ## Lemmas on `TMap` -/

namespace PixelStreaming

namespace TMap

variable {K V : Type} [DecidableEq K]

theorem find_eq_none_iff (m : TMap K V) (k : K) : m.Find k = none ↔ k ∉ m.GetKeys := by
  unfold Find GetKeys
  simp only [Option.map_eq_none', List.find?_eq_none, decide_eq_true_eq, List.mem_map,
    not_exists, not_and]

theorem find_isSome_iff (m : TMap K V) (k : K) : (m.Find k).isSome = true ↔ k ∈ m.GetKeys := by
  rw [← not_iff_not, ← find_eq_none_iff]
  cases m.Find k <;> simp

theorem find_pairs_cons (e : K × V) (rest : List (K × V)) (k : K) :
    (TMap.mk (e :: rest)).Find k = if e.1 = k then some e.2 else (TMap.mk rest).Find k := by
  unfold Find
  by_cases h : e.1 = k <;> simp [List.find?_cons, h]

theorem find_forEach (m : TMap K V) (f : V → V) (k : K) :
    (m.ForEach f).Find k = (m.Find k).map f := by
  obtain ⟨l⟩ := m
  induction l with
  | nil => simp [ForEach, Find]
  | cons e rest ih =>
    have h1 : (TMap.mk (e :: rest)).ForEach f
        = TMap.mk ((e.1, f e.2) :: ((TMap.mk rest).ForEach f).Pairs) := by
      simp [ForEach]
    rw [h1, find_pairs_cons, find_pairs_cons]
    by_cases h : e.1 = k
    · simp [h]
    · simp only [h, if_false]; exact ih

theorem find_modify_self (m : TMap K V) (f : V → V) (k : K) :
    (m.Modify k f).Find k = (m.Find k).map f := by
  obtain ⟨l⟩ := m
  induction l with
  | nil => simp [Modify, ModifyPairs, Find]
  | cons e rest ih =>
    by_cases h : e.1 = k
    · have h1 : (TMap.mk (e :: rest)).Modify k f = TMap.mk ((e.1, f e.2) :: rest) := by
        simp [Modify, ModifyPairs, h]
      rw [h1, find_pairs_cons, find_pairs_cons]; simp [h]
    · have h1 : (TMap.mk (e :: rest)).Modify k f
          = TMap.mk (e :: ((TMap.mk rest).Modify k f).Pairs) := by
        simp [Modify, ModifyPairs, h]
      rw [h1, find_pairs_cons, find_pairs_cons]; simp only [h, if_false]; exact ih

theorem find_modify_ne (m : TMap K V) (f : V → V) (k k1 : K) (hne : k1 ≠ k) :
    (m.Modify k f).Find k1 = m.Find k1 := by
  obtain ⟨l⟩ := m
  induction l with
  | nil => simp [Modify, ModifyPairs, Find]
  | cons e rest ih =>
    by_cases h : e.1 = k
    · have h1 : (TMap.mk (e :: rest)).Modify k f = TMap.mk ((e.1, f e.2) :: rest) := by
        simp [Modify, ModifyPairs, h]
      have h2 : ¬ e.1 = k1 := fun h3 => hne (h3 ▸ h)
      rw [h1, find_pairs_cons, find_pairs_cons]; simp [h2]
    · have h1 : (TMap.mk (e :: rest)).Modify k f
          = TMap.mk (e :: ((TMap.mk rest).Modify k f).Pairs) := by
        simp [Modify, ModifyPairs, h]
      rw [h1, find_pairs_cons, find_pairs_cons]
      by_cases h2 : e.1 = k1
      · simp [h2]
      · simp only [h2, if_false]; exact ih

theorem modifyPairs_map_of_nodup (f : V → V) (k : K) (l : List (K × V))
    (hl : (l.map Prod.fst).Nodup) :
    ModifyPairs k f l = l.map (fun e => if e.1 = k then (e.1, f e.2) else e) := by
  induction l with
  | nil => simp [ModifyPairs]
  | cons e rest ih =>
    simp only [List.map_cons, List.nodup_cons, List.mem_map, not_exists, not_and] at hl
    by_cases h : e.1 = k
    · simp only [ModifyPairs, h, if_true, List.map_cons, List.cons.injEq, true_and]
      symm
      calc rest.map (fun e => if e.1 = k then (e.1, f e.2) else e)
          = rest.map id := by
            apply List.map_congr_left
            intro a ha
            have : ¬ a.1 = k := fun h3 => hl.1 a ha (h3.trans h.symm)
            simp [this]
        _ = rest := by simp
    · simp only [ModifyPairs, h, if_false, List.map_cons, List.cons.injEq, true_and]
      exact ih hl.2

theorem modifyPairs_fst (f : V → V) (k : K) (l : List (K × V)) :
    (ModifyPairs k f l).map Prod.fst = l.map Prod.fst := by
  induction l with
  | nil => simp [ModifyPairs]
  | cons e rest ih =>
    by_cases h : e.1 = k <;> simp [ModifyPairs, h, ih]

theorem modify_modify (m : TMap K V) (f g : V → V) (k : K) :
    (m.Modify k f).Modify k g = m.Modify k (fun v => g (f v)) := by
  obtain ⟨l⟩ := m
  simp only [Modify, TMap.mk.injEq]
  induction l with
  | nil => simp [ModifyPairs]
  | cons e rest ih =>
    by_cases h : e.1 = k <;> simp [ModifyPairs, h, ih]

theorem modifyPairs_map_proj {β : Type} (f : V → V) (g : V → β) (hg : ∀ v, g (f v) = g v)
    (k : K) (l : List (K × V)) :
    (ModifyPairs k f l).map (fun e => (e.1, g e.2)) = l.map (fun e => (e.1, g e.2)) := by
  induction l with
  | nil => simp [ModifyPairs]
  | cons e rest ih =>
    by_cases h : e.1 = k <;> simp [ModifyPairs, h, ih, hg]

theorem find_of_mem_nodup (l : List (K × V)) (hl : (l.map Prod.fst).Nodup) (e : K × V)
    (he : e ∈ l) : (TMap.mk l).Find e.1 = some e.2 := by
  induction l with
  | nil => simp at he
  | cons a rest ih =>
    simp only [List.map_cons, List.nodup_cons, List.mem_map, not_exists, not_and] at hl
    rw [find_pairs_cons]
    rcases List.mem_cons.1 he with h | h
    · subst h; simp
    · have : ¬ a.1 = e.1 := fun h3 => hl.1 e h h3.symm
      simp only [this, if_false]
      exact ih hl.2 h

theorem getKeys_modify (m : TMap K V) (f : V → V) (k : K) :
    (m.Modify k f).GetKeys = m.GetKeys := by
  simp [Modify, GetKeys, modifyPairs_fst]

theorem getKeys_forEach (m : TMap K V) (f : V → V) :
    (m.ForEach f).GetKeys = m.GetKeys := by
  simp [ForEach, GetKeys, Function.comp_def]

theorem num_modify (m : TMap K V) (f : V → V) (k : K) : (m.Modify k f).Num = m.Num := by
  have := congrArg List.length (getKeys_modify m f k)
  simpa [GetKeys, Num] using this

theorem num_forEach (m : TMap K V) (f : V → V) : (m.ForEach f).Num = m.Num := by
  simp [ForEach, Num]

theorem getKeys_remove (m : TMap K V) (k : K) :
    (m.Remove k).GetKeys = m.GetKeys.filter (fun x => !decide (x = k)) := by
  simp [Remove, GetKeys, List.filter_map, Function.comp_def]

theorem add_of_find_none (m : TMap K V) (Slot : Nat) (k : K) (v : V) (h : m.Find k = none) :
    m.Add Slot k v = { Pairs := m.Pairs.take Slot ++ (k, v) :: m.Pairs.drop Slot } := by
  simp [Add, h]

end TMap

end PixelStreaming

/-! ## Lemmas on the Streamer operations -/

namespace PixelStreaming

namespace FStreamer

open TMap

theorem find_add_new (m : TMap FPlayerId FPlayerSession) (Slot : Nat) (k : FPlayerId)
    (v : FPlayerSession) (h : m.Find k = none) : (m.Add Slot k v).Find k = some v := by
  rw [add_of_find_none m Slot k v h]
  have h1 : ∀ e ∈ m.Pairs, ¬ e.1 = k := by
    intro e he hk
    have := (find_eq_none_iff m k).1 h
    exact this (by simpa [GetKeys] using ⟨e.2, hk ▸ he⟩)
  have h2 : List.find? (fun e => decide (e.1 = k)) (m.Pairs.take Slot) = none := by
    rw [List.find?_eq_none]
    intro e he; simpa using h1 e (List.mem_of_mem_take he)
  simp [Find, List.find?_append, h2]

theorem create_find (s : FStreamer) (Slot : Nat) (id : FPlayerId) :
    ∃ P, (s.CreatePlayerSession Slot id).Players.Find id = some P ∧
      (s.Players.Find id = none → P = FPlayerSession.New id (s.Players.Num == 0)) ∧
      (∀ P0, s.Players.Find id = some P0 → P = P0) := by
  unfold CreatePlayerSession
  cases h : s.Players.Find id with
  | none =>
    refine ⟨FPlayerSession.New id (s.Players.Num == 0), ?_, fun _ => rfl, ?_⟩
    · simpa using find_add_new s.Players Slot id _ h
    · intro P0 h0; cases h0
  | some P0 =>
    refine ⟨P0, by simpa using h, ?_, ?_⟩
    · intro h0; cases h0
    · intro P1 h1; cases h1; rfl

theorem create_keys_mem (s : FStreamer) (Slot : Nat) (id k : FPlayerId) :
    k ∈ (s.CreatePlayerSession Slot id).Players.GetKeys ↔ k = id ∨ k ∈ s.Players.GetKeys := by
  unfold CreatePlayerSession
  cases h : s.Players.Find id with
  | some P =>
    have hid : id ∈ s.Players.GetKeys := (find_isSome_iff s.Players id).1 (by simp [h])
    simp only [Option.isSome_some, if_true]
    constructor
    · exact Or.inr
    · rintro (rfl | h1)
      · exact hid
      · exact h1
  | none =>
    simp only [Option.isSome_none, Bool.false_eq_true, if_false, add_of_find_none _ _ _ _ h,
      GetKeys, List.map_append, List.map_cons, List.mem_append, List.mem_cons]
    have hsplit : k ∈ s.Players.Pairs.map Prod.fst ↔
        k ∈ (s.Players.Pairs.take Slot).map Prod.fst ∨
          k ∈ (s.Players.Pairs.drop Slot).map Prod.fst := by
      rw [← List.mem_append, ← List.map_append, List.take_append_drop]
    rw [hsplit]
    tauto

theorem create_cached (s : FStreamer) (Slot : Nat) (id : FPlayerId) :
    (s.CreatePlayerSession Slot id).CachedJpegBytes = s.CachedJpegBytes := by
  unfold CreatePlayerSession
  cases (s.Players.Find id).isSome <;> rfl

theorem addStreams_eq (s : FStreamer) (Env : FOfferEnv) (id : FPlayerId) (P : FPlayerSession)
    (h : s.Players.Find id = some P) :
    s.AddStreams Env id = some (if P.Senders.isEmpty then
        { s with AudioSource := true, VideoSource := true,
                 Players := s.Players.Modify id (AttachTracks Env id) }
      else s) := by
  unfold AddStreams GetPlayerSession
  rw [h]
  cases hP : P.Senders.isEmpty with
  | false => simp [hP]
  | true => simp [hP]; rfl

/-- The state `OnOffer` returns, given the session `P1` found for the id after
`CreatePlayerSession`. -/
theorem onOffer_eq (s : FStreamer) (Env : FOfferEnv) (id : FPlayerId) (Sdp : String)
    (P1 : FPlayerSession) (h : (s.CreatePlayerSession Env.Slot id).Players.Find id = some P1) :
    s.OnOffer Env id Sdp =
      some { s.CreatePlayerSession Env.Slot id with
        AudioSource := (s.CreatePlayerSession Env.Slot id).AudioSource || P1.Senders.isEmpty
        VideoSource := (s.CreatePlayerSession Env.Slot id).VideoSource || P1.Senders.isEmpty
        Players := ((s.CreatePlayerSession Env.Slot id).Players.Modify id
          (fun P => ((if P1.Senders.isEmpty then AttachTracks Env id P else P).OnOffer Sdp))).ForEach
            (fun P => P.SendKeyFrame) } := by
  unfold OnOffer
  simp only [addStreams_eq _ Env id P1 h]
  cases hP : P1.Senders.isEmpty with
  | false =>
    simp [GetPlayerSession, h]
  | true =>
    simp [GetPlayerSession, find_modify_self, h, modify_modify, FPlayerSession.OnOffer]

/-! ### Well-formedness and the number of quality controllers -/

theorem modifyPairs_eq_map (f : FPlayerSession → FPlayerSession) (k : FPlayerId)
    (L : List (FPlayerId × FPlayerSession)) (hL : (L.map Prod.fst).Nodup) :
    ModifyPairs k f L = L.map (fun e => (e.1, if e.1 = k then f e.2 else e.2)) := by
  rw [modifyPairs_map_of_nodup f k L hL]
  apply List.map_congr_left
  intro e _
  by_cases h : e.1 = k <;> simp [h]

theorem pairsWellFormed_map (F : FPlayerId → FPlayerSession → FPlayerSession)
    (hF : ∀ k P, (F k P).PlayerId = P.PlayerId)
    (L : List (FPlayerId × FPlayerSession)) (hL : PairsWellFormed L) :
    PairsWellFormed (L.map (fun e => (e.1, F e.1 e.2))) := by
  constructor
  · simpa [Function.comp_def] using hL.1
  · intro e he
    simp only [List.mem_map] at he
    obtain ⟨a, ha, rfl⟩ := he
    simpa [hF] using hL.2 a ha

theorem countQC_map (F : FPlayerId → FPlayerSession → FPlayerSession)
    (hF : ∀ k P, (F k P).bQualityController = P.bQualityController)
    (L : List (FPlayerId × FPlayerSession)) :
    CountQualityControllers (L.map (fun e => (e.1, F e.1 e.2))) = CountQualityControllers L := by
  unfold CountQualityControllers
  rw [List.countP_map]
  apply List.countP_congr
  intro e _
  simp [FPlayerSession.IsQualityController, hF]

theorem pairsWellFormed_insert (L : List (FPlayerId × FPlayerSession)) (n : Nat)
    (k : FPlayerId) (b : Bool) (hL : PairsWellFormed L) (hk : k ∉ L.map Prod.fst) :
    PairsWellFormed (L.take n ++ (k, FPlayerSession.New k b) :: L.drop n) := by
  obtain ⟨h1, h2⟩ := hL
  constructor
  · have hperm : (L.take n ++ (k, FPlayerSession.New k b) :: L.drop n).map Prod.fst
        = (L.take n).map Prod.fst ++ k :: (L.drop n).map Prod.fst := by simp
    rw [hperm]
    have hp : List.Perm ((L.take n).map Prod.fst ++ k :: (L.drop n).map Prod.fst)
        (k :: ((L.take n).map Prod.fst ++ (L.drop n).map Prod.fst)) :=
      List.perm_middle
    rw [hp.nodup_iff, ← List.map_append, List.take_append_drop]
    exact List.nodup_cons.2 ⟨hk, h1⟩
  · intro e he
    simp only [List.mem_append, List.mem_cons] at he
    rcases he with he | he | he
    · exact h2 e (List.mem_of_mem_take he)
    · subst he; rfl
    · exact h2 e (List.mem_of_mem_drop he)

theorem countQC_insert (L : List (FPlayerId × FPlayerSession)) (n : Nat)
    (k : FPlayerId) (b : Bool) :
    CountQualityControllers (L.take n ++ (k, FPlayerSession.New k b) :: L.drop n)
      = CountQualityControllers L + (if b then 1 else 0) := by
  unfold CountQualityControllers
  rw [List.countP_append, List.countP_cons]
  have h := List.countP_append (fun e : FPlayerId × FPlayerSession => e.2.IsQualityController)
    (L.take n) (L.drop n)
  rw [List.take_append_drop] at h
  rw [h]
  cases b
  · simp [FPlayerSession.New, FPlayerSession.IsQualityController]
  · simp [FPlayerSession.New, FPlayerSession.IsQualityController]; omega

theorem pairsWellFormed_filter (L : List (FPlayerId × FPlayerSession))
    (p : FPlayerId × FPlayerSession → Bool) (hL : PairsWellFormed L) :
    PairsWellFormed (L.filter p) := by
  constructor
  · exact (List.filter_sublist L).map Prod.fst |>.nodup hL.1
  · intro e he
    exact hL.2 e (List.mem_of_mem_filter he)

theorem countQC_remove (k : FPlayerId) (P : FPlayerSession) :
    ∀ L : List (FPlayerId × FPlayerSession), (L.map Prod.fst).Nodup →
      (TMap.mk L).Find k = some P →
      CountQualityControllers L
        = CountQualityControllers (L.filter (fun e => !decide (e.1 = k)))
          + (if P.bQualityController then 1 else 0) := by
  intro L
  induction L with
  | nil => intro _ h; simp [Find] at h
  | cons e rest ih =>
    intro hnd hfind
    rw [find_pairs_cons] at hfind
    simp only [List.map_cons, List.nodup_cons, List.mem_map, not_exists, not_and] at hnd
    by_cases h : e.1 = k
    · simp only [h, if_true, Option.some.injEq] at hfind
      have hrest : rest.filter (fun e => !decide (e.1 = k)) = rest := by
        rw [List.filter_eq_self]
        intro a ha
        have : ¬ a.1 = k := fun h3 => hnd.1 a ha (h3.trans h.symm)
        simp [this]
      simp only [List.filter_cons, h, decide_True, Bool.not_true, hrest]
      unfold CountQualityControllers
      rw [List.countP_cons]
      simp [FPlayerSession.IsQualityController, hfind]
    · simp only [h, if_false] at hfind
      have := ih hnd.2 hfind
      simp only [List.filter_cons, h, decide_False, Bool.not_false, if_true]
      unfold CountQualityControllers at this ⊢
      rw [List.countP_cons, List.countP_cons, this]
      omega

theorem countQC_setOwner (k : FPlayerId) :
    ∀ L : List (FPlayerId × FPlayerSession), PairsWellFormed L →
      CountQualityControllers (L.map (fun e => (e.1, e.2.SetQualityController
        (if e.2.GetPlayerId = k then true else false))))
        = if k ∈ L.map Prod.fst then 1 else 0 := by
  intro L
  induction L with
  | nil => intro _; simp [CountQualityControllers]
  | cons e rest ih =>
    intro hL
    have hrest : PairsWellFormed rest :=
      ⟨(List.nodup_cons.1 (by simpa using hL.1)).2,
        fun a ha => hL.2 a (List.mem_cons_of_mem _ ha)⟩
    have hid : e.2.PlayerId = e.1 := hL.2 e (List.mem_cons_self _ _)
    have hnot : e.1 ∉ rest.map Prod.fst := (List.nodup_cons.1 (by simpa using hL.1)).1
    have ih1 := ih hrest
    unfold CountQualityControllers at ih1 ⊢
    rw [List.map_cons, List.countP_cons, ih1]
    by_cases h : e.1 = k
    · have : k ∉ rest.map Prod.fst := h ▸ hnot
      simp [FPlayerSession.IsQualityController, FPlayerSession.SetQualityController,
        FPlayerSession.GetPlayerId, hid, h, this]
    · have h1 : ¬ k = e.1 := fun h2 => h h2.symm
      have h2 : (k ∈ (e :: rest).map Prod.fst) ↔ k ∈ rest.map Prod.fst := by
        rw [List.map_cons, List.mem_cons]
        exact ⟨fun h3 => h3.resolve_left h1, Or.inr⟩
      by_cases hk : k ∈ rest.map Prod.fst
      · have hk2 := h2.2 hk
        simp only [FPlayerSession.IsQualityController, FPlayerSession.SetQualityController,
          FPlayerSession.GetPlayerId, hid, h, if_false, hk, hk2, if_true]
        simp
      · have hk2 : ¬ k ∈ (e :: rest).map Prod.fst := fun h3 => hk (h2.1 h3)
        simp only [FPlayerSession.IsQualityController, FPlayerSession.SetQualityController,
          FPlayerSession.GetPlayerId, hid, h, if_false, hk, hk2]
        simp

/-! ### `DeletePlayerSession` by cases -/

theorem delete_none (s : FStreamer) (id : FPlayerId) (h : s.Players.Find id = none) :
    s.DeletePlayerSession id = some s := by
  simp [DeletePlayerSession, GetPlayerSession, h]

theorem delete_last (s : FStreamer) (id : FPlayerId) (P : FPlayerSession)
    (h : s.Players.Find id = some P) (h0 : (s.Players.Remove id).Num = 0) :
    s.DeletePlayerSession id = some { s with
      Players := s.Players.Remove id
      bStreamingStarted := false
      Effects := s.Effects ++ (if s.bDelegates then [.AllConnectionsClosedBroadcast] else []) } := by
  cases hd : s.bDelegates <;>
    simp [DeletePlayerSession, GetPlayerSession, h, h0, hd]

theorem delete_transfer (s : FStreamer) (id : FPlayerId) (P : FPlayerSession)
    (e : FPlayerId × FPlayerSession) (rest : List (FPlayerId × FPlayerSession))
    (h : s.Players.Find id = some P) (h0 : (s.Players.Remove id).Pairs = e :: rest)
    (hq : P.bQualityController = true) :
    s.DeletePlayerSession id = some { s with
      Players := (s.Players.Remove id).ForEach (fun Player => Player.SetQualityController
        (if Player.GetPlayerId = e.1 then true else false)) } := by
  have hnum : ¬ (s.Players.Remove id).Num = 0 := by simp [TMap.Num, h0]
  have hkeys : (s.Players.Remove id).GetKeys = e.1 :: rest.map Prod.fst := by
    simp [GetKeys, h0]
  have hfind : (s.Players.Remove id).Find e.1 = some e.2 := by
    have : s.Players.Remove id = TMap.mk (e :: rest) := by
      cases hr : s.Players.Remove id; simp_all
    rw [this, find_pairs_cons]; simp
  simp [DeletePlayerSession, GetPlayerSession, h, hnum, hq, FPlayerSession.IsQualityController,
    hkeys, OnQualityOwnership, hfind]

theorem delete_keep (s : FStreamer) (id : FPlayerId) (P : FPlayerSession)
    (h : s.Players.Find id = some P) (h0 : (s.Players.Remove id).Num ≠ 0)
    (hq : P.bQualityController = false) :
    s.DeletePlayerSession id = some { s with Players := s.Players.Remove id } := by
  simp [DeletePlayerSession, GetPlayerSession, h, h0, hq, FPlayerSession.IsQualityController]

/-- `DeletePlayerSession` never fails. -/
theorem delete_isSome (s : FStreamer) (id : FPlayerId) :
    ∃ s1, s.DeletePlayerSession id = some s1 := by
  cases h : s.Players.Find id with
  | none => exact ⟨_, delete_none s id h⟩
  | some P =>
    cases hp : (s.Players.Remove id).Pairs with
    | nil => exact ⟨_, delete_last s id P h (by simp [TMap.Num, hp])⟩
    | cons e rest =>
      cases hq : P.bQualityController with
      | true => exact ⟨_, delete_transfer s id P e rest h hp hq⟩
      | false => exact ⟨_, delete_keep s id P h (by simp [TMap.Num, hp]) hq⟩

/-! ### What `DeletePlayerSession` leaves alone -/

theorem num_remove_lt (m : TMap FPlayerId FPlayerSession) (id : FPlayerId)
    (P : FPlayerSession) (h : m.Find id = some P) : (m.Remove id).Num < m.Num := by
  have hmem : id ∈ m.GetKeys := (find_isSome_iff m id).1 (by simp [h])
  simp only [GetKeys, List.mem_map] at hmem
  obtain ⟨e, he, hk⟩ := hmem
  simp only [TMap.Remove, TMap.Num]
  rw [List.length_filter_lt_length_iff_exists]
  exact ⟨e, he, by simp [hk]⟩

theorem delete_frame (s s1 : FStreamer) (id : FPlayerId)
    (h : s.DeletePlayerSession id = some s1) :
    s1.SignallingServerUrl = s.SignallingServerUrl ∧ s1.StreamerId = s.StreamerId ∧
    s1.SignallingServerConnection = s.SignallingServerConnection ∧
    s1.CachedJpegBytes = s.CachedJpegBytes ∧ s1.bDelegates = s.bDelegates ∧
    s1.AudioSource = s.AudioSource ∧ s1.VideoSource = s.VideoSource ∧
    (∃ n, s1.Effects = s.Effects ++ List.replicate n .AllConnectionsClosedBroadcast) ∧
    (∀ P, s.Players.Find id = some P → s1.Players.Num < s.Players.Num) := by
  cases hf : s.Players.Find id with
  | none =>
    rw [delete_none s id hf] at h
    cases h
    exact ⟨rfl, rfl, rfl, rfl, rfl, rfl, rfl, ⟨0, by simp⟩, fun P hP => by cases hP⟩
  | some P =>
    have hlt := num_remove_lt s.Players id P hf
    cases hp : (s.Players.Remove id).Pairs with
    | nil =>
      rw [delete_last s id P hf (by simp [TMap.Num, hp])] at h
      cases h
      refine ⟨rfl, rfl, rfl, rfl, rfl, rfl, rfl, ?_, fun _ _ => hlt⟩
      cases hd : s.bDelegates
      · exact ⟨0, by simp⟩
      · exact ⟨1, by simp⟩
    | cons e rest =>
      cases hq : P.bQualityController with
      | true =>
        rw [delete_transfer s id P e rest hf hp hq] at h
        cases h
        exact ⟨rfl, rfl, rfl, rfl, rfl, rfl, rfl, ⟨0, by simp⟩,
          fun _ _ => by simpa [num_forEach] using hlt⟩
      | false =>
        rw [delete_keep s id P hf (by simp [TMap.Num, hp]) hq] at h
        cases h
        exact ⟨rfl, rfl, rfl, rfl, rfl, rfl, rfl, ⟨0, by simp⟩, fun _ _ => hlt⟩

/-- `DeleteAllPlayerSessions` returns once the fuel covers the number of sessions, with
an empty map. -/
theorem deleteAll_spec (Fuel : Nat) :
    ∀ s : FStreamer, s.Players.Num ≤ Fuel →
      ∃ s1, s.DeleteAllPlayerSessions Fuel = some s1 ∧ s1.Players.Num = 0 ∧
        s1.SignallingServerUrl = s.SignallingServerUrl ∧ s1.StreamerId = s.StreamerId ∧
        s1.CachedJpegBytes = s.CachedJpegBytes ∧
        (∃ n, s1.Effects = s.Effects ++ List.replicate n .AllConnectionsClosedBroadcast) := by
  induction Fuel with
  | zero =>
    intro s hs
    have h0 : s.Players.Num = 0 := Nat.le_zero.1 hs
    refine ⟨s, ?_, h0, rfl, rfl, rfl, ⟨0, by simp⟩⟩
    unfold DeleteAllPlayerSessions
    simp [h0]
  | succ Fuel ih =>
    intro s hs
    by_cases h0 : s.Players.Num = 0
    · refine ⟨s, ?_, h0, rfl, rfl, rfl, ⟨0, by simp⟩⟩
      unfold DeleteAllPlayerSessions
      simp [h0]
    · cases hp : s.Players.Pairs with
      | nil => exact absurd (by simp [TMap.Num, hp]) h0
      | cons e rest =>
        have hkey : s.Players.FirstKey = some e.1 := by simp [TMap.FirstKey, hp]
        have hfind : s.Players.Find e.1 = some e.2 := by
          have : s.Players = TMap.mk (e :: rest) := by
            cases hr : s.Players; simp_all
          rw [this, find_pairs_cons]; simp
        obtain ⟨s2, hdel⟩ := delete_isSome s e.1
        obtain ⟨hu, hi, -, hc, -, -, -, ⟨n, hn⟩, hlt⟩ := delete_frame s s2 e.1 hdel
        have hlt2 := hlt e.2 hfind
        obtain ⟨s3, hrun, hnum, hu3, hi3, hc3, ⟨n3, hn3⟩⟩ := ih s2 (by omega)
        refine ⟨s3, ?_, hnum, hu3.trans hu, hi3.trans hi, hc3.trans hc, ⟨n + n3, ?_⟩⟩
        · rw [DeleteAllPlayerSessions]
          have hpos : s.Players.Num > 0 := Nat.pos_of_ne_zero h0
          simp only [hpos, if_true, hkey, hdel]
          exact hrun
        · rw [hn3, hn, List.append_assoc, List.replicate_add]

/-! ### Preservation of the quality-controller invariant -/

theorem pairs_eq_nil_of_num (m : TMap FPlayerId FPlayerSession) (h : m.Num = 0) :
    m.Pairs = [] := by
  simpa [TMap.Num] using h

theorem create_invariant (s : FStreamer) (Slot : Nat) (id : FPlayerId)
    (hs : s.QualityInvariant) : (s.CreatePlayerSession Slot id).QualityInvariant := by
  unfold CreatePlayerSession
  cases h : s.Players.Find id with
  | some P => simpa using hs
  | none =>
    obtain ⟨hwf, hq⟩ := hs
    have hk : id ∉ s.Players.Pairs.map Prod.fst := (find_eq_none_iff s.Players id).1 h
    simp only [Option.isSome_none, Bool.false_eq_true, if_false, add_of_find_none _ _ _ _ h]
    refine ⟨pairsWellFormed_insert _ _ _ _ hwf hk, ?_⟩
    simp only [NumQualityControllers, countQC_insert]
    unfold NumQualityControllers at hq
    rw [hq]
    by_cases h0 : s.Players.Num = 0
    · have h1 := pairs_eq_nil_of_num _ h0
      simp [h0, TMap.Num, h1]
    · have h1 : s.Players.Pairs ≠ [] := fun h2 => h0 (by simp [TMap.Num, h2])
      simp [h0, TMap.Num, h1]

theorem keeps_offer (Env : FOfferEnv) (id k : FPlayerId) (Sdp : String) (b : Bool)
    (P : FPlayerSession) :
    let Q := (if k = id then ((if b then AttachTracks Env id P else P).OnOffer Sdp) else P).SendKeyFrame
    Q.PlayerId = P.PlayerId ∧ Q.bQualityController = P.bQualityController := by
  by_cases hk : k = id <;> cases b <;> cases h1 : Env.bAddAudioTrackOk <;>
    cases h2 : Env.bAddVideoTrackOk <;>
    simp [hk, AttachTracks, FPlayerSession.AddTrack, FPlayerSession.OnOffer,
      FPlayerSession.SendKeyFrame, FPlayerSession.Receive, h1, h2]

theorem session_after_offer (Env : FOfferEnv) (id : FPlayerId) (Sdp : String) (b : Bool)
    (P : FPlayerSession) :
    (((if b then AttachTracks Env id P else P).OnOffer Sdp).SendKeyFrame).PlayerId = P.PlayerId ∧
    (((if b then AttachTracks Env id P else P).OnOffer Sdp).SendKeyFrame).bQualityController
      = P.bQualityController ∧
    (((if b then AttachTracks Env id P else P).OnOffer Sdp).SendKeyFrame).Calls
      = P.Calls ++ [.OnOffer Sdp, .SendKeyFrame] ∧
    (((if b then AttachTracks Env id P else P).OnOffer Sdp).SendKeyFrame).Senders
      = if b then (AttachTracks Env id P).Senders else P.Senders := by
  cases b <;> cases h1 : Env.bAddAudioTrackOk <;> cases h2 : Env.bAddVideoTrackOk <;>
    simp [AttachTracks, FPlayerSession.AddTrack, FPlayerSession.OnOffer,
      FPlayerSession.SendKeyFrame, FPlayerSession.Receive, h1, h2]

/-- The state after `OnOffer` on a well-formed state: every session of the state after
`CreatePlayerSession` stays in its slot, the one stored for `id` gets its tracks (when it
had no sender) and the offer, and every session gets one key-frame request. -/
theorem onOffer_pairs (s : FStreamer) (Env : FOfferEnv) (id : FPlayerId) (Sdp : String)
    (hs : s.WellFormed) :
    ∃ P1 s1, (s.CreatePlayerSession Env.Slot id).Players.Find id = some P1 ∧
      s.OnOffer Env id Sdp = some s1 ∧
      s1.Players.Pairs = (s.CreatePlayerSession Env.Slot id).Players.Pairs.map
        (fun e => (e.1, (if e.1 = id then
          ((if P1.Senders.isEmpty then AttachTracks Env id e.2 else e.2).OnOffer Sdp)
            else e.2).SendKeyFrame)) ∧
      s1.CachedJpegBytes = s.CachedJpegBytes ∧ s1.bStreamingStarted = s.bStreamingStarted ∧
      s1.Effects = s.Effects ∧ s1.bDelegates = s.bDelegates ∧
      s1.SignallingServerUrl = s.SignallingServerUrl ∧ s1.StreamerId = s.StreamerId ∧
      s1.SignallingServerConnection = s.SignallingServerConnection := by
  obtain ⟨P1, hP1, -, -⟩ := create_find s Env.Slot id
  have hwf1 : ((s.CreatePlayerSession Env.Slot id).Players.Pairs.map Prod.fst).Nodup := by
    unfold CreatePlayerSession
    cases h : s.Players.Find id with
    | some P => simpa using hs.1
    | none =>
      have hk : id ∉ s.Players.Pairs.map Prod.fst := (find_eq_none_iff s.Players id).1 h
      simp only [Option.isSome_none, Bool.false_eq_true, if_false, add_of_find_none _ _ _ _ h]
      exact (pairsWellFormed_insert _ _ _ _ hs hk).1
  have hfields : ∀ t : FStreamer, t = s.CreatePlayerSession Env.Slot id →
      t.CachedJpegBytes = s.CachedJpegBytes ∧ t.bStreamingStarted = s.bStreamingStarted ∧
      t.Effects = s.Effects ∧ t.bDelegates = s.bDelegates ∧
      t.SignallingServerUrl = s.SignallingServerUrl ∧ t.StreamerId = s.StreamerId ∧
      t.SignallingServerConnection = s.SignallingServerConnection := by
    intro t ht
    subst ht
    unfold CreatePlayerSession
    cases h : (s.Players.Find id).isSome <;> simp
  refine ⟨P1, _, hP1, onOffer_eq s Env id Sdp P1 hP1, ?_, ?_⟩
  · simp only [TMap.ForEach, TMap.Modify, modifyPairs_eq_map _ _ _ hwf1, List.map_map]
    apply List.map_congr_left
    intro e _
    by_cases hk : e.1 = id <;> simp [hk, Function.comp]
  · exact hfields (s.CreatePlayerSession Env.Slot id) rfl

theorem onOffer_invariant (s : FStreamer) (Env : FOfferEnv) (id : FPlayerId) (Sdp : String)
    (hs : s.QualityInvariant) :
    ∃ s1, s.OnOffer Env id Sdp = some s1 ∧ s1.QualityInvariant := by
  obtain ⟨P1, s1, hP1, hrun, hpairs, -⟩ := onOffer_pairs s Env id Sdp hs.1
  have hc := create_invariant s Env.Slot id hs
  refine ⟨s1, hrun, ?_, ?_⟩
  · unfold WellFormed
    rw [hpairs]
    exact pairsWellFormed_map
      (fun k P => (if k = id then
          ((if P1.Senders.isEmpty then AttachTracks Env id P else P).OnOffer Sdp)
            else P).SendKeyFrame)
      (fun k P => (keeps_offer Env id k Sdp P1.Senders.isEmpty P).1) _ hc.1
  · have hnum : s1.Players.Num = (s.CreatePlayerSession Env.Slot id).Players.Num := by
      simp [TMap.Num, hpairs]
    unfold NumQualityControllers
    rw [hnum, hpairs, ← hc.2]
    exact countQC_map
      (fun k P => (if k = id then
          ((if P1.Senders.isEmpty then AttachTracks Env id P else P).OnOffer Sdp)
            else P).SendKeyFrame)
      (fun k P => (keeps_offer Env id k Sdp P1.Senders.isEmpty P).2) _

theorem ownership_invariant (s s1 : FStreamer) (id : FPlayerId) (hs : s.WellFormed)
    (h : s.OnQualityOwnership id = some s1) : s1.QualityInvariant := by
  unfold OnQualityOwnership GetPlayerSession at h
  cases hf : s.Players.Find id with
  | none => simp [hf] at h
  | some P =>
    simp only [hf, Option.some.injEq] at h
    subst h
    have hmem : id ∈ s.Players.Pairs.map Prod.fst :=
      (find_isSome_iff s.Players id).1 (by simp [hf])
    have hne : s.Players.Pairs ≠ [] := by
      intro h0; simp [h0] at hmem
    refine ⟨?_, ?_⟩
    · exact pairsWellFormed_map
        (fun _ P => P.SetQualityController (if P.GetPlayerId = id then true else false))
        (fun _ _ => rfl) _ hs
    · simp only [NumQualityControllers, TMap.ForEach, countQC_setOwner id _ hs, hmem, if_true,
        TMap.Num, List.length_map]
      simp [hne]

theorem delete_invariant (s s1 : FStreamer) (id : FPlayerId) (hs : s.QualityInvariant)
    (h : s.DeletePlayerSession id = some s1) : s1.QualityInvariant := by
  cases hf : s.Players.Find id with
  | none =>
    rw [delete_none s id hf] at h
    cases h; exact hs
  | some P =>
    have hwfR : PairsWellFormed (s.Players.Remove id).Pairs :=
      pairsWellFormed_filter _ _ hs.1
    cases hp : (s.Players.Remove id).Pairs with
    | nil =>
      rw [delete_last s id P hf (by simp [TMap.Num, hp])] at h
      cases h
      refine ⟨?_, ?_⟩
      · simpa [WellFormed] using hwfR
      · simp [NumQualityControllers, TMap.Num, hp, CountQualityControllers]
    | cons e rest =>
      cases hq : P.bQualityController with
      | true =>
        rw [delete_transfer s id P e rest hf hp hq] at h
        cases h
        have hmem : e.1 ∈ (s.Players.Remove id).Pairs.map Prod.fst := by simp [hp]
        refine ⟨?_, ?_⟩
        · exact pairsWellFormed_map
            (fun _ P => P.SetQualityController (if P.GetPlayerId = e.1 then true else false))
            (fun _ _ => rfl) _ hwfR
        · simp only [NumQualityControllers, TMap.ForEach, countQC_setOwner e.1 _ hwfR, hmem,
            if_true, TMap.Num, List.length_map]
          simp [hp]
      | false =>
        rw [delete_keep s id P hf (by simp [TMap.Num, hp]) hq] at h
        cases h
        refine ⟨by simpa [WellFormed] using hwfR, ?_⟩
        have hcount := countQC_remove id P s.Players.Pairs hs.1.1 hf
        have hnum : s.Players.Num ≠ 0 := by
          intro h0
          have := pairs_eq_nil_of_num _ h0
          simp [TMap.Find, this] at hf
        have hq2 := hs.2
        simp only [NumQualityControllers, hnum, if_false] at hq2
        simp only [NumQualityControllers, TMap.Num, hp]
        simp only [hq, Bool.false_eq_true, if_false, Nat.add_zero] at hcount
        simp only [TMap.Remove] at hp
        rw [hp] at hcount
        simp [← hcount, hq2]

theorem step_invariant (s s1 : FStreamer) (c : Call) (hs : s.QualityInvariant)
    (h : s.Step c = some s1) : s1.QualityInvariant := by
  cases c with
  | OnOffer Env id Sdp =>
    obtain ⟨s2, h2, hinv⟩ := onOffer_invariant s Env id Sdp hs
    simp only [Step, h2, Option.some.injEq] at h
    exact h ▸ hinv
  | OnPlayerDisconnected id => exact delete_invariant s s1 id hs h
  | OnQualityOwnership id => exact ownership_invariant s s1 id hs.1 h

theorem run_invariant (calls : List Call) :
    ∀ s s1 : FStreamer, s.QualityInvariant → s.Run calls = some s1 → s1.QualityInvariant := by
  induction calls with
  | nil => intro s s1 hs h; simp only [Run, Option.some.injEq] at h; exact h ▸ hs
  | cons c rest ih =>
    intro s s1 hs h
    simp only [Run] at h
    cases hc : s.Step c with
    | none => simp [hc] at h
    | some s2 =>
      simp only [hc] at h
      exact ih s2 s1 (step_invariant s s2 c hs hc) h

theorem invariant_of_no_sessions (s : FStreamer) (h : s.Players.Num = 0) :
    s.QualityInvariant := by
  have := pairs_eq_nil_of_num _ h
  refine ⟨?_, ?_⟩
  · simp [WellFormed, PairsWellFormed, this]
  · simp [NumQualityControllers, CountQualityControllers, this, h]

end FStreamer

end PixelStreaming

/-! ## The quality controller -/

namespace PixelStreaming

open FStreamer TMap

/-- C1: in every state reached from a Streamer without sessions by a finite sequence of
`OnOffer`, `OnPlayerDisconnected` and `OnQualityOwnership` calls (the latter for the id of
an existing session, otherwise its `checkf` aborts the run), the number of sessions
whose quality-controller flag is set is one when there is a session and zero when
there is none. -/
theorem C1_exactly_one_quality_controller (s0 : FStreamer) (h0 : s0.Players.Num = 0)
    (calls : List Call) (s : FStreamer) (hrun : s0.Run calls = some s) :
    s.NumQualityControllers = if s.Players.Num = 0 then 0 else 1 :=
  (run_invariant calls s0 s (invariant_of_no_sessions s0 h0) hrun).2

theorem C1_exactly_one_quality_controller_witness :
    Demo.Start.Players.Num = 0 ∧ Demo.Start.Run Demo.Calls = some Demo.AfterCalls ∧
      Demo.AfterCalls.NumQualityControllers
        = if Demo.AfterCalls.Players.Num = 0 then 0 else 1 :=
  ⟨by decide, by decide,
    C1_exactly_one_quality_controller Demo.Start (by decide) Demo.Calls Demo.AfterCalls
      (by decide)⟩

/-- C2: when `OnOffer` is called for an id without a session, it returns, the map has
one more session, the session stored for the id carries that id, and its
quality-controller flag is set if and only if the map was empty before the call. -/
theorem C2_new_session_controls_iff_first (s : FStreamer) (Env : FOfferEnv) (id : FPlayerId)
    (Sdp : String) (hnew : s.Players.Find id = none) :
    ∃ s1 P, s.OnOffer Env id Sdp = some s1 ∧ s1.Players.Num = s.Players.Num + 1 ∧
      s1.Players.Find id = some P ∧ P.PlayerId = id ∧
      (P.bQualityController = true ↔ s.Players.Num = 0) := by
  obtain ⟨P1, hP1, hnew1, -⟩ := create_find s Env.Slot id
  have hP1eq := hnew1 hnew
  refine ⟨_, ((if P1.Senders.isEmpty then AttachTracks Env id P1 else P1).OnOffer
    Sdp).SendKeyFrame, onOffer_eq s Env id Sdp P1 hP1, ?_, ?_, ?_, ?_⟩
  · simp only [num_forEach, num_modify]
    simp [CreatePlayerSession, hnew, add_of_find_none, TMap.Num]
    omega
  · simp only [find_forEach, find_modify_self, hP1, Option.map_some']
  · rw [(session_after_offer Env id Sdp _ P1).1, hP1eq]; rfl
  · rw [(session_after_offer Env id Sdp _ P1).2.1, hP1eq]
    simp [FPlayerSession.New]

theorem C2_new_session_controls_iff_first_witness :
    Demo.TwoPlayers.Players.Find "p3" = none ∧
      ∃ s1 P, Demo.TwoPlayers.OnOffer Demo.Env "p3" "sdp3" = some s1 ∧
        s1.Players.Num = Demo.TwoPlayers.Players.Num + 1 ∧
        s1.Players.Find "p3" = some P ∧ P.PlayerId = "p3" ∧
        (P.bQualityController = true ↔ Demo.TwoPlayers.Players.Num = 0) :=
  ⟨by decide,
    C2_new_session_controls_iff_first Demo.TwoPlayers Demo.Env "p3" "sdp3" (by decide)⟩

/-- C3: when `OnPlayerDisconnected` removes the session that was the quality controller,
it returns a state whose keys are the prior keys without the id; if a session remains,
the session stored under the first key in iteration order has its flag set and every
other session has it cleared; some remaining session controls quality if and only if
the map is non-empty after the removal. -/
theorem C3_control_passes_to_first_remaining (s : FStreamer) (id : FPlayerId)
    (P : FPlayerSession) (hs : s.WellFormed) (hfind : s.Players.Find id = some P)
    (hq : P.bQualityController = true) :
    ∃ s1, s.OnPlayerDisconnected id = some s1 ∧
      s1.Players.GetKeys = (s.Players.Remove id).GetKeys ∧
      (∀ k rest, s1.Players.GetKeys = k :: rest →
        ∀ e ∈ s1.Players.Pairs, e.2.bQualityController = decide (e.1 = k)) ∧
      ((∃ e ∈ s1.Players.Pairs, e.2.bQualityController = true) ↔ s1.Players.Num ≠ 0) := by
  have hwfR : PairsWellFormed (s.Players.Remove id).Pairs :=
    pairsWellFormed_filter _ _ hs
  unfold OnPlayerDisconnected
  cases hp : (s.Players.Remove id).Pairs with
  | nil =>
    refine ⟨_, delete_last s id P hfind (by simp [TMap.Num, hp]), rfl, ?_, ?_⟩
    · intro k rest hk; simp [GetKeys, hp] at hk
    · simp [TMap.Num, hp]
  | cons e0 rest0 =>
    refine ⟨_, delete_transfer s id P e0 rest0 hfind hp hq, ?_, ?_, ?_⟩
    · simp [getKeys_forEach]
    · intro k rest hk e he
      rw [getKeys_forEach] at hk
      simp only [GetKeys, hp, List.map_cons, List.cons.injEq] at hk
      simp only [TMap.ForEach, List.mem_map] at he
      obtain ⟨a, ha, rfl⟩ := he
      have hid := hwfR.2 a ha
      simp [FPlayerSession.SetQualityController, FPlayerSession.GetPlayerId, hid, hk.1]
    · constructor
      · intro _; simp [TMap.Num, TMap.ForEach, hp]
      · intro _
        have hid := hwfR.2 e0 (by simp [hp])
        refine ⟨(e0.1, e0.2.SetQualityController
          (if e0.2.GetPlayerId = e0.1 then true else false)), ?_, ?_⟩
        · simp [TMap.ForEach, hp]
        · simp [FPlayerSession.SetQualityController, FPlayerSession.GetPlayerId, hid]

theorem C3_control_passes_to_first_remaining_witness :
    Demo.TwoPlayers.WellFormed ∧
      Demo.TwoPlayers.Players.Find "p1" = some Demo.SessionP1 ∧
      Demo.SessionP1.bQualityController = true ∧
      ∃ s1, Demo.TwoPlayers.OnPlayerDisconnected "p1" = some s1 ∧
        s1.Players.GetKeys = (Demo.TwoPlayers.Players.Remove "p1").GetKeys ∧
        (∀ k rest, s1.Players.GetKeys = k :: rest →
          ∀ e ∈ s1.Players.Pairs, e.2.bQualityController = decide (e.1 = k)) ∧
        ((∃ e ∈ s1.Players.Pairs, e.2.bQualityController = true) ↔ s1.Players.Num ≠ 0) :=
  ⟨by decide, by decide, rfl,
    C3_control_passes_to_first_remaining Demo.TwoPlayers "p1" Demo.SessionP1 (by decide)
      (by decide) rfl⟩

/-- C4: `OnOffer` for an id that already has a session creates nothing
(`CreatePlayerSession` returns the state it was given); after the call the keys are the
same, in the same order, every session has the quality-controller flag it had, and the
session stored for the id is the prior one: same id, same flag, its call history extended
by the offer and the key-frame request, its senders kept unless it had none. -/
theorem C4_repeated_offer_creates_nothing (s : FStreamer) (Env : FOfferEnv) (id : FPlayerId)
    (Sdp : String) (P0 : FPlayerSession) (hex : s.Players.Find id = some P0) :
    s.CreatePlayerSession Env.Slot id = s ∧
    ∃ s1 P1, s.OnOffer Env id Sdp = some s1 ∧
      s1.Players.GetKeys = s.Players.GetKeys ∧
      s1.Players.Pairs.map (fun e => (e.1, e.2.bQualityController))
        = s.Players.Pairs.map (fun e => (e.1, e.2.bQualityController)) ∧
      s1.Players.Find id = some P1 ∧ P1.PlayerId = P0.PlayerId ∧
      P1.bQualityController = P0.bQualityController ∧
      P1.Calls = P0.Calls ++ [.OnOffer Sdp, .SendKeyFrame] ∧
      P1.Senders = if P0.Senders.isEmpty then (AttachTracks Env id P0).Senders
        else P0.Senders := by
  have hc : s.CreatePlayerSession Env.Slot id = s := by
    simp [CreatePlayerSession, hex]
  have hP0 : (s.CreatePlayerSession Env.Slot id).Players.Find id = some P0 := by
    rw [hc]; exact hex
  have hrun := onOffer_eq s Env id Sdp P0 hP0
  rw [hc] at hrun
  have hS := session_after_offer Env id Sdp P0.Senders.isEmpty P0
  refine ⟨hc, _, ((if P0.Senders.isEmpty then AttachTracks Env id P0 else P0).OnOffer
    Sdp).SendKeyFrame, hrun, ?_, ?_, ?_, hS.1, hS.2.1, hS.2.2.1, hS.2.2.2⟩
  · simp only [getKeys_forEach, getKeys_modify]
  · simp only [TMap.ForEach, TMap.Modify, List.map_map, Function.comp_def]
    have h1 := modifyPairs_map_proj
      (fun P => (if P0.Senders.isEmpty then AttachTracks Env id P else P).OnOffer Sdp)
      (fun P => (FPlayerSession.SendKeyFrame P).bQualityController)
      (fun v => by
        have h2 := (session_after_offer Env id Sdp P0.Senders.isEmpty v).2.1
        simpa [FPlayerSession.SendKeyFrame, FPlayerSession.Receive] using h2)
      id s.Players.Pairs
    rw [h1]
    apply List.map_congr_left
    intro e _
    simp [FPlayerSession.SendKeyFrame, FPlayerSession.Receive]
  · simp only [find_forEach, find_modify_self, hex, Option.map_some']

theorem C4_repeated_offer_creates_nothing_witness :
    Demo.TwoPlayers.Players.Find "p1" = some Demo.SessionP1 ∧
    (Demo.TwoPlayers.CreatePlayerSession Demo.Env.Slot "p1" = Demo.TwoPlayers ∧
    ∃ s1 P1, Demo.TwoPlayers.OnOffer Demo.Env "p1" "sdp1b" = some s1 ∧
      s1.Players.GetKeys = Demo.TwoPlayers.Players.GetKeys ∧
      s1.Players.Pairs.map (fun e => (e.1, e.2.bQualityController))
        = Demo.TwoPlayers.Players.Pairs.map (fun e => (e.1, e.2.bQualityController)) ∧
      s1.Players.Find "p1" = some P1 ∧ P1.PlayerId = Demo.SessionP1.PlayerId ∧
      P1.bQualityController = Demo.SessionP1.bQualityController ∧
      P1.Calls = Demo.SessionP1.Calls ++ [.OnOffer "sdp1b", .SendKeyFrame] ∧
      P1.Senders = if Demo.SessionP1.Senders.isEmpty
        then (AttachTracks Demo.Env "p1" Demo.SessionP1).Senders
        else Demo.SessionP1.Senders) :=
  ⟨by decide,
    C4_repeated_offer_creates_nothing Demo.TwoPlayers Demo.Env "p1" "sdp1b" Demo.SessionP1
      (by decide)⟩

/-- C5: `OnOffer` on a well-formed state returns; the sessions in the map on return are
the session for the id and the sessions that were there before, and each of them has
received, beyond the calls it had received before (none for a session created by this
call), calls among which `SendKeyFrame` occurs exactly once. -/
theorem C5_key_frame_to_every_session (s : FStreamer) (Env : FOfferEnv) (id : FPlayerId)
    (Sdp : String) (hs : s.WellFormed) :
    ∃ s1, s.OnOffer Env id Sdp = some s1 ∧
      (∀ k, k ∈ s1.Players.GetKeys ↔ k = id ∨ k ∈ s.Players.GetKeys) ∧
      ∀ e ∈ s1.Players.Pairs, ∃ delta,
        e.2.Calls = (match s.Players.Find e.1 with
          | some P => P.Calls
          | none => []) ++ delta ∧
        delta.count .SendKeyFrame = 1 := by
  obtain ⟨P1, s1, hP1, hrun, hpairs, -⟩ := onOffer_pairs s Env id Sdp hs
  refine ⟨s1, hrun, ?_, ?_⟩
  · intro k
    rw [← create_keys_mem s Env.Slot id k]
    simp [GetKeys, hpairs, Function.comp_def]
  intro e he
  rw [hpairs, List.mem_map] at he
  obtain ⟨a, ha, rfl⟩ := he
  -- the calls `a` had received before the offer
  have hprior : (match s.Players.Find a.1 with
      | some P => P.Calls
      | none => []) = a.2.Calls := by
    unfold CreatePlayerSession at ha
    cases hf : s.Players.Find id with
    | some P0 =>
      simp only [hf, Option.isSome_some, if_true] at ha
      have := find_of_mem_nodup s.Players.Pairs hs.1 a ha
      simp only at this
      rw [this]
    | none =>
      simp only [hf, Option.isSome_none, Bool.false_eq_true, if_false,
        add_of_find_none _ _ _ _ hf, List.mem_append, List.mem_cons] at ha
      rcases ha with ha | ha | ha
      · have := find_of_mem_nodup s.Players.Pairs hs.1 a (List.mem_of_mem_take ha)
        simp only at this
        rw [this]
      · subst ha
        simp [hf, FPlayerSession.New]
      · have := find_of_mem_nodup s.Players.Pairs hs.1 a (List.mem_of_mem_drop ha)
        simp only at this
        rw [this]
  simp only [hprior]
  by_cases hk : a.1 = id
  · refine ⟨[.OnOffer Sdp, .SendKeyFrame], ?_, by simp⟩
    simp only [hk, if_true]
    exact (session_after_offer Env id Sdp P1.Senders.isEmpty a.2).2.2.1
  · refine ⟨[.SendKeyFrame], ?_, by decide⟩
    simp [hk, FPlayerSession.SendKeyFrame, FPlayerSession.Receive]

theorem C5_key_frame_to_every_session_witness :
    Demo.TwoPlayers.WellFormed ∧
    ∃ s1, Demo.TwoPlayers.OnOffer Demo.Env "p3" "sdp3" = some s1 ∧
      (∀ k, k ∈ s1.Players.GetKeys ↔ k = "p3" ∨ k ∈ Demo.TwoPlayers.Players.GetKeys) ∧
      ∀ e ∈ s1.Players.Pairs, ∃ delta,
        e.2.Calls = (match Demo.TwoPlayers.Players.Find e.1 with
          | some P => P.Calls
          | none => []) ++ delta ∧
        delta.count .SendKeyFrame = 1 :=
  ⟨by decide, C5_key_frame_to_every_session Demo.TwoPlayers Demo.Env "p3" "sdp3" (by decide)⟩

/-! ## Removing sessions -/

/-- C6: `OnPlayerDisconnected` returns a state whose map is the prior map without the
key: the keys are the prior keys without the id, in the same order, and every kept
session is the prior session object (same id, senders and call history; only the
quality-controller flag may be reassigned, which happens when the removed session
controlled quality); when the removed session did not control quality the map is
exactly the prior map with the key removed, and when the id has no session the whole
state, the flags and `bStreamingStarted` included, is unchanged. -/
theorem C6_disconnect_removes_that_session (s : FStreamer) (id : FPlayerId) :
    ∃ s1, s.OnPlayerDisconnected id = some s1 ∧
      s1.Players.GetKeys = s.Players.GetKeys.filter (fun k => !decide (k = id)) ∧
      s1.Players.Pairs.map (fun e => (e.1, e.2.PlayerId, e.2.Senders, e.2.Calls))
        = (s.Players.Remove id).Pairs.map
            (fun e => (e.1, e.2.PlayerId, e.2.Senders, e.2.Calls)) ∧
      (∀ P, s.Players.Find id = some P → P.bQualityController = false →
        s1.Players = s.Players.Remove id) ∧
      (s.Players.Find id = none → s1 = s) := by
  unfold OnPlayerDisconnected
  cases hf : s.Players.Find id with
  | none =>
    have hk : id ∉ s.Players.GetKeys := (find_eq_none_iff s.Players id).1 hf
    have hrem : s.Players.Remove id = s.Players := by
      cases hm : s.Players with
      | mk l =>
        simp only [TMap.Remove, TMap.mk.injEq, List.filter_eq_self]
        intro a ha
        have : ¬ a.1 = id := by
          intro h3; apply hk; rw [hm]; simp only [GetKeys, List.mem_map]
          exact ⟨a, ha, h3⟩
        simp [this]
    refine ⟨s, delete_none s id hf, ?_, ?_, ?_, fun _ => rfl⟩
    · rw [← getKeys_remove, hrem]
    · rw [hrem]
    · intro P hP; cases hP
  | some P =>
    cases hp : (s.Players.Remove id).Pairs with
    | nil =>
      refine ⟨_, delete_last s id P hf (by simp [TMap.Num, hp]), ?_, ?_, ?_, ?_⟩
      · rw [← getKeys_remove]
      · simp [hp]
      · intro _ _ _; rfl
      · intro h; cases h
    | cons e rest =>
      cases hq : P.bQualityController with
      | true =>
        refine ⟨_, delete_transfer s id P e rest hf hp hq, ?_, ?_, ?_, ?_⟩
        · rw [← getKeys_remove, getKeys_forEach]
        · simp [TMap.ForEach, FPlayerSession.SetQualityController, Function.comp_def, hp]
        · intro P1 h1 h2; cases h1; rw [hq] at h2; cases h2
        · intro h; cases h
      | false =>
        refine ⟨_, delete_keep s id P hf (by simp [TMap.Num, hp]) hq, ?_, ?_, ?_, ?_⟩
        · rw [← getKeys_remove]
        · simp [hp]
        · intro _ _ _; rfl
        · intro h; cases h

/-- C7: with the delegates object in place, `OnPlayerDisconnected` returns a state whose
keys are those left by the removal of the id, and the effects it adds are exactly one
`OnAllConnectionsClosed` broadcast when the id had a session and the map is empty after its
removal, and nothing in every other case (the id has no session, or other sessions
remain). -/
theorem C7_idle_notification (s : FStreamer) (id : FPlayerId) (hd : s.bDelegates = true) :
    ∃ s1, s.OnPlayerDisconnected id = some s1 ∧
      s1.Players.GetKeys = (s.Players.Remove id).GetKeys ∧
      s1.Effects = s.Effects ++
        (if (s.Players.Find id).isSome = true ∧ (s.Players.Remove id).Num = 0
          then [.AllConnectionsClosedBroadcast] else []) := by
  unfold OnPlayerDisconnected
  cases hf : s.Players.Find id with
  | none =>
    refine ⟨s, delete_none s id hf, ?_, by simp⟩
    have hnot : id ∉ s.Players.GetKeys := (find_eq_none_iff s.Players id).1 hf
    rw [getKeys_remove, List.filter_eq_self.2]
    intro k hk
    have : ¬ k = id := fun h => hnot (h ▸ hk)
    simp [this]
  | some P =>
    cases hp : (s.Players.Remove id).Pairs with
    | nil =>
      refine ⟨_, delete_last s id P hf (by simp [TMap.Num, hp]), rfl, ?_⟩
      simp [hd, TMap.Num, hp]
    | cons e rest =>
      cases hq : P.bQualityController with
      | true =>
        refine ⟨_, delete_transfer s id P e rest hf hp hq, ?_, ?_⟩
        · show ((s.Players.Remove id).ForEach _).GetKeys = _
          rw [getKeys_forEach]
        · simp [TMap.Num, hp]
      | false =>
        refine ⟨_, delete_keep s id P hf (by simp [TMap.Num, hp]) hq, rfl, ?_⟩
        simp [TMap.Num, hp]

/-- C7, witness: the only session, `p1`, disconnects: the map is empty afterwards and there is
one broadcast. -/
theorem C7_idle_notification_witness :
    Demo.AfterCalls.bDelegates = true ∧
    ∃ s1, Demo.AfterCalls.OnPlayerDisconnected "p1" = some s1 ∧
      s1.Players.GetKeys = [] ∧
      s1.Effects = Demo.AfterCalls.Effects ++ [.AllConnectionsClosedBroadcast] := by
  obtain ⟨s1, h1, h2, h3⟩ := C7_idle_notification Demo.AfterCalls "p1" rfl
  refine ⟨rfl, s1, h1, ?_, ?_⟩
  · rw [h2]; decide
  · rw [h3]; decide

/-- C8: `OnSignallingServerDisconnected`, given fuel for as many loop iterations as there
are sessions, returns a state with an empty session map, the same signalling URL and
streamer id, and a signalling-server connection constructed from them; the last
effect is the creation of that connection, preceded only by
`OnAllConnectionsClosed` broadcasts. -/
theorem C8_signalling_loss_tears_down_all (Fuel : Nat) (s : FStreamer)
    (hfuel : s.Players.Num ≤ Fuel) :
    ∃ s1, s.OnSignallingServerDisconnected Fuel = some s1 ∧ s1.Players.Num = 0 ∧
      s1.SignallingServerUrl = s.SignallingServerUrl ∧ s1.StreamerId = s.StreamerId ∧
      s1.SignallingServerConnection
        = some { Url := s.SignallingServerUrl, StreamerId := s.StreamerId } ∧
      ∃ n, s1.Effects = s.Effects ++ List.replicate n .AllConnectionsClosedBroadcast ++
        [.SignallingServerConnectionCreated
          { Url := s.SignallingServerUrl, StreamerId := s.StreamerId }] := by
  obtain ⟨s2, hrun, hnum, hu, hi, -, ⟨n, hn⟩⟩ := deleteAll_spec Fuel s hfuel
  refine ⟨s2.ConnectToSignallingServer, ?_, hnum, hu, hi, ?_, ⟨n, ?_⟩⟩
  · simp [OnSignallingServerDisconnected, hrun]
  · simp [ConnectToSignallingServer, hu, hi]
  · simp [ConnectToSignallingServer, hu, hi, hn]

theorem C8_signalling_loss_tears_down_all_witness :
    Demo.TwoPlayers.Players.Num ≤ 2 ∧
    ∃ s1, Demo.TwoPlayers.OnSignallingServerDisconnected 2 = some s1 ∧ s1.Players.Num = 0 ∧
      s1.SignallingServerUrl = Demo.TwoPlayers.SignallingServerUrl ∧
      s1.StreamerId = Demo.TwoPlayers.StreamerId ∧
      s1.SignallingServerConnection
        = some { Url := Demo.TwoPlayers.SignallingServerUrl,
                 StreamerId := Demo.TwoPlayers.StreamerId } ∧
      ∃ n, s1.Effects = Demo.TwoPlayers.Effects ++
        List.replicate n .AllConnectionsClosedBroadcast ++
        [.SignallingServerConnectionCreated
          { Url := Demo.TwoPlayers.SignallingServerUrl,
            StreamerId := Demo.TwoPlayers.StreamerId }] :=
  ⟨by decide, C8_signalling_loss_tears_down_all 2 Demo.TwoPlayers (by decide)⟩

/-! ## The freeze-frame cache -/

/-- C9, counterexample: `SendFreezeFrame` with no bytes on a Streamer without sessions,
then an offer from `p1`: `SendCachedFreezeFrameTo` leaves the new session as it is, so
the session has been sent no freeze frame at all and the round trip fails. -/
theorem C9_counterexample_empty_freeze_frame :
    Demo.Start.Players.Find "p1" = none ∧
    (Demo.Start.SendFreezeFrame []).OnOffer Demo.Env "p1" "sdp1"
      = some Demo.EmptyFreezeJoined ∧
    Demo.EmptyFreezeJoined.SendCachedFreezeFrameTo Demo.JoinedP1 = Demo.JoinedP1 ∧
    ¬ FreezeRoundTrip Demo.Start [] Demo.Env "p1" "sdp1" := by
  have hrun : (Demo.Start.SendFreezeFrame []).OnOffer Demo.Env "p1" "sdp1"
      = some Demo.EmptyFreezeJoined := by decide
  have hfind : Demo.EmptyFreezeJoined.Players.Find "p1" = some Demo.JoinedP1 := by decide
  refine ⟨by decide, hrun, by decide, ?_⟩
  rintro ⟨s1, P, h1, h2, h3⟩
  rw [hrun] at h1
  cases h1
  rw [hfind] at h2
  cases h2
  revert h3
  decide

/-- C9, amended: after `SendFreezeFrame(JpegBytes)` and an `OnOffer` for an id without a
session, both of which return, the cache holds `JpegBytes`; when `JpegBytes` is not empty,
`SendCachedFreezeFrameTo` applied to the new session sends it `JpegBytes`, the only
freeze frame it has been sent, without a second `SendFreezeFrame` on the Streamer; when
`JpegBytes` is empty `SendCachedFreezeFrameTo` sends the new session nothing. -/
theorem C9_cached_freeze_frame_reaches_new_session (s : FStreamer) (JpegBytes : List uint8)
    (Env : FOfferEnv) (id : FPlayerId) (Sdp : String) (hnew : s.Players.Find id = none) :
    (∃ s1 P, (s.SendFreezeFrame JpegBytes).OnOffer Env id Sdp = some s1 ∧
      s1.Players.Find id = some P ∧ s1.CachedJpegBytes = JpegBytes ∧
      (JpegBytes = [] → s1.SendCachedFreezeFrameTo P = P)) ∧
    (JpegBytes ≠ [] → FreezeRoundTrip s JpegBytes Env id Sdp) := by
  have hnew2 : (s.SendFreezeFrame JpegBytes).Players.Find id = none := by
    simp [SendFreezeFrame, find_forEach, hnew]
  obtain ⟨P1, hP1, hnew1, -⟩ := create_find (s.SendFreezeFrame JpegBytes) Env.Slot id
  have hP1eq := hnew1 hnew2
  have hrun := onOffer_eq (s.SendFreezeFrame JpegBytes) Env id Sdp P1 hP1
  have hS := session_after_offer Env id Sdp P1.Senders.isEmpty P1
  have hcache : ((s.SendFreezeFrame JpegBytes).CreatePlayerSession Env.Slot id).CachedJpegBytes
      = JpegBytes := by
    rw [create_cached]; rfl
  have hfind : ∀ t : FStreamer, t.Players = (((s.SendFreezeFrame JpegBytes).CreatePlayerSession
      Env.Slot id).Players.Modify id (fun P =>
        (if P1.Senders.isEmpty then AttachTracks Env id P else P).OnOffer Sdp)).ForEach
          (fun P => P.SendKeyFrame) →
      t.Players.Find id = some (((if P1.Senders.isEmpty then AttachTracks Env id P1
        else P1).OnOffer Sdp).SendKeyFrame) := by
    intro t ht
    rw [ht]
    simp only [find_forEach, find_modify_self, hP1, Option.map_some']
  obtain ⟨s1, hs1, hrun1⟩ : ∃ s1, s1 = _ ∧
      (s.SendFreezeFrame JpegBytes).OnOffer Env id Sdp = some s1 := ⟨_, rfl, hrun⟩
  have hcache1 : s1.CachedJpegBytes = JpegBytes := by rw [hs1]; exact hcache
  have hfind1 := hfind s1 (by rw [hs1])
  clear hs1 hrun
  constructor
  · refine ⟨s1, _, hrun1, hfind1, hcache1, ?_⟩
    intro hempty
    simp [SendCachedFreezeFrameTo, hcache1, hempty]
  · intro hne
    refine ⟨s1, _, hrun1, hfind1, ?_⟩
    have hlen : JpegBytes.length > 0 := List.length_pos.2 hne
    simp only [SendCachedFreezeFrameTo, hcache1, hlen, if_true, ReceivedFreezeFrames,
      FPlayerSession.SendFreezeFrame, FPlayerSession.Receive]
    rw [hS.2.2.1, hP1eq]
    simp [FPlayerSession.New]

theorem C9_cached_freeze_frame_reaches_new_session_witness :
    Demo.TwoPlayers.Players.Find "p3" = none ∧
    ((∃ s1 P, (Demo.TwoPlayers.SendFreezeFrame [255, 216, 255]).OnOffer Demo.Env "p3" "sdp3"
        = some s1 ∧
      s1.Players.Find "p3" = some P ∧ s1.CachedJpegBytes = [255, 216, 255] ∧
      (([255, 216, 255] : List uint8) = [] → s1.SendCachedFreezeFrameTo P = P)) ∧
    (([255, 216, 255] : List uint8) ≠ [] →
      FreezeRoundTrip Demo.TwoPlayers [255, 216, 255] Demo.Env "p3" "sdp3")) :=
  ⟨by decide,
    C9_cached_freeze_frame_reaches_new_session Demo.TwoPlayers [255, 216, 255] Demo.Env "p3"
      "sdp3" (by decide)⟩

/-- C10, counterexample: after `SendFreezeFrame` with no bytes, `SendCachedFreezeFrameTo`
makes no call on the session it is given, so it does not send it those bytes. -/
theorem C10_counterexample_empty_freeze_frame :
    ((Demo.TwoPlayers.SendFreezeFrame []).SendCachedFreezeFrameTo Demo.JoinedP1).Calls
      = Demo.JoinedP1.Calls ∧
    ((Demo.TwoPlayers.SendFreezeFrame []).SendCachedFreezeFrameTo Demo.JoinedP1).Calls
      ≠ Demo.JoinedP1.Calls ++ [.SendFreezeFrame []] := by
  decide

/-- C10, amended: `SendFreezeFrame(JpegBytes)` calls `SendFreezeFrame(JpegBytes)` once on
every session in the map and on nothing else, and leaves the cache equal to `JpegBytes`
whatever it held; a following `SendCachedFreezeFrameTo(P)` calls
`P.SendFreezeFrame(JpegBytes)` once when `JpegBytes` is not empty and makes no call on
`P` when it is empty. -/
theorem C10_freeze_frame_fans_out_and_is_cached (s : FStreamer) (JpegBytes : List uint8) :
    (s.SendFreezeFrame JpegBytes).Players.Pairs
      = s.Players.Pairs.map (fun e => (e.1, { e.2 with
          Calls := e.2.Calls ++ [.SendFreezeFrame JpegBytes] })) ∧
    (s.SendFreezeFrame JpegBytes).CachedJpegBytes = JpegBytes ∧
    (s.SendFreezeFrame JpegBytes).bStreamingStarted = s.bStreamingStarted ∧
    (s.SendFreezeFrame JpegBytes).Effects = s.Effects ∧
    ∀ P : FPlayerSession, (s.SendFreezeFrame JpegBytes).SendCachedFreezeFrameTo P
      = if JpegBytes = [] then P
        else { P with Calls := P.Calls ++ [.SendFreezeFrame JpegBytes] } := by
  refine ⟨rfl, rfl, rfl, rfl, ?_⟩
  intro P
  by_cases h : JpegBytes = []
  · simp [SendCachedFreezeFrameTo, SendFreezeFrame, h]
  · have hlen : JpegBytes.length > 0 := List.length_pos.2 h
    simp [SendCachedFreezeFrameTo, SendFreezeFrame, h, hlen, FPlayerSession.SendFreezeFrame,
      FPlayerSession.Receive]

/-- C11: `SendUnfreezeFrame` calls `SendUnfreezeFrame` once on every session in the map
and changes nothing else but the cache, which it leaves empty whatever it held; a
following `SendCachedFreezeFrameTo(P)` makes no call on `P`, for every session `P`. -/
theorem C11_unfreeze_clears_cache (s : FStreamer) :
    s.SendUnfreezeFrame = { s with
      Players := { Pairs := s.Players.Pairs.map (fun e => (e.1, { e.2 with
        Calls := e.2.Calls ++ [.SendUnfreezeFrame] })) }
      CachedJpegBytes := [] } ∧
    s.SendUnfreezeFrame.CachedJpegBytes = [] ∧
    ∀ P : FPlayerSession, s.SendUnfreezeFrame.SendCachedFreezeFrameTo P = P := by
  refine ⟨rfl, rfl, ?_⟩
  intro P
  simp [SendCachedFreezeFrameTo, SendUnfreezeFrame]

/-! ### Sequences of removals -/

theorem delete_num_le (s s1 : FStreamer) (id : FPlayerId)
    (h : s.DeletePlayerSession id = some s1) : s1.Players.Num ≤ s.Players.Num := by
  cases hf : s.Players.Find id with
  | none =>
    rw [FStreamer.delete_none s id hf] at h
    cases h; exact Nat.le_refl _
  | some P =>
    exact Nat.le_of_lt ((FStreamer.delete_frame s s1 id h).2.2.2.2.2.2.2.2 P hf)

theorem removals_keep_cache (Fuel : Nat) (calls : List RemovalCall) :
    ∀ s : FStreamer, s.Players.Num ≤ Fuel →
      ∃ s1, s.RunRemovals Fuel calls = some s1 ∧
        s1.CachedJpegBytes = s.CachedJpegBytes ∧ s1.Players.Num ≤ Fuel := by
  induction calls with
  | nil => intro s hs; exact ⟨s, rfl, rfl, hs⟩
  | cons c rest ih =>
    intro s hs
    cases c with
    | OnPlayerDisconnected id =>
      obtain ⟨s2, h2⟩ := FStreamer.delete_isSome s id
      have hc := (FStreamer.delete_frame s s2 id h2).2.2.2.1
      have hn := delete_num_le s s2 id h2
      obtain ⟨s3, h3, hc3, hn3⟩ := ih s2 (Nat.le_trans hn hs)
      refine ⟨s3, ?_, hc3.trans hc, hn3⟩
      simp only [RunRemovals, StepRemoval, OnPlayerDisconnected, h2]
      exact h3
    | OnSignallingServerDisconnected =>
      obtain ⟨s2, h2, hnum, -, -, hc, -⟩ := FStreamer.deleteAll_spec Fuel s hs
      have hn : s2.ConnectToSignallingServer.Players.Num ≤ Fuel := by
        simp [ConnectToSignallingServer, hnum]
      obtain ⟨s3, h3, hc3, hn3⟩ := ih s2.ConnectToSignallingServer hn
      refine ⟨s3, ?_, ?_, hn3⟩
      · simp only [RunRemovals, StepRemoval, OnSignallingServerDisconnected, h2,
          Option.map_some']
        exact h3
      · rw [hc3]
        simpa [ConnectToSignallingServer] using hc

/-- C12: after `SendFreezeFrame(JpegBytes)`, every finite sequence of `OnPlayerDisconnected`
and `OnSignallingServerDisconnected` calls returns (the loop of
`DeleteAllPlayerSessions` being given fuel for as many iterations as there are sessions)
and leaves the cache equal to `JpegBytes`, also when it empties the session map. -/
theorem C12_removals_keep_freeze_cache (Fuel : Nat) (s : FStreamer) (JpegBytes : List uint8)
    (calls : List RemovalCall) (hfuel : s.Players.Num ≤ Fuel) :
    ∃ s1, (s.SendFreezeFrame JpegBytes).RunRemovals Fuel calls = some s1 ∧
      s1.CachedJpegBytes = JpegBytes := by
  have hnum : (s.SendFreezeFrame JpegBytes).Players.Num ≤ Fuel := by
    simpa [SendFreezeFrame, num_forEach] using hfuel
  obtain ⟨s1, h1, hc, -⟩ := removals_keep_cache Fuel calls (s.SendFreezeFrame JpegBytes) hnum
  exact ⟨s1, h1, hc⟩

theorem C12_removals_keep_freeze_cache_witness :
    Demo.TwoPlayers.Players.Num ≤ 2 ∧
    ∃ s1, (Demo.TwoPlayers.SendFreezeFrame [255, 216]).RunRemovals 2
        [.OnPlayerDisconnected "p1", .OnSignallingServerDisconnected,
         .OnPlayerDisconnected "p2"] = some s1 ∧
      s1.CachedJpegBytes = [255, 216] :=
  ⟨by decide,
    C12_removals_keep_freeze_cache 2 Demo.TwoPlayers [255, 216]
      [.OnPlayerDisconnected "p1", .OnSignallingServerDisconnected,
       .OnPlayerDisconnected "p2"] (by decide)⟩

/-- C13: `OnQualityOwnership(id)`, for an id that has a session, returns the state in
which every session's quality-controller flag is (session id == id) and nothing else
differs; calling it again with the same id returns that same state. -/
theorem C13_quality_ownership_sets_flags (s : FStreamer) (id : FPlayerId) (P : FPlayerSession)
    (hfind : s.Players.Find id = some P) :
    ∃ s1, s.OnQualityOwnership id = some s1 ∧
      s1 = { s with Players := { Pairs := s.Players.Pairs.map (fun e => (e.1, { e.2 with
        bQualityController := decide (e.2.PlayerId = id) })) } } ∧
      s1.OnQualityOwnership id = some s1 := by
  have h1 : s.OnQualityOwnership id = some { s with
      Players := { Pairs := s.Players.Pairs.map (fun e => (e.1, { e.2 with
        bQualityController := decide (e.2.PlayerId = id) })) } } := by
    simp [OnQualityOwnership, GetPlayerSession, hfind, TMap.ForEach,
      FPlayerSession.SetQualityController, FPlayerSession.GetPlayerId]
  refine ⟨_, h1, rfl, ?_⟩
  have hfind2 : (TMap.mk (s.Players.Pairs.map (fun e => (e.1, { e.2 with
      bQualityController := decide (e.2.PlayerId = id) })))).Find id
        = some { P with bQualityController := decide (P.PlayerId = id) } := by
    have := find_forEach s.Players
      (fun Q => { Q with bQualityController := decide (Q.PlayerId = id) }) id
    simpa [TMap.ForEach, hfind] using this
  simp [OnQualityOwnership, GetPlayerSession, hfind2, TMap.ForEach, Function.comp_def,
    FPlayerSession.SetQualityController, FPlayerSession.GetPlayerId]

theorem C13_quality_ownership_sets_flags_witness :
    Demo.TwoPlayers.Players.Find "p2" = some Demo.SessionP2 ∧
    ∃ s1, Demo.TwoPlayers.OnQualityOwnership "p2" = some s1 ∧
      s1 = { Demo.TwoPlayers with
        Players := { Pairs := Demo.TwoPlayers.Players.Pairs.map (fun e => (e.1, { e.2 with
          bQualityController := decide (e.2.PlayerId = "p2") })) } } ∧
      s1.OnQualityOwnership "p2" = some s1 :=
  ⟨by decide, C13_quality_ownership_sets_flags Demo.TwoPlayers "p2" Demo.SessionP2 (by decide)⟩

/-- C15: `SendPlayerMessage(Type, Descriptor)` calls `SendMessage(Type, Descriptor)` once
on every session in the map, with the type and the descriptor it was given, and changes
nothing else; with an empty map the state is unchanged. -/
theorem C15_player_message_fans_out (s : FStreamer) (MsgType : EToPlayerMsg)
    (Descriptor : String) :
    s.SendPlayerMessage MsgType Descriptor = { s with
      Players := { Pairs := s.Players.Pairs.map (fun e => (e.1, { e.2 with
        Calls := e.2.Calls ++ [.SendMessage MsgType Descriptor] })) } } ∧
    (s.Players.Num = 0 → s.SendPlayerMessage MsgType Descriptor = s) := by
  refine ⟨rfl, ?_⟩
  intro h0
  have hp := FStreamer.pairs_eq_nil_of_num _ h0
  obtain ⟨url, sid, conn, ⟨pairs⟩, bss, cache, a, v, d, eff⟩ := s
  simp only at hp
  subst hp
  rfl

/-! ### Senders added by `AddStreams` -/

theorem attachTracks_senders (Env : FOfferEnv) (id : FPlayerId) (P : FPlayerSession)
    (hP : P.Senders = []) :
    NumSenders .Audio (AttachTracks Env id P) ≤ 1 ∧
    NumSenders .Video (AttachTracks Env id P) ≤ 1 := by
  cases h1 : Env.bAddAudioTrackOk <;> cases h2 : Env.bAddVideoTrackOk <;>
    simp [NumSenders, AttachTracks, FPlayerSession.AddTrack, h1, h2, hP, AudioTrackFor,
      VideoTrackFor]

/-- C14: when the session stored for the id has at least one sender, `AddStreams` returns
the state it was given; and for a session with at most one audio and at most one video
sender (a new session has none), two `AddStreams` calls in a row, whatever `AddTrack`
answers, both return, the second one changes nothing when the first left a sender, and
the session ends with at most one audio sender and at most one video sender. -/
theorem C14_add_streams_idempotent (s : FStreamer) (Env1 Env2 : FOfferEnv) (id : FPlayerId)
    (P : FPlayerSession) (hfind : s.Players.Find id = some P) :
    (P.Senders ≠ [] → s.AddStreams Env1 id = some s) ∧
    (NumSenders .Audio P ≤ 1 → NumSenders .Video P ≤ 1 →
      ∃ s1 s2 P1 P2, s.AddStreams Env1 id = some s1 ∧ s1.Players.Find id = some P1 ∧
        s1.AddStreams Env2 id = some s2 ∧ s2.Players.Find id = some P2 ∧
        (P1.Senders ≠ [] → s2 = s1) ∧
        NumSenders .Audio P2 ≤ 1 ∧ NumSenders .Video P2 ≤ 1) := by
  have hnoop : ∀ (t : FStreamer) (Env : FOfferEnv) (Q : FPlayerSession),
      t.Players.Find id = some Q → Q.Senders ≠ [] → t.AddStreams Env id = some t := by
    intro t Env Q hQ hne
    rw [FStreamer.addStreams_eq t Env id Q hQ]
    have : Q.Senders.isEmpty = false := by
      cases hs : Q.Senders with
      | nil => exact absurd hs hne
      | cons a l => rfl
    simp [this]
  refine ⟨hnoop s Env1 P hfind, ?_⟩
  intro ha hv
  by_cases hP : P.Senders = []
  · -- the first call attaches tracks
    have h1 := FStreamer.addStreams_eq s Env1 id P hfind
    simp only [hP, List.isEmpty_nil, if_true] at h1
    obtain ⟨s1, hs1, h1⟩ : ∃ s1 : FStreamer,
        s1.Players = s.Players.Modify id (AttachTracks Env1 id) ∧
        s.AddStreams Env1 id = some s1 := ⟨_, rfl, h1⟩
    have hf1 : s1.Players.Find id = some (AttachTracks Env1 id P) := by
      rw [hs1, find_modify_self, hfind]; rfl
    by_cases hP1 : (AttachTracks Env1 id P).Senders = []
    · have h2 := FStreamer.addStreams_eq s1 Env2 id _ hf1
      simp only [hP1, List.isEmpty_nil, if_true] at h2
      refine ⟨s1, _, _, AttachTracks Env2 id (AttachTracks Env1 id P), h1, hf1, h2, ?_, ?_,
        (attachTracks_senders Env2 id _ hP1).1, (attachTracks_senders Env2 id _ hP1).2⟩
      · simp only [find_modify_self, hf1, Option.map_some']
      · intro h; exact absurd hP1 h
    · exact ⟨s1, s1, _, _, h1, hf1, hnoop s1 Env2 _ hf1 hP1, hf1, fun _ => rfl,
        (attachTracks_senders Env1 id P hP).1, (attachTracks_senders Env1 id P hP).2⟩
  · exact ⟨s, s, P, P, hnoop s Env1 P hfind hP, hfind, hnoop s Env2 P hfind hP, hfind,
      fun _ => rfl, ha, hv⟩

theorem C14_add_streams_idempotent_witness :
    Demo.TwoPlayers.Players.Find "p1" = some Demo.SessionP1 ∧
    ((Demo.SessionP1.Senders ≠ [] →
      Demo.TwoPlayers.AddStreams Demo.Env "p1" = some Demo.TwoPlayers) ∧
    (NumSenders .Audio Demo.SessionP1 ≤ 1 → NumSenders .Video Demo.SessionP1 ≤ 1 →
      ∃ s1 s2 P1 P2, Demo.TwoPlayers.AddStreams Demo.Env "p1" = some s1 ∧
        s1.Players.Find "p1" = some P1 ∧
        s1.AddStreams Demo.Env "p1" = some s2 ∧ s2.Players.Find "p1" = some P2 ∧
        (P1.Senders ≠ [] → s2 = s1) ∧
        NumSenders .Audio P2 ≤ 1 ∧ NumSenders .Video P2 ≤ 1)) :=
  ⟨by decide,
    C14_add_streams_idempotent Demo.TwoPlayers Demo.Env Demo.Env "p1" Demo.SessionP1
      (by decide)⟩

/-! ### The two-player scenario, step by step -/

theorem scenario_first_offer (s0 : FStreamer) (Env1 : FOfferEnv) (p1 : FPlayerId)
    (Sdp1 : String) (h0 : s0.Players.Pairs = []) (ha : Env1.bAddAudioTrackOk = true)
    (hv : Env1.bAddVideoTrackOk = true) :
    s0.OnOffer Env1 p1 Sdp1 = some { s0 with
      AudioSource := true
      VideoSource := true
      Players := { Pairs := [(p1, ScenarioFirst Env1 p1 Sdp1)] } } := by
  obtain ⟨url, sid, conn, ⟨pairs⟩, bss, cache, a, v, d, eff⟩ := s0
  simp only at h0
  subst h0
  simp [OnOffer, CreatePlayerSession, AddStreams, GetPlayerSession, TMap.Find, TMap.Add,
      TMap.Num, TMap.Modify, TMap.ModifyPairs, TMap.ForEach,
      FPlayerSession.New, FPlayerSession.AddTrack, FPlayerSession.OnOffer,
      FPlayerSession.SendKeyFrame, FPlayerSession.Receive, ScenarioFirst, ha, hv]

theorem scenario_second_offer (s1 : FStreamer) (Env2 : FOfferEnv) (p1 p2 : FPlayerId)
    (A1 : FPlayerSession) (Sdp2 : String) (h1 : s1.Players.Pairs = [(p1, A1)])
    (hne : p1 ≠ p2) :
    s1.OnOffer Env2 p2 Sdp2 = some { s1 with
      AudioSource := true
      VideoSource := true
      Players := { Pairs :=
        if Env2.Slot = 0 then [(p2, ScenarioSecond Env2 p2 Sdp2), (p1, A1.SendKeyFrame)]
        else [(p1, A1.SendKeyFrame), (p2, ScenarioSecond Env2 p2 Sdp2)] } } := by
  obtain ⟨url, sid, conn, ⟨pairs⟩, bss, cache, a, v, d, eff⟩ := s1
  obtain ⟨slot2, a2, v2, d2⟩ := Env2
  simp only at h1
  subst h1
  have hne2 : ¬ p2 = p1 := fun h => hne h.symm
  cases slot2 <;> cases a2 <;> cases v2 <;>
  simp [OnOffer, CreatePlayerSession, AddStreams, GetPlayerSession, TMap.Find, TMap.Add,
      TMap.Num, TMap.Modify, TMap.ModifyPairs, TMap.ForEach, AttachTracks,
      FPlayerSession.New, FPlayerSession.AddTrack, FPlayerSession.OnOffer,
      FPlayerSession.SendKeyFrame, FPlayerSession.Receive, ScenarioSecond, hne, hne2]

theorem scenario_first_leaves (s2 : FStreamer) (p1 p2 : FPlayerId) (A B : FPlayerSession)
    (h2 : s2.Players.Pairs = [(p2, B), (p1, A)] ∨ s2.Players.Pairs = [(p1, A), (p2, B)])
    (hA : A.bQualityController = true) (hB : B.PlayerId = p2) (hne : p1 ≠ p2) :
    s2.OnPlayerDisconnected p1 = some { s2 with
      Players := { Pairs := [(p2, { B with bQualityController := true })] } } := by
  obtain ⟨url, sid, conn, ⟨pairs⟩, bss, cache, a, v, d, eff⟩ := s2
  simp only at h2
  have hne2 : ¬ p2 = p1 := fun h => hne h.symm
  rcases h2 with h2 | h2 <;> subst h2 <;>
  simp [OnPlayerDisconnected, DeletePlayerSession, GetPlayerSession, TMap.Find, TMap.Remove,
      TMap.Num, TMap.GetKeys, OnQualityOwnership, TMap.ForEach,
      FPlayerSession.IsQualityController, FPlayerSession.SetQualityController,
      FPlayerSession.GetPlayerId, hne, hne2, hA, hB]

theorem scenario_last_leaves (s3 : FStreamer) (p2 : FPlayerId) (B : FPlayerSession)
    (h3 : s3.Players.Pairs = [(p2, B)]) (hd : s3.bDelegates = true) :
    s3.OnPlayerDisconnected p2 = some { s3 with
      Players := { Pairs := [] }
      bStreamingStarted := false
      Effects := s3.Effects ++ [.AllConnectionsClosedBroadcast] } := by
  obtain ⟨url, sid, conn, ⟨pairs⟩, bss, cache, a, v, d, eff⟩ := s3
  simp only at h3 hd
  subst h3 hd
  simp [OnPlayerDisconnected, DeletePlayerSession, GetPlayerSession, TMap.Find, TMap.Remove,
      TMap.Num]

/-- C16: the scenario, from any Streamer without sessions, for two different player ids,
with the delegates object in place and both `AddTrack` calls of the first offer
succeeding: after `OnOffer(p1)` one session exists, it controls quality and has one
audio and one video sender, on the shared sources; after `OnOffer(p2)` two sessions
exist, `p1` still controls quality, `p2` does not, and each has received one more
key-frame request; after `OnPlayerDisconnected(p1)` only `p2` remains and controls
quality; after `OnPlayerDisconnected(p2)` no session remains and the effects of the whole
trace are exactly one `OnAllConnectionsClosed` broadcast. -/
theorem C16_two_player_scenario (s0 : FStreamer) (Env1 Env2 : FOfferEnv) (p1 p2 : FPlayerId)
    (Sdp1 Sdp2 : String) (h0 : s0.Players.Num = 0) (hne : p1 ≠ p2)
    (hd : s0.bDelegates = true) (ha : Env1.bAddAudioTrackOk = true)
    (hv : Env1.bAddVideoTrackOk = true) :
    ∃ s1 s2 s3 s4 A1 A2 B2 B3,
      s0.OnOffer Env1 p1 Sdp1 = some s1 ∧ s1.Players.GetKeys = [p1] ∧
      s1.Players.Find p1 = some A1 ∧ A1.bQualityController = true ∧
      A1.Senders.length = 2 ∧ NumSenders .Audio A1 = 1 ∧ NumSenders .Video A1 = 1 ∧
      s1.AudioSource = true ∧ s1.VideoSource = true ∧
      s1.OnOffer Env2 p2 Sdp2 = some s2 ∧ s2.Players.Num = 2 ∧
      s2.Players.Find p1 = some A2 ∧ s2.Players.Find p2 = some B2 ∧
      A2.bQualityController = true ∧ B2.bQualityController = false ∧
      NumKeyFrameRequests A2 = NumKeyFrameRequests A1 + 1 ∧ NumKeyFrameRequests B2 = 1 ∧
      s2.OnPlayerDisconnected p1 = some s3 ∧ s3.Players.GetKeys = [p2] ∧
      s3.Players.Find p2 = some B3 ∧ B3.bQualityController = true ∧
      s3.OnPlayerDisconnected p2 = some s4 ∧ s4.Players.Num = 0 ∧
      s4.Effects = s0.Effects ++ [.AllConnectionsClosedBroadcast] := by
  have hp := FStreamer.pairs_eq_nil_of_num _ h0
  have hne2 : ¬ p2 = p1 := fun h => hne h.symm
  obtain ⟨s1, e1, hP1, hA1, hV1, hE1, hD1⟩ : ∃ s1 : FStreamer,
      s0.OnOffer Env1 p1 Sdp1 = some s1 ∧
      s1.Players.Pairs = [(p1, ScenarioFirst Env1 p1 Sdp1)] ∧ s1.AudioSource = true ∧
      s1.VideoSource = true ∧ s1.Effects = s0.Effects ∧ s1.bDelegates = s0.bDelegates :=
    ⟨_, scenario_first_offer s0 Env1 p1 Sdp1 hp ha hv, rfl, rfl, rfl, rfl, rfl⟩
  obtain ⟨s2, e2, hP2, hE2, hD2⟩ : ∃ s2 : FStreamer,
      s1.OnOffer Env2 p2 Sdp2 = some s2 ∧
      s2.Players.Pairs = (if Env2.Slot = 0
        then [(p2, ScenarioSecond Env2 p2 Sdp2), (p1, (ScenarioFirst Env1 p1 Sdp1).SendKeyFrame)]
        else [(p1, (ScenarioFirst Env1 p1 Sdp1).SendKeyFrame),
              (p2, ScenarioSecond Env2 p2 Sdp2)]) ∧
      s2.Effects = s1.Effects ∧ s2.bDelegates = s1.bDelegates :=
    ⟨_, scenario_second_offer s1 Env2 p1 p2 _ Sdp2 hP1 hne, rfl, rfl, rfl⟩
  have hP2or : s2.Players.Pairs
        = [(p2, ScenarioSecond Env2 p2 Sdp2), (p1, (ScenarioFirst Env1 p1 Sdp1).SendKeyFrame)] ∨
      s2.Players.Pairs
        = [(p1, (ScenarioFirst Env1 p1 Sdp1).SendKeyFrame),
           (p2, ScenarioSecond Env2 p2 Sdp2)] := by
    by_cases hs : Env2.Slot = 0
    · left; rw [hP2, if_pos hs]
    · right; rw [hP2, if_neg hs]
  obtain ⟨s3, e3, hP3, hE3, hD3⟩ : ∃ s3 : FStreamer,
      s2.OnPlayerDisconnected p1 = some s3 ∧
      s3.Players.Pairs
        = [(p2, { ScenarioSecond Env2 p2 Sdp2 with bQualityController := true })] ∧
      s3.Effects = s2.Effects ∧ s3.bDelegates = s2.bDelegates :=
    ⟨_, scenario_first_leaves s2 p1 p2 _ _ hP2or rfl rfl hne, rfl, rfl, rfl⟩
  obtain ⟨s4, e4, hP4, hE4⟩ : ∃ s4 : FStreamer,
      s3.OnPlayerDisconnected p2 = some s4 ∧
      s4.Players.Pairs = [] ∧
      s4.Effects = s3.Effects ++ [.AllConnectionsClosedBroadcast] :=
    ⟨_, scenario_last_leaves s3 p2 _ hP3 (by rw [hD3, hD2, hD1, hd]), rfl, rfl⟩
  refine ⟨s1, s2, s3, s4, ScenarioFirst Env1 p1 Sdp1,
    (ScenarioFirst Env1 p1 Sdp1).SendKeyFrame, ScenarioSecond Env2 p2 Sdp2,
    { ScenarioSecond Env2 p2 Sdp2 with bQualityController := true },
    e1, ?_, ?_, rfl, rfl, ?_, ?_, hA1, hV1, e2, ?_, ?_, ?_, rfl, rfl, ?_, ?_, e3, ?_, ?_, rfl,
    e4, ?_, ?_⟩
  · simp [TMap.GetKeys, hP1]
  · simp [TMap.Find, hP1]
  · simp [NumSenders, ScenarioFirst, AudioTrackFor, VideoTrackFor]
  · simp [NumSenders, ScenarioFirst, AudioTrackFor, VideoTrackFor]
  · rcases hP2or with h | h <;> simp [TMap.Num, h]
  · rcases hP2or with h | h <;> simp [TMap.Find, h, hne, hne2]
  · rcases hP2or with h | h <;> simp [TMap.Find, h, hne, hne2]
  · simp [NumKeyFrameRequests, FPlayerSession.SendKeyFrame, FPlayerSession.Receive]
  · simp [NumKeyFrameRequests, ScenarioSecond]
  · simp [TMap.GetKeys, hP3]
  · simp [TMap.Find, hP3]
  · simp [TMap.Num, hP4]
  · rw [hE4, hE3, hE2, hE1]

theorem C16_two_player_scenario_witness :
    Demo.Start.Players.Num = 0 ∧ "p1" ≠ "p2" ∧ Demo.Start.bDelegates = true ∧
    Demo.Env.bAddAudioTrackOk = true ∧ Demo.Env.bAddVideoTrackOk = true ∧
    ∃ s1 s2 s3 s4 A1 A2 B2 B3,
      Demo.Start.OnOffer Demo.Env "p1" "sdp1" = some s1 ∧ s1.Players.GetKeys = ["p1"] ∧
      s1.Players.Find "p1" = some A1 ∧ A1.bQualityController = true ∧
      A1.Senders.length = 2 ∧ NumSenders .Audio A1 = 1 ∧ NumSenders .Video A1 = 1 ∧
      s1.AudioSource = true ∧ s1.VideoSource = true ∧
      s1.OnOffer Demo.Env "p2" "sdp2" = some s2 ∧ s2.Players.Num = 2 ∧
      s2.Players.Find "p1" = some A2 ∧ s2.Players.Find "p2" = some B2 ∧
      A2.bQualityController = true ∧ B2.bQualityController = false ∧
      NumKeyFrameRequests A2 = NumKeyFrameRequests A1 + 1 ∧ NumKeyFrameRequests B2 = 1 ∧
      s2.OnPlayerDisconnected "p1" = some s3 ∧ s3.Players.GetKeys = ["p2"] ∧
      s3.Players.Find "p2" = some B3 ∧ B3.bQualityController = true ∧
      s3.OnPlayerDisconnected "p2" = some s4 ∧ s4.Players.Num = 0 ∧
      s4.Effects = Demo.Start.Effects ++ [.AllConnectionsClosedBroadcast] :=
  ⟨by decide, by decide, rfl, rfl, rfl,
    C16_two_player_scenario Demo.Start Demo.Env Demo.Env "p1" "p2" "sdp1" "sdp2" (by decide)
      (by decide) rfl rfl rfl⟩

end PixelStreaming

/-! ## The video encoder factory -/

namespace AVEncoder

open FVideoEncoder FVideoEncoderFactory

theorem indexOfID_spec (InID : Nat) :
    ∀ (L : List FVideoEncoderInfo) (Index : Nat), IndexOfID InID L = some Index →
      ∃ Info, L[Index]? = some Info ∧ Info.ID = InID := by
  intro L
  induction L with
  | nil => intro Index h; simp [IndexOfID] at h
  | cons a rest ih =>
    intro Index h
    by_cases ha : a.ID = InID
    · simp only [IndexOfID, ha, if_true, Option.some.injEq] at h
      subst h
      exact ⟨a, by simp, ha⟩
    · simp only [IndexOfID, ha, if_false, Option.map_eq_some'] at h
      obtain ⟨j, hj, rfl⟩ := h
      obtain ⟨Info, h1, h2⟩ := ih j hj
      exact ⟨Info, by simpa using h1, h2⟩

/-- On the factory with one accepting H264 encoder, registered under id 4712, `Create`
returns an encoder on which `Setup` has been called once. -/
theorem create_on_demo_factory (Input : FVideoEncoderInput) (config : FLayerConfig) :
    ∃ E, Demo.OneEncoder.Create 4712 (some Input) config = some (some E) ∧
      E.SetupCalls = [(Input, config)] :=
  ⟨_, rfl, rfl⟩

/-- C18: `HasEncoderForCodec(CodecType)` is true if and only if some registered encoder
info has that codec type; it is false on an empty registry, and true for
`InInfo.CodecType` after `Register(InInfo, InCreateEncoder)`. -/
theorem C18_has_encoder_for_codec (F : FVideoEncoderFactory) (CodecType : ECodecType)
    (InInfo : FVideoEncoderInfo) (InCreateEncoder : CreateEncoderCallback) :
    (F.HasEncoderForCodec CodecType = true ↔
      ∃ EncoderInfo ∈ F.AvailableEncoders, EncoderInfo.CodecType = CodecType) ∧
    (F.AvailableEncoders = [] → F.HasEncoderForCodec CodecType = false) ∧
    FVideoEncoderFactory.Initial.HasEncoderForCodec CodecType = false ∧
    (F.Register InInfo InCreateEncoder).HasEncoderForCodec InInfo.CodecType = true := by
  refine ⟨?_, ?_, ?_, ?_⟩
  · simp [HasEncoderForCodec]
  · intro h; simp [HasEncoderForCodec, h]
  · simp [HasEncoderForCodec, FVideoEncoderFactory.Initial]
  · simp [HasEncoderForCodec, Register]

/-- C19: `FLayerConfig::operator==` holds if and only if the ten fields are pairwise
equal, that is if and only if the two values are equal; it is reflexive, symmetric and
transitive, and `operator!=` is its negation. -/
theorem C19_layer_config_equality (a b c : FLayerConfig) :
    (a.operatorEq b = true ↔
      a.Width = b.Width ∧ a.Height = b.Height ∧ a.MaxFramerate = b.MaxFramerate ∧
      a.MaxBitrate = b.MaxBitrate ∧ a.TargetBitrate = b.TargetBitrate ∧
      a.QPMax = b.QPMax ∧ a.QPMin = b.QPMin ∧ a.RateControlMode = b.RateControlMode ∧
      a.MultipassMode = b.MultipassMode ∧ a.FillData = b.FillData) ∧
    (a.operatorEq b = true ↔ a = b) ∧
    a.operatorEq a = true ∧
    a.operatorEq b = b.operatorEq a ∧
    (a.operatorEq b = true → b.operatorEq c = true → a.operatorEq c = true) ∧
    a.operatorNe b = !(a.operatorEq b) := by
  have hfields : ∀ x y : FLayerConfig, (x.operatorEq y = true ↔
      x.Width = y.Width ∧ x.Height = y.Height ∧ x.MaxFramerate = y.MaxFramerate ∧
      x.MaxBitrate = y.MaxBitrate ∧ x.TargetBitrate = y.TargetBitrate ∧
      x.QPMax = y.QPMax ∧ x.QPMin = y.QPMin ∧ x.RateControlMode = y.RateControlMode ∧
      x.MultipassMode = y.MultipassMode ∧ x.FillData = y.FillData) := by
    intro x y
    simp only [FLayerConfig.operatorEq, Bool.and_eq_true, beq_iff_eq]
    tauto
  have heq : ∀ x y : FLayerConfig, (x.operatorEq y = true ↔ x = y) := by
    intro x y
    rw [hfields]
    constructor
    · intro h
      obtain ⟨w1, h1, f1, mb1, tb1, qa1, qi1, rc1, mp1, fd1⟩ := x
      obtain ⟨w2, h2, f2, mb2, tb2, qa2, qi2, rc2, mp2, fd2⟩ := y
      simp only at h
      obtain ⟨rfl, rfl, rfl, rfl, rfl, rfl, rfl, rfl, rfl, rfl⟩ := h
      rfl
    · intro h; subst h; simp
  refine ⟨hfields a b, heq a b, (heq a a).2 rfl, ?_, ?_, rfl⟩
  · cases h1 : a.operatorEq b with
    | true =>
      have := (heq a b).1 h1
      subst this
      exact h1.symm
    | false =>
      cases h2 : b.operatorEq a with
      | false => rfl
      | true =>
        have := (heq b a).1 h2
        subst this
        rw [h2] at h1; cases h1
  · intro h1 h2
    have e1 := (heq a b).1 h1
    have e2 := (heq b c).1 h2
    subst e1 e2
    exact h1

end AVEncoder

/-! ## The frame capturer -/

namespace PixelStreaming

open FVideoCapturer

/-- C20: when `AdaptFrame` returns false, `AdaptCaptureFrame` returns false without
touching the state and `OnFrameReady` returns the state it was given: no input frame is
obtained from the pool, `Width`, `Height` and `CurrentState` are unchanged, and no
frame is handed to `OnFrame`. -/
theorem C20_rejected_frame_is_noop (s : FVideoCapturer) (Env : FCaptureEnv)
    (FrameBuffer : FTexture2D) (hreject : Env.Adapted = none) :
    s.AdaptCaptureFrame Env Env.TimestampUs FrameBuffer.SizeXY = some (false, s) ∧
    s.OnFrameReady Env FrameBuffer = some s ∧
    ∀ s1, s.OnFrameReady Env FrameBuffer = some s1 →
      s1.Effects = s.Effects ∧ s1.Width = s.Width ∧ s1.Height = s.Height ∧
      s1.CurrentState = s.CurrentState ∧ s1.BackBuffers = s.BackBuffers ∧
      s1.FramesDelivered = s.FramesDelivered := by
  have h1 : s.AdaptCaptureFrame Env Env.TimestampUs FrameBuffer.SizeXY = some (false, s) := by
    simp [AdaptCaptureFrame, hreject]
  have h2 : s.OnFrameReady Env FrameBuffer = some s := by
    simp [OnFrameReady, h1]
  refine ⟨h1, h2, ?_⟩
  intro s1 hs1
  rw [h2] at hs1
  cases hs1
  exact ⟨rfl, rfl, rfl, rfl, rfl, rfl⟩

theorem C20_rejected_frame_is_noop_witness :
    Demo.RejectingEnv.Adapted = none ∧
    (Demo.Capturer.AdaptCaptureFrame Demo.RejectingEnv Demo.RejectingEnv.TimestampUs
        Demo.BackBuffer.SizeXY = some (false, Demo.Capturer) ∧
    Demo.Capturer.OnFrameReady Demo.RejectingEnv Demo.BackBuffer = some Demo.Capturer ∧
    ∀ s1, Demo.Capturer.OnFrameReady Demo.RejectingEnv Demo.BackBuffer = some s1 →
      s1.Effects = Demo.Capturer.Effects ∧ s1.Width = Demo.Capturer.Width ∧
      s1.Height = Demo.Capturer.Height ∧
      s1.CurrentState = Demo.Capturer.CurrentState ∧
      s1.BackBuffers = Demo.Capturer.BackBuffers ∧
      s1.FramesDelivered = Demo.Capturer.FramesDelivered) :=
  ⟨rfl, C20_rejected_frame_is_noop Demo.Capturer Demo.RejectingEnv Demo.BackBuffer rfl⟩

end PixelStreaming

namespace PixelStreaming

open FVideoCapturer

/-! ### Texture release callbacks -/

theorem released_fold (L : List Nat) :
    ∀ s : FVideoCapturer,
      (L.foldl OnTextureReleased s).Width = s.Width ∧
      (L.foldl OnTextureReleased s).Height = s.Height ∧
      (L.foldl OnTextureReleased s).Effects = s.Effects ∧
      (L.foldl OnTextureReleased s).CurrentState = s.CurrentState ∧
      (L.foldl OnTextureReleased s).CVarUseBackBufferCaptureSize
        = s.CVarUseBackBufferCaptureSize ∧
      (L.foldl OnTextureReleased s).CVarCaptureSize = s.CVarCaptureSize ∧
      (L.foldl OnTextureReleased s).CanCreateBackBuffer = s.CanCreateBackBuffer := by
  induction L with
  | nil => intro s; exact ⟨rfl, rfl, rfl, rfl, rfl, rfl, rfl⟩
  | cons h rest ih =>
    intro s
    simpa [List.foldl, OnTextureReleased, CanCreateBackBuffer] using
      ih (OnTextureReleased s h)

/-- C21: `SetCaptureResolution(w, h)` with the current width and height returns the state it
was given, so nothing is called; otherwise, for `w > 0` and `h > 0`, it returns a state
with `Width = w` and `Height = h` whose new effects are `SetResolution(w, h)` followed by
`Flush`, once each, the source state and the settings being unchanged. -/
theorem C21_resolution_change_reaches_pool (s : FVideoCapturer) (Env : FCaptureEnv)
    (w h : Int) :
    (s.Width = w ∧ s.Height = h → s.SetCaptureResolution Env w h = some s) ∧
    (¬ (s.Width = w ∧ s.Height = h) → w > 0 → h > 0 →
      ∃ s1, s.SetCaptureResolution Env w h = some s1 ∧ s1.Width = w ∧ s1.Height = h ∧
        s1.Effects = s.Effects ++ [.SetResolution w h, .Flush] ∧
        s1.CurrentState = s.CurrentState ∧
        s1.CVarUseBackBufferCaptureSize = s.CVarUseBackBufferCaptureSize ∧
        s1.CVarCaptureSize = s.CVarCaptureSize) := by
  constructor
  · intro hsame
    simp [SetCaptureResolution, hsame]
  · intro hne hw hh
    have hw2 : ¬ w ≤ 0 := by omega
    have hh2 : ¬ h ≤ 0 := by omega
    refine ⟨_, by simp [SetCaptureResolution, hne, hw2, hh2]; rfl, ?_⟩
    obtain ⟨h1, h2, h3, h4, h5, h6, -⟩ := released_fold Env.ReleasedOnFlush
      { s with Width := w, Height := h,
               Effects := s.Effects ++ [.SetResolution w h, .Flush] }
    exact ⟨h1, h2, h3, h4, h5, h6⟩

/-- C24: `CopyTexture` issues a single command: `CopyToResolveTarget` if and only if
source and destination have the same format and the same size; otherwise a draw through
the screen shader, with the bilinear sampler when the sizes differ and the point sampler
when the sizes agree and only the format differs. -/
theorem C24_copy_texture_paths (Source Destination : FTexture2D) :
    (CopyTexture Source Destination = [.CopyToResolveTarget Source Destination] ↔
      Source.Format = Destination.Format ∧ Source.SizeXY = Destination.SizeXY) ∧
    (Source.SizeXY ≠ Destination.SizeXY →
      CopyTexture Source Destination = [.DrawRectangle .SF_Bilinear Source Destination]) ∧
    (Source.SizeXY = Destination.SizeXY → Source.Format ≠ Destination.Format →
      CopyTexture Source Destination = [.DrawRectangle .SF_Point Source Destination]) := by
  obtain ⟨f1, ⟨x1, y1⟩⟩ := Source
  obtain ⟨f2, ⟨x2, y2⟩⟩ := Destination
  refine ⟨?_, ?_, ?_⟩
  · by_cases hf : f1 = f2 <;> by_cases hx : x1 = x2 <;> by_cases hy : y1 = y2 <;>
      simp [CopyTexture, hf, hx, hy, eq_comm]
  · intro hne
    simp only [ne_eq, FIntPoint.mk.injEq, not_and] at hne
    by_cases hx : x1 = x2
    · have hy : ¬ y1 = y2 := hne hx
      have hy2 : ¬ y2 = y1 := fun h => hy h.symm
      simp [CopyTexture, hx, hy, hy2]
    · have hx2 : ¬ x2 = x1 := fun h => hx h.symm
      simp [CopyTexture, hx, hx2]
  · intro hs hf
    simp only [FIntPoint.mk.injEq] at hs
    simp only [ne_eq] at hf
    simp [CopyTexture, hs.1, hs.2, hf]

/-! ### Parsing the capture size -/

theorem setCaptureResolution_pos (s : FVideoCapturer) (Env : FCaptureEnv) (w h : Int)
    (hw : w > 0) (hh : h > 0) :
    ∃ s1, s.SetCaptureResolution Env w h = some s1 ∧ s1.Width = w ∧ s1.Height = h ∧
      s1.CVarUseBackBufferCaptureSize = s.CVarUseBackBufferCaptureSize ∧
      s1.CVarCaptureSize = s.CVarCaptureSize ∧
      s1.CanCreateBackBuffer = s.CanCreateBackBuffer ∧
      ∃ pre, s1.Effects = s.Effects ++ pre ∧
        ∀ e ∈ pre, e = .SetResolution w h ∨ e = .Flush := by
  by_cases hsame : s.Width = w ∧ s.Height = h
  · exact ⟨s, by simp [SetCaptureResolution, hsame], hsame.1, hsame.2, rfl, rfl, rfl, [],
      by simp, by simp⟩
  · have hw2 : ¬ w ≤ 0 := by omega
    have hh2 : ¬ h ≤ 0 := by omega
    refine ⟨_, by simp [SetCaptureResolution, hsame, hw2, hh2]; rfl, ?_⟩
    obtain ⟨h1, h2, h3, -, h5, h6, h7⟩ := released_fold Env.ReleasedOnFlush
      { s with Width := w, Height := h,
               Effects := s.Effects ++ [.SetResolution w h, .Flush] }
    refine ⟨h1, h2, h5, h6, ?_, [.SetResolution w h, .Flush], h3, by simp⟩
    rw [h7]; rfl

theorem find_add_absent {K V : Type} [DecidableEq K] (m : TMap K V) (Slot : Nat) (k : K)
    (v : V) (h : m.Find k = none) : (m.Add Slot k v).Find k = some v := by
  rw [TMap.add_of_find_none m Slot k v h]
  have h1 : ∀ e ∈ m.Pairs, ¬ e.1 = k := by
    intro e he hk
    have := (TMap.find_eq_none_iff m k).1 h
    exact this (by simpa [TMap.GetKeys] using ⟨e.2, hk ▸ he⟩)
  have h2 : List.find? (fun e => decide (e.1 = k)) (m.Pairs.take Slot) = none := by
    rw [List.find?_eq_none]
    intro e he; simpa using h1 e (List.mem_of_mem_take he)
  simp [TMap.Find, List.find?_append, h2]

theorem setCaptureResolution_some (s s1 : FVideoCapturer) (Env : FCaptureEnv) (w h : Int)
    (hs : s.SetCaptureResolution Env w h = some s1) :
    s1.Deliveries = s.Deliveries ∧ s1.CanCreateBackBuffer = s.CanCreateBackBuffer ∧
      s1.CVarUseBackBufferCaptureSize = s.CVarUseBackBufferCaptureSize := by
  unfold SetCaptureResolution at hs
  split_ifs at hs with h1 h2 h3
  · cases hs; exact ⟨rfl, rfl, rfl⟩
  · obtain ⟨-, -, h3, -, h5, -, h7⟩ := released_fold Env.ReleasedOnFlush
      { s with Width := w, Height := h,
               Effects := s.Effects ++ [.SetResolution w h, .Flush] }
    cases hs
    refine ⟨?_, ?_, h5⟩
    · unfold Deliveries; rw [h3]; simp [List.filterMap_append]
    · rw [h7]; rfl

theorem adapt_accepted (s : FVideoCapturer) (Env : FCaptureEnv) (TimestampUs : Int)
    (Resolution Out : FIntPoint) (r : Bool × FVideoCapturer) (hacc : Env.Adapted = some Out)
    (hr : s.AdaptCaptureFrame Env TimestampUs Resolution = some r) :
    r.1 = true ∧ r.2.Deliveries = s.Deliveries ∧
      r.2.CanCreateBackBuffer = s.CanCreateBackBuffer ∧
      r.2.CVarUseBackBufferCaptureSize = s.CVarUseBackBufferCaptureSize := by
  simp only [AdaptCaptureFrame, hacc] at hr
  split at hr
  · exact absurd hr (by simp)
  · rename_i s1 hset
    cases hr
    obtain ⟨h1, h2, h3⟩ := setCaptureResolution_some _ _ _ _ _ hset
    refine ⟨rfl, ?_, ?_, ?_⟩
    · rw [h1]; split_ifs
      · split <;> rfl
      · rfl
    · rw [h2]; split_ifs
      · split <;> rfl
      · rfl
    · rw [h3]; split_ifs
      · split <;> rfl
      · rfl

theorem adapt_total (s : FVideoCapturer) (Env : FCaptureEnv) (TimestampUs : Int)
    (Resolution Out : FIntPoint) (hacc : Env.Adapted = some Out)
    (huse : s.CVarUseBackBufferCaptureSize ≠ 0) (hx : Out.X > 0) (hy : Out.Y > 0) :
    ∃ s1, s.AdaptCaptureFrame Env TimestampUs Resolution = some (true, s1) := by
  obtain ⟨s1, h1, -⟩ := setCaptureResolution_pos s Env Out.X Out.Y hx hy
  exact ⟨s1, by simp [AdaptCaptureFrame, hacc, huse, h1]⟩

theorem obtainInputFrame_spec (s : FVideoCapturer) (Env : FCaptureEnv) :
    (s.ObtainInputFrame Env).1
        = { Handle := Env.InputFrameHandle, FrameID := Env.InputFrameID, TimestampUs := 0 } ∧
      (s.ObtainInputFrame Env).2.Deliveries = s.Deliveries ∧
      (s.ObtainInputFrame Env).2.CanCreateBackBuffer = s.CanCreateBackBuffer ∧
      (s.ObtainInputFrame Env).2.CVarUseBackBufferCaptureSize
        = s.CVarUseBackBufferCaptureSize ∧
      (s.CanCreateBackBuffer = true →
        ((s.ObtainInputFrame Env).2.BackBuffers.Find Env.InputFrameHandle).isSome = true) := by
  unfold ObtainInputFrame
  by_cases hfind : (s.BackBuffers.Find Env.InputFrameHandle).isSome = true
  · simp [hfind, Deliveries, List.filterMap_append, CanCreateBackBuffer]
  · by_cases hcan : s.CanCreateBackBuffer = true
    · have hcan1 : CanCreateBackBuffer { s with Effects := s.Effects ++ [.ObtainInputFrame] }
          = true := hcan
      have hnone : s.BackBuffers.Find Env.InputFrameHandle = none := by
        cases hf : s.BackBuffers.Find Env.InputFrameHandle with
        | none => rfl
        | some v => simp [hf] at hfind
      have hadd := find_add_absent s.BackBuffers s.BackBuffers.Num Env.InputFrameHandle
        { Format := PF_B8G8R8A8, SizeXY := { X := s.Width, Y := s.Height } } hnone
      simp only [hfind, hcan1, if_true, if_false, Bool.false_eq_true]
      simp [Deliveries, List.filterMap_append, CanCreateBackBuffer, hadd]
    · have hcan1 : ¬ CanCreateBackBuffer { s with Effects := s.Effects ++ [.ObtainInputFrame] }
          = true := hcan
      simp only [hfind, hcan1, if_false, Bool.false_eq_true]
      simp [Deliveries, List.filterMap_append, hcan]

theorem copyTexture_deliveries (A B : FTexture2D) :
    (CopyTexture A B).filterMap (fun e =>
      match e with
      | .OnFrame Frame => some (FDelivery.Frame Frame.TimestampUs Frame.Id Frame.InputFrame)
      | .Release Handle => some (FDelivery.Release Handle)
      | _ => none) = [] := by
  unfold CopyTexture
  split_ifs <;> rfl

theorem onFrameReady_accepted (s s1 : FVideoCapturer) (Env : FCaptureEnv)
    (FrameBuffer : FTexture2D) (Out : FIntPoint) (hacc : Env.Adapted = some Out)
    (h : s.OnFrameReady Env FrameBuffer = some s1) :
    s1.Deliveries = s.Deliveries ++ DeliveriesOf Env ∧
      s1.CanCreateBackBuffer = s.CanCreateBackBuffer ∧
      s1.CVarUseBackBufferCaptureSize = s.CVarUseBackBufferCaptureSize := by
  unfold OnFrameReady at h
  cases hA : s.AdaptCaptureFrame Env Env.TimestampUs FrameBuffer.SizeXY with
  | none => simp [hA] at h
  | some r =>
    obtain ⟨b, sa⟩ := r
    obtain ⟨hb, hd, hc, hu⟩ := adapt_accepted s Env _ _ Out _ hacc hA
    simp only at hb hd hc hu
    subst hb
    simp only [hA] at h
    have hs2 : ∀ s2 : FVideoCapturer,
        s2 = (if sa.CurrentState ≠ ESourceState.kLive
          then { sa with CurrentState := .kLive } else sa) →
        s2.Deliveries = sa.Deliveries ∧ s2.CanCreateBackBuffer = sa.CanCreateBackBuffer ∧
          s2.CVarUseBackBufferCaptureSize = sa.CVarUseBackBufferCaptureSize := by
      intro s2 h2; subst h2
      split_ifs <;> exact ⟨rfl, rfl, rfl⟩
    generalize (if sa.CurrentState ≠ ESourceState.kLive
      then { sa with CurrentState := .kLive } else sa) = s2 at h hs2
    obtain ⟨h2d, h2c, h2u⟩ := hs2 s2 rfl
    obtain ⟨ho1, ho2, ho3, ho4, -⟩ := obtainInputFrame_spec s2 Env
    generalize s2.ObtainInputFrame Env = O at h ho1 ho2 ho3 ho4
    obtain ⟨Fr, s3⟩ := O
    simp only at ho1 ho2 ho3 ho4
    subst ho1
    have hcopy := copyTexture_deliveries FrameBuffer
    cases hpre : Env.bPreCapture <;> cases hpost : Env.bPostCapture <;>
      simp only [hpre, hpost, if_true, if_false, Bool.false_eq_true] at h
    all_goals
      split at h
      · exact absurd h (by simp)
      · cases h
        refine ⟨?_, ?_, ?_⟩
        · simp only [Deliveries, List.filterMap_append, hcopy] at ho2 h2d hd ⊢
          simp [ho2, h2d, hd, DeliveriesOf]
        · rw [← hc, ← h2c, ← ho3]; rfl
        · rw [← hu, ← h2u, ← ho4]

theorem onFrameReady_total (s : FVideoCapturer) (Env : FCaptureEnv)
    (FrameBuffer : FTexture2D) (Out : FIntPoint) (hacc : Env.Adapted = some Out)
    (hcan : s.CanCreateBackBuffer = true) (huse : s.CVarUseBackBufferCaptureSize ≠ 0)
    (hx : Out.X > 0) (hy : Out.Y > 0) :
    ∃ s1, s.OnFrameReady Env FrameBuffer = some s1 := by
  obtain ⟨sa, hA⟩ := adapt_total s Env Env.TimestampUs FrameBuffer.SizeXY Out hacc huse hx hy
  obtain ⟨-, -, hc, -⟩ := adapt_accepted s Env _ _ Out _ hacc hA
  simp only at hc
  unfold OnFrameReady
  simp only [hA]
  have hs2 : ∀ s2 : FVideoCapturer,
      s2 = (if sa.CurrentState ≠ ESourceState.kLive
        then { sa with CurrentState := .kLive } else sa) →
      s2.CanCreateBackBuffer = true := by
    intro s2 h2; subst h2
    rw [← hcan, ← hc]
    split_ifs <;> rfl
  generalize (if sa.CurrentState ≠ ESourceState.kLive
    then { sa with CurrentState := .kLive } else sa) = s2 at hs2 ⊢
  obtain ⟨ho1, -, -, -, ho5⟩ := obtainInputFrame_spec s2 Env
  have hfind := ho5 (hs2 s2 rfl)
  generalize s2.ObtainInputFrame Env = O at ho1 hfind ⊢
  obtain ⟨Fr, s3⟩ := O
  simp only at ho1 hfind
  subst ho1
  cases hf : s3.BackBuffers.Find Env.InputFrameHandle with
  | none => simp [hf] at hfind
  | some D =>
    cases hpre : Env.bPreCapture <;> simp [hf]

theorem runFrames_accepted (calls : List (FCaptureEnv × FTexture2D)) :
    ∀ s s1 : FVideoCapturer, (∀ c ∈ calls, c.1.Adapted ≠ none) →
      s.RunFrames calls = some s1 →
      s1.Deliveries = s.Deliveries ++ calls.flatMap (fun c => DeliveriesOf c.1) := by
  induction calls with
  | nil =>
    intro s s1 _ h
    simp only [RunFrames, Option.some.injEq] at h
    subst h; simp
  | cons c rest ih =>
    intro s s1 hacc h
    simp only [RunFrames] at h
    cases hstep : s.OnFrameReady c.1 c.2 with
    | none => simp [hstep] at h
    | some sm =>
      simp only [hstep] at h
      have hc := hacc c (List.mem_cons_self _ _)
      obtain ⟨Out, hOut⟩ := Option.ne_none_iff_exists'.1 hc
      obtain ⟨hd, -, -⟩ := onFrameReady_accepted s sm c.1 c.2 Out hOut hstep
      rw [ih sm s1 (fun d hd => hacc d (List.mem_cons_of_mem _ hd)) h, hd]
      simp

theorem runFrames_total (calls : List (FCaptureEnv × FTexture2D)) :
    ∀ s : FVideoCapturer, s.CanCreateBackBuffer = true →
      s.CVarUseBackBufferCaptureSize ≠ 0 →
      (∀ c ∈ calls, ∃ Out, c.1.Adapted = some Out ∧ Out.X > 0 ∧ Out.Y > 0) →
      ∃ s1, s.RunFrames calls = some s1 := by
  induction calls with
  | nil => intro s _ _ _; exact ⟨s, rfl⟩
  | cons c rest ih =>
    intro s hcan huse hacc
    obtain ⟨Out, hOut, hx, hy⟩ := hacc c (List.mem_cons_self _ _)
    obtain ⟨sm, hstep⟩ := onFrameReady_total s c.1 c.2 Out hOut hcan huse hx hy
    obtain ⟨-, hc, hu⟩ := onFrameReady_accepted s sm c.1 c.2 Out hOut hstep
    obtain ⟨s1, h1⟩ := ih sm (hc.trans hcan) (by rw [hu]; exact huse)
      (fun d hd => hacc d (List.mem_cons_of_mem _ hd))
    exact ⟨s1, by simp [RunFrames, hstep, h1]⟩

/-! ### C23 -/

/-- C23: for a sequence of `OnFrameReady` calls that the adapter all accepts, whatever their
timestamps (so in particular strictly increasing ones): when the calls complete, what the
capturer hands over is, call by call and in call order, one frame with the timestamp of the
call, the id of the input frame it obtained (as `int32`) and that input frame, followed by one
release of that input frame. The calls do complete on a platform where `ObtainInputFrame`
creates back buffers, with a non-zero use-back-buffer setting and positive adapted sizes. -/
theorem C23_one_frame_per_accepted_call (calls : List (FCaptureEnv × FTexture2D))
    (s : FVideoCapturer) (hacc : ∀ c ∈ calls, c.1.Adapted ≠ none) :
    (∀ s1, s.RunFrames calls = some s1 →
      s1.Deliveries = s.Deliveries ++ calls.flatMap (fun c =>
        [FDelivery.Frame c.1.TimestampUs (AVEncoder.WrapInt32 c.1.InputFrameID)
           { Handle := c.1.InputFrameHandle, FrameID := c.1.InputFrameID,
             TimestampUs := c.1.TimestampUs },
         FDelivery.Release c.1.InputFrameHandle])) ∧
    (s.CanCreateBackBuffer = true → s.CVarUseBackBufferCaptureSize ≠ 0 →
      (∀ c ∈ calls, ∃ Out, c.1.Adapted = some Out ∧ Out.X > 0 ∧ Out.Y > 0) →
      ∃ s1, s.RunFrames calls = some s1) ∧
    (∀ c ∈ calls, c.1.InputFrameID < 2147483648 →
      AVEncoder.WrapInt32 c.1.InputFrameID = (c.1.InputFrameID : Int)) := by
  refine ⟨fun s1 h => runFrames_accepted calls s s1 hacc h,
    fun hcan huse hpos => runFrames_total calls s hcan huse hpos, ?_⟩
  intro c _ hlt
  unfold AVEncoder.WrapInt32
  omega

/-- C23, witness: two accepted frames with timestamps 1000 and 2000 and input frames 7 and
8. -/
theorem C23_one_frame_per_accepted_call_witness :
    (∀ c ∈ Demo.TwoFrames, c.1.Adapted ≠ none) ∧
    ∃ s1, Demo.Capturer.RunFrames Demo.TwoFrames = some s1 ∧
      s1.Deliveries =
        [.Frame 1000 7 { Handle := 1, FrameID := 7, TimestampUs := 1000 }, .Release 1,
         .Frame 2000 8 { Handle := 2, FrameID := 8, TimestampUs := 2000 }, .Release 2] := by
  have hacc : ∀ c ∈ Demo.TwoFrames, c.1.Adapted ≠ none := by decide
  have hC := C23_one_frame_per_accepted_call Demo.TwoFrames Demo.Capturer hacc
  obtain ⟨s1, h1⟩ := hC.2.1 (by decide) (by decide) (by
    intro c hc
    simp only [Demo.TwoFrames, List.mem_cons, List.mem_singleton, List.not_mem_nil,
      or_false] at hc
    rcases hc with rfl | rfl
    · exact ⟨{ X := 1280, Y := 720 }, rfl, by decide, by decide⟩
    · exact ⟨{ X := 1280, Y := 720 }, rfl, by decide, by decide⟩)
  refine ⟨hacc, s1, h1, ?_⟩
  rw [hC.1 s1 h1]
  decide

end PixelStreaming

namespace PixelStreaming

open TMap FStreamer

/-! ### C28 -/

/-- C28: deleting the last session leaves `bStreamingStarted` false. `OnFrameBufferReady`
changes nothing but the effects, to which it adds the frame handed to the video source exactly
when `bStreamingStarted` is true and the video source exists. So in the state after the last
deletion, and in any state with the flag false, any sequence of `OnFrameBufferReady` calls
leaves the state as it is: no frame reaches the capturer. -/
theorem C28_no_frames_while_idle (s : FStreamer) (id : FPlayerId) (P : FPlayerSession)
    (hfind : s.Players.Find id = some P) (hlast : (s.Players.Remove id).Num = 0) :
    (∃ s1, s.DeletePlayerSession id = some s1 ∧ s1.bStreamingStarted = false ∧
      ∀ Frames : List Nat, Frames.foldl OnFrameBufferReady s1 = s1) ∧
    (∀ (t : FStreamer) (FrameBuffer : Nat),
      t.OnFrameBufferReady FrameBuffer = { t with Effects := t.Effects ++
        (if t.bStreamingStarted = true ∧ t.VideoSource = true
          then [.VideoSourceFrameReady FrameBuffer] else []) }) ∧
    (∀ (t : FStreamer) (Frames : List Nat), t.bStreamingStarted = false →
      Frames.foldl OnFrameBufferReady t = t) := by
  have hidle : ∀ (t : FStreamer) (Frames : List Nat), t.bStreamingStarted = false →
      Frames.foldl OnFrameBufferReady t = t := by
    intro t Frames ht
    induction Frames with
    | nil => rfl
    | cons f rest ih =>
      have : t.OnFrameBufferReady f = t := by simp [OnFrameBufferReady, ht]
      simpa [List.foldl, this] using ih
  refine ⟨⟨_, delete_last s id P hfind hlast, rfl, fun Frames => hidle _ Frames rfl⟩, ?_, hidle⟩
  intro t FrameBuffer
  obtain ⟨a, b, c, d, bs, f, g, vs, i, j⟩ := t
  cases bs <;> cases vs <;> simp [OnFrameBufferReady]

/-- C28, witness: the only session of a Streamer that has started streaming is deleted. -/
theorem C28_no_frames_while_idle_witness :
    Demo.Streaming.bStreamingStarted = true ∧
    (Demo.Streaming.OnFrameBufferReady 5).Effects
      = Demo.Streaming.Effects ++ [.VideoSourceFrameReady 5] ∧
    ∃ s1, Demo.Streaming.DeletePlayerSession "p1" = some s1 ∧ s1.bStreamingStarted = false ∧
      ∀ Frames : List Nat, Frames.foldl OnFrameBufferReady s1 = s1 :=
  ⟨by decide, by decide,
    (C28_no_frames_while_idle Demo.Streaming "p1" Demo.SessionP1 (by decide) (by decide)).1⟩

/-! ### `DeleteAllPlayerSessions`, iteration by iteration -/

theorem delete_first (s : FStreamer) (e : FPlayerId × FPlayerSession)
    (rest : List (FPlayerId × FPlayerSession)) (hp : s.Players.Pairs = e :: rest)
    (hnd : ((e :: rest).map Prod.fst).Nodup) :
    ∃ s1, s.DeletePlayerSession e.1 = some s1 ∧
      s1.Players.GetKeys = rest.map Prod.fst ∧ s1.bDelegates = s.bDelegates ∧
      s1.Effects = s.Effects ++
        (if rest = [] ∧ s.bDelegates = true then [.AllConnectionsClosedBroadcast] else []) := by
  have hfind : s.Players.Find e.1 = some e.2 := by
    have : s.Players = TMap.mk (e :: rest) := by
      cases hr : s.Players; simp_all
    rw [this, find_pairs_cons]; simp
  have hnot : ∀ x ∈ rest, ¬ x.1 = e.1 := by
    intro x hx hxe
    have h1 : e.1 ∉ rest.map Prod.fst ∧ (rest.map Prod.fst).Nodup :=
      List.nodup_cons.1 (by simpa only [List.map_cons] using hnd)
    exact h1.1 (hxe ▸ List.mem_map_of_mem Prod.fst hx)
  have hrem : (s.Players.Remove e.1).Pairs = rest := by
    simp only [TMap.Remove, hp, List.filter_cons, decide_True, Bool.not_true,
      Bool.false_eq_true, if_false]
    rw [List.filter_eq_self]
    intro x hx; simpa using hnot x hx
  cases hrest : rest with
  | nil =>
    subst hrest
    refine ⟨_, delete_last s e.1 e.2 hfind (by simp [TMap.Num, hrem]), ?_, rfl, ?_⟩
    · simp [GetKeys, hrem]
    · cases s.bDelegates <;> simp
  | cons e2 rest2 =>
    subst hrest
    cases hq : e.2.bQualityController with
    | true =>
      refine ⟨_, delete_transfer s e.1 e.2 e2 rest2 hfind hrem hq, ?_, rfl, by simp⟩
      show ((s.Players.Remove e.1).ForEach _).GetKeys = _
      rw [getKeys_forEach]
      simp [GetKeys, hrem]
    | false =>
      refine ⟨_, delete_keep s e.1 e.2 hfind (by simp [TMap.Num, hrem]) hq, ?_, rfl,
        by simp⟩
      simp [GetKeys, hrem]

theorem deleteAll_step (s s1 : FStreamer) (Key : FPlayerId) (Fuel : Nat)
    (hpos : s.Players.Num > 0) (hkey : s.Players.FirstKey = some Key)
    (hdel : s.DeletePlayerSession Key = some s1) :
    s.DeleteAllPlayerSessions (Fuel + 1) = s1.DeleteAllPlayerSessions Fuel := by
  rw [DeleteAllPlayerSessions]
  simp only [hpos, if_true, hkey, hdel]

theorem deleteAll_exact (n : Nat) :
    ∀ s : FStreamer, s.Players.Num = n → s.Players.GetKeys.Nodup →
      (∃ s1, s.DeleteAllPlayerSessions n = some s1 ∧ s1.Players.Num = 0 ∧
        s1.Effects = s.Effects ++
          (if n = 0 ∨ s.bDelegates = false then [] else [.AllConnectionsClosedBroadcast]) ∧
        ∀ Fuel, n ≤ Fuel → s.DeleteAllPlayerSessions Fuel = some s1) ∧
      (∀ Fuel, Fuel < n → s.DeleteAllPlayerSessions Fuel = none) := by
  induction n with
  | zero =>
    intro s hn _
    have hdone : ∀ Fuel, s.DeleteAllPlayerSessions Fuel = some s := by
      intro Fuel; unfold DeleteAllPlayerSessions; simp [hn]
    exact ⟨⟨s, hdone 0, hn, by simp, fun Fuel _ => hdone Fuel⟩, fun Fuel h => by omega⟩
  | succ n ih =>
    intro s hn hnd
    cases hp : s.Players.Pairs with
    | nil => simp [TMap.Num, hp] at hn
    | cons e rest =>
      have hpos : s.Players.Num > 0 := by omega
      have hkey : s.Players.FirstKey = some e.1 := by simp [TMap.FirstKey, hp]
      have hnd2 : ((e :: rest).map Prod.fst).Nodup := by simpa [GetKeys, hp] using hnd
      obtain ⟨s1, hdel, hkeys, hdg, heff⟩ := delete_first s e rest hp hnd2
      have hlen : rest.length = n := by simpa [TMap.Num, hp] using hn
      have hnum1 : s1.Players.Num = n := by
        have : s1.Players.GetKeys.length = (rest.map Prod.fst).length := by rw [hkeys]
        simpa [GetKeys, TMap.Num, hlen] using this
      have hnd1 : s1.Players.GetKeys.Nodup := by
        rw [hkeys]
        exact (List.nodup_cons.1 (by simpa only [List.map_cons] using hnd2)).2
      obtain ⟨⟨s2, hrun, hz, heff2, hmore⟩, hless⟩ := ih s1 hnum1 hnd1
      refine ⟨⟨s2, ?_, hz, ?_, ?_⟩, ?_⟩
      · rw [deleteAll_step s s1 e.1 n hpos hkey hdel]; exact hrun
      · rw [heff2, heff, hdg]
        cases hd : s.bDelegates
        · simp
        · cases rest with
          | nil =>
            have : n = 0 := by simpa using hlen.symm
            simp [this]
          | cons e2 rest2 =>
            have : n ≠ 0 := by
              intro h0; rw [h0] at hlen; simp at hlen
            simp [this]
      · intro Fuel hF
        obtain ⟨F, rfl⟩ : ∃ F, Fuel = F + 1 := ⟨Fuel - 1, by omega⟩
        rw [deleteAll_step s s1 e.1 F hpos hkey hdel]
        exact hmore F (by omega)
      · intro Fuel hF
        cases Fuel with
        | zero => unfold DeleteAllPlayerSessions; simp [hpos]
        | succ F =>
          rw [deleteAll_step s s1 e.1 F hpos hkey hdel]
          exact hless F (by omega)

/-! ### C29 -/

/-- C29: for a map with one pair per key and with the delegates object present. The loop of
`DeleteAllPlayerSessions` returns after exactly `Players.Num()` iterations (that many suffice,
more change nothing, fewer do not reach the end), leaving no session, and its only effect is
one all-connections-closed broadcast when there was a session and none when there was not.
Each iteration deletes the session of the first key in iteration order, which takes the
number of sessions down by one and leaves the other keys in order. -/
theorem C29_delete_all_sessions (s : FStreamer) (hk : s.Players.GetKeys.Nodup)
    (hd : s.bDelegates = true) :
    (∃ s1, s.DeleteAllPlayerSessions s.Players.Num = some s1 ∧ s1.Players.Num = 0 ∧
      s1.Effects = s.Effects ++
        (if s.Players.Num = 0 then [] else [.AllConnectionsClosedBroadcast]) ∧
      ∀ Fuel, s.Players.Num ≤ Fuel → s.DeleteAllPlayerSessions Fuel = some s1) ∧
    (∀ Fuel, Fuel < s.Players.Num → s.DeleteAllPlayerSessions Fuel = none) ∧
    (s.Players.Num > 0 →
      ∃ Key s1, s.Players.GetKeys.head? = some Key ∧
        s.DeletePlayerSession Key = some s1 ∧
        s1.Players.Num + 1 = s.Players.Num ∧
        s1.Players.GetKeys = s.Players.GetKeys.tail ∧
        ∀ Fuel, s.DeleteAllPlayerSessions (Fuel + 1) = s1.DeleteAllPlayerSessions Fuel) := by
  obtain ⟨⟨s1, hrun, hz, heff, hmore⟩, hless⟩ := deleteAll_exact s.Players.Num s rfl hk
  refine ⟨⟨s1, hrun, hz, ?_, hmore⟩, hless, ?_⟩
  · rw [heff]; simp [hd]
  · intro hpos
    cases hp : s.Players.Pairs with
    | nil => simp [TMap.Num, hp] at hpos
    | cons e rest =>
      have hkey : s.Players.FirstKey = some e.1 := by simp [TMap.FirstKey, hp]
      have hnd2 : ((e :: rest).map Prod.fst).Nodup := by simpa [GetKeys, hp] using hk
      obtain ⟨s2, hdel, hkeys, -, -⟩ := delete_first s e rest hp hnd2
      refine ⟨e.1, s2, by simp [GetKeys, hp], hdel, ?_, by rw [hkeys]; simp [GetKeys, hp],
        fun Fuel => deleteAll_step s s2 e.1 Fuel hpos hkey hdel⟩
      have : s2.Players.GetKeys.length = (rest.map Prod.fst).length := by rw [hkeys]
      simpa [GetKeys, TMap.Num, hp] using this

/-- C29, witness: the two sessions of `TwoPlayers` are deleted in two iterations, `p2`
first, with one broadcast. -/
theorem C29_delete_all_sessions_witness :
    Demo.TwoPlayers.Players.GetKeys = ["p2", "p1"] ∧
    (∃ s1, Demo.TwoPlayers.DeleteAllPlayerSessions 2 = some s1 ∧ s1.Players.Num = 0 ∧
      s1.Effects = Demo.TwoPlayers.Effects ++ [.AllConnectionsClosedBroadcast]) ∧
    Demo.TwoPlayers.DeleteAllPlayerSessions 1 = none := by
  have hC := C29_delete_all_sessions Demo.TwoPlayers (by decide) (by decide)
  obtain ⟨⟨s1, h1, h2, h3, -⟩, hless, -⟩ := hC
  exact ⟨by decide, ⟨s1, h1, h2, h3⟩, hless 1 (by decide)⟩

end PixelStreaming

namespace AVEncoder

open FVideoEncoderFactory FVideoEncoder

/-! ### Sequences of `Register` calls -/

theorem indexOfID_none (InID : Nat) :
    ∀ L : List FVideoEncoderInfo, (∀ Info ∈ L, Info.ID ≠ InID) → IndexOfID InID L = none := by
  intro L
  induction L with
  | nil => intro _; rfl
  | cons a rest ih =>
    intro h
    have ha : ¬ a.ID = InID := h a (List.mem_cons_self _ _)
    simp [IndexOfID, ha, ih (fun I hI => h I (List.mem_cons_of_mem _ hI))]

theorem indexOfID_some (InID : Nat) :
    ∀ L : List FVideoEncoderInfo, (∃ Info ∈ L, Info.ID = InID) →
      ∃ Index, IndexOfID InID L = some Index := by
  intro L
  induction L with
  | nil => intro h; obtain ⟨I, hI, -⟩ := h; cases hI
  | cons a rest ih =>
    intro h
    by_cases ha : a.ID = InID
    · exact ⟨0, by simp [IndexOfID, ha]⟩
    · obtain ⟨I, hI, hid⟩ := h
      rcases List.mem_cons.1 hI with rfl | hI2
      · exact absurd hid ha
      · obtain ⟨j, hj⟩ := ih ⟨I, hI2, hid⟩
        exact ⟨j + 1, by simp [IndexOfID, ha, hj]⟩

theorem register_state (N : Int) (F : FVideoEncoderFactory) (InInfo : FVideoEncoderInfo)
    (InCreateEncoder : CreateEncoderCallback)
    (Done : List (FVideoEncoderInfo × CreateEncoderCallback))
    (hid : F.RegisteredIDs = (List.range Done.length).map (fun k : Nat => ToUInt32 (N + 1 + (k : Int))))
    (hinfo : F.AvailableEncoders.map (fun Info => { Info with ID := 0 })
      = Done.map (fun r => { r.1 with ID := 0 }))
    (hcreate : F.CreateEncoders = Done.map (fun r => r.2))
    (hnext : F.NextID % 2 ^ 32 = (N + Done.length) % 2 ^ 32) :
    (F.Register InInfo InCreateEncoder).RegisteredIDs
        = (List.range (Done ++ [(InInfo, InCreateEncoder)]).length).map
            (fun k : Nat => ToUInt32 (N + 1 + (k : Int))) ∧
      (F.Register InInfo InCreateEncoder).AvailableEncoders.map
          (fun Info => { Info with ID := 0 })
        = (Done ++ [(InInfo, InCreateEncoder)]).map (fun r => { r.1 with ID := 0 }) ∧
      (F.Register InInfo InCreateEncoder).CreateEncoders
        = (Done ++ [(InInfo, InCreateEncoder)]).map (fun r => r.2) ∧
      (F.Register InInfo InCreateEncoder).NextID % 2 ^ 32
        = (N + (Done ++ [(InInfo, InCreateEncoder)]).length) % 2 ^ 32 := by
  have hnew : ToUInt32 (WrapInt32 (F.NextID + 1)) = ToUInt32 (N + 1 + Done.length) := by
    unfold ToUInt32 WrapInt32
    omega
  have hnext2 : WrapInt32 (F.NextID + 1) % 2 ^ 32 = (N + (Done.length + 1)) % 2 ^ 32 := by
    unfold WrapInt32
    omega
  refine ⟨?_, ?_, ?_, ?_⟩
  · unfold RegisteredIDs at hid ⊢
    simp only [Register, List.map_append, hid, List.length_append, List.length_singleton,
      List.range_succ, List.map_cons, List.map_nil, hnew]
  · simp only [Register, List.map_append, hinfo, List.map_cons, List.map_nil]
  · simp only [Register, hcreate, List.map_append, List.map_cons, List.map_nil]
  · simp only [Register, List.length_append, List.length_singleton]
    push_cast
    exact hnext2

theorem registerAll_state (N : Int) :
    ∀ (Registrations Done : List (FVideoEncoderInfo × CreateEncoderCallback))
      (F : FVideoEncoderFactory),
      F.RegisteredIDs = (List.range Done.length).map (fun k : Nat => ToUInt32 (N + 1 + (k : Int))) →
      F.AvailableEncoders.map (fun Info => { Info with ID := 0 })
        = Done.map (fun r => { r.1 with ID := 0 }) →
      F.CreateEncoders = Done.map (fun r => r.2) →
      F.NextID % 2 ^ 32 = (N + Done.length) % 2 ^ 32 →
      (F.RegisterAll Registrations).RegisteredIDs
          = (List.range (Done ++ Registrations).length).map
              (fun k : Nat => ToUInt32 (N + 1 + (k : Int))) ∧
        (F.RegisterAll Registrations).AvailableEncoders.map
            (fun Info => { Info with ID := 0 })
          = (Done ++ Registrations).map (fun r => { r.1 with ID := 0 }) ∧
        (F.RegisterAll Registrations).CreateEncoders
          = (Done ++ Registrations).map (fun r => r.2) := by
  intro Registrations
  induction Registrations with
  | nil =>
    intro Done F h1 h2 h3 _
    simpa [RegisterAll] using ⟨h1, h2, h3⟩
  | cons r rest ih =>
    intro Done F h1 h2 h3 h4
    obtain ⟨g1, g2, g3, g4⟩ := register_state N F r.1 r.2 Done h1 h2 h3 h4
    have := ih (Done ++ [(r.1, r.2)]) (F.Register r.1 r.2) g1 g2 g3 g4
    simpa [RegisterAll, List.append_assoc] using this

theorem toUInt32_injOn (N : Int) (n : Nat) (hn : n ≤ 2 ^ 32) (a b : Nat) (ha : a < n)
    (hb : b < n) (h : ToUInt32 (N + 1 + a) = ToUInt32 (N + 1 + b)) : a = b := by
  unfold ToUInt32 at h
  have hn2 : n ≤ 4294967296 := by simpa using hn
  omega

/-! ### C30 -/

/-- C30: for every sequence of `Register` calls that fits the 32-bit counter (at most `2^32`
calls), on a factory whose two lists are empty and whose counter holds any value `NextID`: the
ids of the registered encoders are the successive counter values `NextID + 1`, `NextID + 2`,
... (as `uint32`) and are pairwise distinct; the info list and the constructor list have the
length of the sequence and hold the registered infos and constructors in order. On any factory,
`GetInfo(id)` returns the first entry with that id when some entry has it, and false otherwise;
with distinct ids that entry is the only one. -/
theorem C30_register_assigns_distinct_ids (F0 : FVideoEncoderFactory)
    (Registrations : List (FVideoEncoderInfo × CreateEncoderCallback))
    (hinfo : F0.AvailableEncoders = []) (hcreate : F0.CreateEncoders = [])
    (hfit : Registrations.length ≤ 2 ^ 32) :
    (F0.RegisterAll Registrations).RegisteredIDs.Nodup ∧
    (F0.RegisterAll Registrations).RegisteredIDs
      = (List.range Registrations.length).map (fun k : Nat => ToUInt32 (F0.NextID + 1 + (k : Int))) ∧
    (F0.RegisterAll Registrations).AvailableEncoders.length = Registrations.length ∧
    (F0.RegisterAll Registrations).CreateEncoders.length = Registrations.length ∧
    (F0.RegisterAll Registrations).AvailableEncoders.map (fun Info => { Info with ID := 0 })
      = Registrations.map (fun r => { r.1 with ID := 0 }) ∧
    (F0.RegisterAll Registrations).CreateEncoders = Registrations.map (fun r => r.2) ∧
    (∀ (F : FVideoEncoderFactory) (InID : Nat),
      (InID ∈ F.RegisteredIDs →
        ∃ Info, F.GetInfo InID = some Info ∧ Info ∈ F.AvailableEncoders ∧ Info.ID = InID) ∧
      (InID ∉ F.RegisteredIDs → F.GetInfo InID = none)) := by
  obtain ⟨h1, h2, h3⟩ := registerAll_state F0.NextID Registrations [] F0
    (by simp [RegisteredIDs, hinfo]) (by simp [hinfo]) (by simp [hcreate]) (by simp)
  simp only [List.nil_append] at h1 h2 h3
  refine ⟨?_, h1, ?_, ?_, h2, h3, ?_⟩
  · rw [h1]
    refine List.Nodup.map_on ?_ (List.nodup_range _)
    intro a ha b hb hab
    exact toUInt32_injOn F0.NextID Registrations.length hfit a b (List.mem_range.1 ha)
      (List.mem_range.1 hb) hab
  · have := congrArg List.length h2
    simpa using this
  · have := congrArg List.length h3
    simpa using this
  · intro F InID
    constructor
    · intro hmem
      simp only [RegisteredIDs, List.mem_map] at hmem
      obtain ⟨I, hI, hid⟩ := hmem
      obtain ⟨Index, hIndex⟩ := indexOfID_some InID F.AvailableEncoders ⟨I, hI, hid⟩
      obtain ⟨Info, hget, hinfoid⟩ := indexOfID_spec InID F.AvailableEncoders Index hIndex
      refine ⟨Info, by simp [GetInfo, hIndex, hget], ?_, hinfoid⟩
      exact List.mem_iff_getElem?.2 ⟨Index, hget⟩
    · intro hnot
      have : ∀ Info ∈ F.AvailableEncoders, Info.ID ≠ InID := by
        intro Info hI hid
        exact hnot (by simpa [RegisteredIDs] using ⟨Info, hI, hid⟩)
      simp [GetInfo, indexOfID_none InID F.AvailableEncoders this]

/-- C30, witness: two registrations on the initial factory get the ids 4712 and 4713. -/
theorem C30_register_assigns_distinct_ids_witness :
    (FVideoEncoderFactory.Initial.RegisterAll Demo.TwoRegistrations).RegisteredIDs
      = [4712, 4713] ∧
    (FVideoEncoderFactory.Initial.RegisterAll Demo.TwoRegistrations).RegisteredIDs.Nodup ∧
    (FVideoEncoderFactory.Initial.RegisterAll Demo.TwoRegistrations).GetInfo 4713
      = some { Demo.VP8Info with ID := 4713 } ∧
    (FVideoEncoderFactory.Initial.RegisterAll Demo.TwoRegistrations).GetInfo 4711 = none := by
  have hC := C30_register_assigns_distinct_ids FVideoEncoderFactory.Initial
    Demo.TwoRegistrations rfl rfl (by simp [Demo.TwoRegistrations])
  exact ⟨by decide, hC.1, by decide, by decide⟩

end AVEncoder

namespace AVEncoder

open FVideoEncoderFactory FVideoEncoder

/-! ### `Create` without an input -/

theorem createLoop_d3d (F : FVideoEncoderFactory) (RHIName : String)
    (CreatedInput : Option FVideoEncoderInput) (InID : Nat) (config : FLayerConfig)
    (E : FVideoEncoder) (hrhi : RHIName = "D3D11" ∨ RHIName = "D3D12") :
    ∀ (L : List FVideoEncoderInfo) (Index : Nat),
      CreateLoop F RHIName CreatedInput InID config L Index none = some (some E) →
      ∃ (E0 : FVideoEncoder) (Input : FVideoEncoderInput),
        CreatedInput = some Input ∧ (E0.Setup Input config).1 = true ∧
        E = (E0.Setup Input config).2 := by
  intro L
  induction L with
  | nil => intro Index h; simp [CreateLoop] at h
  | cons Info Rest ih =>
    intro Index h
    by_cases hid : Info.ID = InID
    · simp only [CreateLoop, hid, if_true] at h
      cases hc : F.CreateEncoders[Index]? with
      | none => simp [hc] at h
      | some CreateEncoder =>
        cases hin : CreatedInput with
        | none => rcases hrhi with h1 | h1 <;> simp [hc, hin, h1] at h
        | some Input =>
          have hres : SetupOrReset (CreateEncoder ()) Input config = some E := by
            rcases hrhi with h1 | h1 <;> simpa [hc, hin, h1] using h
          cases hE : CreateEncoder () with
          | none => simp [SetupOrReset, hE] at hres
          | some E0 =>
            by_cases hs : (E0.Setup Input config).1 = true
            · refine ⟨E0, Input, rfl, hs, ?_⟩
              simpa [SetupOrReset, hE, hs] using hres.symm
            · simp [SetupOrReset, hE, hs] at hres
    · simp only [CreateLoop, hid, if_false] at h
      exact ih (Index + 1) h

/-! ### C27 -/

/-- C27: on the factory with one accepting H264 encoder, registered under id 4712, with the
rendering backend `Vulkan`, `Create(4712, config)` returns a non-null encoder on which `Setup`
has never been called. With the backend `D3D11` or `D3D12`, every non-null encoder the overload
returns is the result of a `Setup` call that returned true. -/
theorem C27_create_without_input_skips_setup :
    (Demo.OneEncoder.CreateWithConfig "Vulkan" none 4712 {}).map
        (Option.map (fun E => E.SetupCalls)) = some (some []) ∧
    (∀ (F : FVideoEncoderFactory) (RHIName : String)
      (CreatedInput : Option FVideoEncoderInput) (InID : Nat) (config : FLayerConfig)
      (E : FVideoEncoder), (RHIName = "D3D11" ∨ RHIName = "D3D12") →
      F.CreateWithConfig RHIName CreatedInput InID config = some (some E) →
      ∃ (E0 : FVideoEncoder) (Input : FVideoEncoderInput),
        CreatedInput = some Input ∧ (E0.Setup Input config).1 = true ∧
        E = (E0.Setup Input config).2) := by
  refine ⟨by decide, ?_⟩
  intro F RHIName CreatedInput InID config E hrhi h
  exact createLoop_d3d F RHIName CreatedInput InID config E hrhi F.AvailableEncoders 0 h

end AVEncoder

namespace PixelStreaming

open FPixelStreamingModule

/-! ### The platform check of `InitStreamer` -/

theorem check_incompatible (Env : FInitEnv)
    (hinc : Env.Factory.HasEncoderForCodec .H264 = false ∨
      (Env.bPlatformWindows = true ∧ Env.bWin8OrHigher = false)) :
    (CheckPlatformCompatibility Env).1 = false ∧
      (CheckPlatformCompatibility Env).2 ≠ [] ∧
      (Env.Factory.HasEncoderForCodec .H264 = false →
        FDiagnostic.MessageDialog NoEncoderError ∈ (CheckPlatformCompatibility Env).2) ∧
      (Env.bPlatformWindows = true ∧ Env.bWin8OrHigher = false →
        FDiagnostic.MessageDialog WindowsVersionError ∈ (CheckPlatformCompatibility Env).2) := by
  unfold CheckPlatformCompatibility FStreamer.CheckPlatformCompatibility
  cases h1 : Env.Factory.HasEncoderForCodec .H264 <;> cases h2 : Env.bPlatformWindows <;>
    cases h3 : Env.bWin8OrHigher <;> simp_all

/-! ### C25 -/

/-- C25: when the encoder factory has no encoder for H264, or the build is for Windows and
the Windows version check fails, `InitStreamer` returns a module that differs from the one it
was called on only by new diagnostics, of which there is at least one: the Streamer, the
back-buffer and game-mode delegate subscriptions and the modular feature registration are as
before (absent on a module as constructed). When the command line names an endpoint outside
the editor, the diagnostics include the message dialog of each failed check. -/
theorem C25_incompatible_platform_leaves_pipeline_disabled (M : FPixelStreamingModule)
    (Env : FInitEnv)
    (hinc : Env.Factory.HasEncoderForCodec .H264 = false ∨
      (Env.bPlatformWindows = true ∧ Env.bWin8OrHigher = false)) :
    ∃ M1 Emitted, M.InitStreamer Env = some M1 ∧
      M1 = { M with Diagnostics := M.Diagnostics ++ Emitted } ∧ Emitted ≠ [] ∧
      M1.Streamer = M.Streamer ∧
      M1.bBackBufferDelegate = M.bBackBufferDelegate ∧
      M1.bGameModeDelegates = M.bGameModeDelegates ∧
      M1.bModularFeatureRegistered = M.bModularFeatureRegistered ∧
      (SignallingServerURL Env ≠ none → Env.GIsEditor = false →
        (Env.Factory.HasEncoderForCodec .H264 = false →
          FDiagnostic.MessageDialog NoEncoderError ∈ Emitted) ∧
        (Env.bPlatformWindows = true ∧ Env.bWin8OrHigher = false →
          FDiagnostic.MessageDialog WindowsVersionError ∈ Emitted)) := by
  obtain ⟨hc1, hc2, hc3, hc4⟩ := check_incompatible Env hinc
  have key : ∃ Emitted, M.InitStreamer Env
      = some { M with Diagnostics := M.Diagnostics ++ Emitted } ∧ Emitted ≠ [] ∧
      (SignallingServerURL Env ≠ none → Env.GIsEditor = false →
        (Env.Factory.HasEncoderForCodec .H264 = false →
          FDiagnostic.MessageDialog NoEncoderError ∈ Emitted) ∧
        (Env.bPlatformWindows = true ∧ Env.bWin8OrHigher = false →
          FDiagnostic.MessageDialog WindowsVersionError ∈ Emitted)) := by
    cases hurl : SignallingServerURL Env with
    | none =>
      exact ⟨[.Log DisabledMessage], by simp [InitStreamer, hurl], by simp,
        fun h => absurd rfl h⟩
    | some r =>
      obtain ⟨URL, Deprecated⟩ := r
      cases hed : Env.GIsEditor with
      | true =>
        exact ⟨Deprecated ++ [.Log ("PixelStreaming endpoint ID: " ++ Env.StreamerId)] ++
          [.MessageDialog EditorError, .Error EditorError],
          by simp [InitStreamer, hurl, hed], by simp, fun _ h => by cases h⟩
      | false =>
        refine ⟨Deprecated ++ [.Log ("PixelStreaming endpoint ID: " ++ Env.StreamerId)] ++
          (CheckPlatformCompatibility Env).2,
          by simp [InitStreamer, hurl, hed, hc1], by simp,
          fun _ _ => ⟨fun h => ?_, fun h => ?_⟩⟩
        · exact List.mem_append_right _ (hc3 h)
        · exact List.mem_append_right _ (hc4 h)
  obtain ⟨Emitted, hrun, hne, hdiag⟩ := key
  exact ⟨{ M with Diagnostics := M.Diagnostics ++ Emitted }, Emitted, hrun, rfl, hne, rfl, rfl,
    rfl, rfl, hdiag⟩

/-- C25, witness: the module as constructed, a command line with an endpoint, and an encoder
factory without any encoder. -/
theorem C25_incompatible_platform_leaves_pipeline_disabled_witness :
    Demo.NoEncoderEnv.Factory.HasEncoderForCodec .H264 = false ∧
    ∃ M1 Emitted, FPixelStreamingModule.New.InitStreamer Demo.NoEncoderEnv = some M1 ∧
      M1.Streamer = none ∧ M1.bBackBufferDelegate = false ∧ M1.bGameModeDelegates = false ∧
      M1.bModularFeatureRegistered = false ∧ M1.Diagnostics = Emitted ∧
      FDiagnostic.MessageDialog NoEncoderError ∈ Emitted := by
  have hno : Demo.NoEncoderEnv.Factory.HasEncoderForCodec .H264 = false := by decide
  obtain ⟨M1, Emitted, h1, h2, -, h4, h5, h6, h7, h8⟩ :=
    C25_incompatible_platform_leaves_pipeline_disabled FPixelStreamingModule.New
      Demo.NoEncoderEnv (Or.inl hno)
  refine ⟨hno, M1, Emitted, h1, h4, h5, h6, h7, ?_, ((h8 (by decide) rfl).1 hno)⟩
  rw [h2]; simp [FPixelStreamingModule.New]

/-! ### C26 -/

/-- C26: on a module with a Streamer, after `FreezeFrame(nullptr)` and `UnfreezeFrame()` the
back-buffer capture is still pending while the module is not frozen. On the module whose
Streamer has the session `p1`, the next `OnBackBufferReady_RenderThread` then sends a freeze
frame to the Streamer, after the unfreeze and without another `FreezeFrame`: the Streamer
caches the image and `p1` receives it after its unfreeze message, while the module stays not
frozen. -/
theorem C26_pending_capture_survives_unfreeze :
    (∀ (M : FPixelStreamingModule) (S : FStreamer) (Env : FJpegEnv),
      (RunFreeze { M with Streamer := some S } [.FreezeFrame Env none, .UnfreezeFrame]).map
        (fun M1 => (M1.bCaptureNextBackBufferAndStream, M1.bFrozen)) = some (true, false)) ∧
    (Demo.StreamingModule.RunFreeze [.FreezeFrame Demo.JpegEnv none, .UnfreezeFrame,
        .OnBackBufferReady_RenderThread Demo.JpegEnv 5]).map
      (fun M1 => (M1.bFrozen, M1.bCaptureNextBackBufferAndStream,
        M1.Streamer.map (fun S => (S.CachedJpegBytes,
          (S.Players.Find "p1").map (fun P => P.Calls)))))
      = some (false, false, some ([1, 2, 3],
          some [.OnOffer "sdp1", .SendKeyFrame, .SendKeyFrame, .SendUnfreezeFrame,
            .SendFreezeFrame [1, 2, 3]])) := by
  refine ⟨?_, by rfl⟩
  intro M S Env
  simp [RunFreeze, StepFreeze, FreezeFrame, UnfreezeFrame]

end PixelStreaming
